import Mathlib

/-!
Shallow embedding of the planning-graph core of `my_planning_graph.py`.

Python objects (`PgNode_s`, `PgNode_a`) are mutable and compare by value
(fluent + polarity for fact nodes, action name for action nodes), while their
`parents` / `children` / `mutex` attributes live on the individual objects.
We therefore model the heap explicitly: fact-node objects and action-node
objects live in two stores, indexed by ids, and every Python `set` of nodes
becomes a list of ids with value-based (not id-based) membership and insertion,
exactly mirroring Python's `__eq__` / `__hash__` on the node classes.
-/

namespace PlanningModel

/-- A polarized literal: the fluent symbol together with the polarity flag,
mirroring the `(symbol, is_pos)` pair carried by `PgNode_s`. -/
structure Lit where
  symbol : Nat
  is_pos : Bool
deriving DecidableEq, Repr

instance : Inhabited Lit := ⟨⟨0, true⟩⟩

/-- Ground-action names.  The Python code builds no-op names `Noop_pos(f)` and
`Noop_neg(f)` from the fluent, so they can never collide with each other nor
with catalog actions; the constructors reflect that. -/
inductive AName where
  | user (n : Nat)
  | noopPos (f : Nat)
  | noopNeg (f : Nat)
deriving DecidableEq, Repr

/-- A ground action as consumed by the graph: positive / negative precondition
fluents and add / delete effect fluents (`aimacode` `Action`). -/
structure PAction where
  name : AName
  precond_pos : List Nat
  precond_neg : List Nat
  effect_add : List Nat
  effect_rem : List Nat
deriving DecidableEq, Repr

instance : Inhabited PAction := ⟨⟨.user 0, [], [], [], []⟩⟩

/-- Object state of one `PgNode_s`: its literal value plus the mutable
`parents` (action ids), `children` (action ids) and `mutex` (fact ids). -/
structure SNode where
  symbol : Nat
  is_pos : Bool
  parents : List Nat
  children : List Nat
  mutex : List Nat
deriving DecidableEq, Repr

instance : Inhabited SNode := ⟨⟨0, true, [], [], []⟩⟩

/-- Object state of one `PgNode_a`: its action, the ids of the fact-node
objects freshly built by `precond_s_nodes` / `effect_s_nodes`, the derived
persistence flag, and the mutable adjacency and mutex sets. -/
structure ANode where
  action : PAction
  prenodes : List Nat
  effnodes : List Nat
  is_persistent : Bool
  parents : List Nat
  children : List Nat
  mutex : List Nat
deriving DecidableEq, Repr

instance : Inhabited ANode := ⟨⟨default, [], [], false, [], [], []⟩⟩

/-- The whole mutable state of one `PlanningGraph`: the two object stores and
the `s_levels` / `a_levels` lists of layers (each layer a list of ids). -/
structure GraphState where
  snodes : List SNode
  anodes : List ANode
  s_levels : List (List Nat)
  a_levels : List (List Nat)
  serial : Bool
deriving DecidableEq, Repr

instance : Inhabited GraphState := ⟨⟨[], [], [], [], true⟩⟩

def sNodeAt (st : GraphState) (i : Nat) : SNode := st.snodes.getD i default

def aNodeAt (st : GraphState) (i : Nat) : ANode := st.anodes.getD i default

/-- The literal value of a fact-node object (the identity `PgNode_s.__eq__`
compares). -/
def sLit (st : GraphState) (i : Nat) : Lit := ⟨(sNodeAt st i).symbol, (sNodeAt st i).is_pos⟩

/-- The action of an action-node object; `PgNode_a.__eq__` compares its name. -/
def aAct (st : GraphState) (i : Nat) : PAction := (aNodeAt st i).action

/-- Python set membership of a fact node in a set of fact nodes: by value. -/
def sMember (st : GraphState) (ids : List Nat) (l : Lit) : Bool :=
  ids.any fun j => decide (sLit st j = l)

/-- Python set membership of an action node in a set of action nodes: by name. -/
def aMember (st : GraphState) (ids : List Nat) (nm : AName) : Bool :=
  ids.any fun j => decide ((aAct st j).name = nm)

/-- The literal values of a list of fact-node ids. -/
def litsOf (st : GraphState) (ids : List Nat) : List Lit := ids.map (sLit st)

/-- PgNode.is_mutex for fact nodes: `other in self.mutex`, value membership. -/
def is_mutex_s (st : GraphState) (i j : Nat) : Bool :=
  sMember st (sNodeAt st i).mutex (sLit st j)

/-- PgNode.is_mutex for action nodes: `other in self.mutex`, name membership. -/
def is_mutex_a (st : GraphState) (i j : Nat) : Bool :=
  aMember st (aNodeAt st i).mutex (aAct st j).name

/-- A reference to a node object of either kind, as passed to `mutexify` and
`is_mutex`. -/
inductive NRef where
  | sref (i : Nat)
  | aref (i : Nat)
deriving DecidableEq, Repr

/-- PgNode.is_mutex on arbitrary node references.  A cross-kind membership test
is always false in Python (`PgNode_s.__eq__` returns a falsy value on a
non-`PgNode_s` argument), so the mixed cases produce `false`. -/
def is_mutex (st : GraphState) : NRef → NRef → Bool
  | .sref i, .sref j => is_mutex_s st i j
  | .aref i, .aref j => is_mutex_a st i j
  | _, _ => false

def setSNode (st : GraphState) (i : Nat) (n : SNode) : GraphState :=
  { st with snodes := st.snodes.set i n }

def setANode (st : GraphState) (i : Nat) (n : ANode) : GraphState :=
  { st with anodes := st.anodes.set i n }

/-- `node_i.mutex.add(node_j)` for fact nodes: a Python set add, which is a
no-op when a value-equal node is already present. -/
def addSMutex (st : GraphState) (i j : Nat) : GraphState :=
  let n := sNodeAt st i
  if sMember st n.mutex (sLit st j) then st
  else setSNode st i { n with mutex := n.mutex ++ [j] }

/-- `node_i.mutex.add(node_j)` for action nodes. -/
def addAMutex (st : GraphState) (i j : Nat) : GraphState :=
  let n := aNodeAt st i
  if aMember st n.mutex (aAct st j).name then st
  else setANode st i { n with mutex := n.mutex ++ [j] }

/-- `mutexify` on two fact nodes: `node1.mutex.add(node2); node2.mutex.add(node1)`. -/
def mutexify_ss (st : GraphState) (i j : Nat) : GraphState :=
  addSMutex (addSMutex st i j) j i

/-- `mutexify` on two action nodes. -/
def mutexify_aa (st : GraphState) (i j : Nat) : GraphState :=
  addAMutex (addAMutex st i j) j i

/-- `mutexify(node1, node2)`: raises `TypeError` when the two nodes are of
different classes (`type(node1) != type(node2)`), otherwise inserts each node
into the other's mutex set. -/
def mutexify (st : GraphState) : NRef → NRef → Except String GraphState
  | .sref i, .sref j => .ok (mutexify_ss st i j)
  | .aref i, .aref j => .ok (mutexify_aa st i j)
  | _, _ => .error "Attempted to mutex two nodes of different types"

def posLits (syms : List Nat) : List Lit := syms.map fun s => ⟨s, true⟩

def negLits (syms : List Nat) : List Lit := syms.map fun s => ⟨s, false⟩

/-- Set insertion of a literal into a list of literals (keep-first semantics of
a Python set of `PgNode_s` values). -/
def insertLit (ls : List Lit) (l : Lit) : List Lit := if l ∈ ls then ls else ls ++ [l]

def dedupLits (ls : List Lit) : List Lit := ls.foldl insertLit []

/-- The literal values of `precond_s_nodes`: positive preconditions positively,
negative ones negatively; the Python set collapses value-equal duplicates. -/
def preLits (a : PAction) : List Lit := dedupLits (posLits a.precond_pos ++ negLits a.precond_neg)

/-- The literal values of `effect_s_nodes`: add effects positively, delete
effects negatively, collapsed by value. -/
def effLits (a : PAction) : List Lit := dedupLits (posLits a.effect_add ++ negLits a.effect_rem)

def litSetSub (xs ys : List Lit) : Bool := xs.all fun l => decide (l ∈ ys)

/-- Python set equality (`==` on two sets): mutual inclusion of values. -/
def litSetEq (xs ys : List Lit) : Bool := litSetSub xs ys && litSetSub ys xs

/-- The consecutive ids `base, base+1, ...` of `n` freshly allocated nodes. -/
def idsFrom (base : Nat) : Nat → List Nat
  | 0 => []
  | n + 1 => base :: idsFrom (base + 1) n

/-- Allocate fresh fact-node objects (empty parents, children and mutex, as in
`PgNode.__init__`) for the given literals, returning their ids in order. -/
def allocSNodes (st : GraphState) (ls : List Lit) : GraphState × List Nat :=
  (⟨st.snodes ++ ls.map (fun l => ⟨l.symbol, l.is_pos, [], [], []⟩),
    st.anodes, st.s_levels, st.a_levels, st.serial⟩,
   idsFrom st.snodes.length ls.length)

/-- `PgNode_a.__init__`: allocate the prenode and effnode fact objects from the
action's preconditions and effects and derive the persistence flag by value-set
equality of prenodes and effnodes (`self.prenodes == self.effnodes`).  A
literal that appears twice allocates only one object (the Python set discards
the value-equal duplicate immediately, leaving it unreachable). -/
def newANode (st : GraphState) (a : PAction) : GraphState × Nat :=
  let p := allocSNodes st (preLits a)
  let q := allocSNodes p.1 (effLits a)
  let node : ANode :=
    ⟨a, p.2, q.2, litSetEq (preLits a) (effLits a), [], [], []⟩
  (⟨q.1.snodes, q.1.anodes ++ [node], q.1.s_levels, q.1.a_levels, q.1.serial⟩,
   q.1.anodes.length)

/-- Value subset test `node.prenodes <= s_levels[level]` between two sets of
fact nodes: every literal value on the left occurs on the right. -/
def subsetLits (st : GraphState) (ids layer : List Nat) : Bool :=
  (litsOf st ids).all fun l => sMember st layer l

/-- Set insertion of an action id into a set of action nodes: no-op when a
name-equal node is already present. -/
def aInsert (st : GraphState) (ids : List Nat) (j : Nat) : List Nat :=
  if aMember st ids (aAct st j).name then ids else ids ++ [j]

/-- Set insertion of a fact id into a set of fact nodes: no-op when a
value-equal node is already present. -/
def sInsert (st : GraphState) (ids : List Nat) (j : Nat) : List Nat :=
  if sMember st ids (sLit st j) then ids else ids ++ [j]

/-- One iteration of the `add_action_level` loop body: build the candidate
`PgNode_a`; if its prenodes are a value-subset of fact layer `level`, set its
`parents` to its prenodes (the freshly built precondition objects, not the
fact-layer objects) and add it to the `new_actions` set. -/
def add_action_step (level : Nat) (acc : GraphState × List Nat) (a : PAction) :
    GraphState × List Nat :=
  let r := newANode acc.1 a
  let st1 := r.1
  let id := r.2
  if subsetLits st1 (aNodeAt st1 id).prenodes (st1.s_levels.getD level []) then
    let st2 := setANode st1 id { aNodeAt st1 id with parents := (aNodeAt st1 id).prenodes }
    (st2, aInsert st2 acc.2 id)
  else (st1, acc.2)

/-- `add_action_level`: run the loop body over `all_actions` and append the
admitted set as the new action layer. -/
def add_action_level (st : GraphState) (all_acts : List PAction) (level : Nat) : GraphState :=
  let r := all_acts.foldl (add_action_step level) (st, [])
  { r.1 with a_levels := r.1.a_levels ++ [r.2] }

/-- First loop of `add_literal_level`: for one action node of the previous
action layer, add each of its effnodes to its `children` set and to the
`new_literals` set (value-deduplicated, keeping the first object per literal). -/
def literalStep (acc : GraphState × List Nat) (aid : Nat) : GraphState × List Nat :=
  (aNodeAt acc.1 aid).effnodes.foldl
    (fun acc2 eid =>
      let st := acc2.1
      let n := aNodeAt st aid
      let st2 := setANode st aid { n with children := sInsert st n.children eid }
      (st2, sInsert st2 acc2.2 eid))
    acc

/-- Second loop of `add_literal_level`: for one collected fact node, add every
action node of the previous layer whose effnodes contain its value to its
`parents` set. -/
def parentStep (lvl : List Nat) (st : GraphState) (nid : Nat) : GraphState :=
  lvl.foldl
    (fun st2 aid =>
      if sMember st2 (aNodeAt st2 aid).effnodes (sLit st2 nid) then
        let n := sNodeAt st2 nid
        setSNode st2 nid { n with parents := aInsert st2 n.parents aid }
      else st2)
    st

/-- `add_literal_level`: collect the effnodes of action layer `level - 1` as the
new fact layer, then connect parents, then append the layer. -/
def add_literal_level (st : GraphState) (level : Nat) : GraphState :=
  let lvl := st.a_levels.getD (level - 1) []
  let r := lvl.foldl literalStep (st, [])
  let st2 := r.2.foldl (parentStep lvl) r.1
  { st2 with s_levels := st2.s_levels ++ [r.2] }

/-- `serialize_actions`: mutex when the graph is serial and neither action is
persistent. -/
def serialize_actions (st : GraphState) (i j : Nat) : Bool :=
  if !st.serial then false
  else if (aNodeAt st i).is_persistent || (aNodeAt st j).is_persistent then false
  else true

/-- `get_expressions(action)`: add effects as positive literals plus delete
effects negated, as a plain list. -/
def actionEffExprs (a : PAction) : List Lit := posLits a.effect_add ++ negLits a.effect_rem

/-- `get_expressions(action, cond)`: positive preconditions plus negated
negative preconditions. -/
def actionCondExprs (a : PAction) : List Lit := posLits a.precond_pos ++ negLits a.precond_neg

/-- The polarity clash test used inside the action-mutex double loops: one
expression is `~X`, the other is the matching positive `X`. -/
def oppLit (l1 l2 : Lit) : Bool :=
  decide (l1.symbol = l2.symbol) && decide (l1.is_pos ≠ l2.is_pos)

/-- `inconsistent_effects_mutex`: an effect of one action (including connected
child literals) is the negation of an effect of the other. -/
def inconsistent_effects_mutex (st : GraphState) (i j : Nat) : Bool :=
  let eff1 := actionEffExprs (aAct st i) ++ litsOf st (aNodeAt st i).children
  let eff2 := actionEffExprs (aAct st j) ++ litsOf st (aNodeAt st j).children
  eff1.any fun e1 => eff2.any fun e2 => oppLit e1 e2

/-- `interference_mutex`: a precondition of one action (including connected
parent literals) is the negation of an effect of the other, in either
direction. -/
def interference_mutex (st : GraphState) (i j : Nat) : Bool :=
  let pre1 := actionCondExprs (aAct st i) ++ litsOf st (aNodeAt st i).parents
  let pre2 := actionCondExprs (aAct st j) ++ litsOf st (aNodeAt st j).parents
  let eff1 := actionEffExprs (aAct st i) ++ litsOf st (aNodeAt st i).children
  let eff2 := actionEffExprs (aAct st j) ++ litsOf st (aNodeAt st j).children
  (pre1.any fun p => eff2.any fun e => oppLit p e) ||
    (pre2.any fun p => eff1.any fun e => oppLit p e)

/-- `competing_needs_mutex`: some parent of one node is mutex (value-based
`is_mutex`) with some parent of the other. -/
def competing_needs_mutex (st : GraphState) (i j : Nat) : Bool :=
  (aNodeAt st i).parents.any fun p =>
    (aNodeAt st j).parents.any fun p2 => is_mutex_s st p p2

/-- The disjunction tested by `update_a_mutex` for one pair. -/
def a_mutex_test (st : GraphState) (i j : Nat) : Bool :=
  serialize_actions st i j || inconsistent_effects_mutex st i j ||
    interference_mutex st i j || competing_needs_mutex st i j

/-- The pairwise loop shared by `update_a_mutex` and `update_s_mutex`:
`for i, n1 in enumerate(nodelist[:-1]): for n2 in nodelist[i+1:]`. -/
def processPairs (f : GraphState → Nat → Nat → GraphState) :
    GraphState → List Nat → GraphState
  | st, [] => st
  | st, n1 :: rest => processPairs f (rest.foldl (fun s n2 => f s n1 n2) st) rest

def update_a_pair (st : GraphState) (i j : Nat) : GraphState :=
  if a_mutex_test st i j then mutexify_aa st i j else st

/-- `update_a_mutex` over one action layer. -/
def update_a_mutex (st : GraphState) (ids : List Nat) : GraphState :=
  processPairs update_a_pair st ids

/-- `negation_mutex`: same symbol, opposite polarity flags. -/
def negation_mutex (st : GraphState) (i j : Nat) : Bool :=
  decide ((sNodeAt st i).symbol = (sNodeAt st j).symbol) &&
    (((sNodeAt st i).is_pos && !(sNodeAt st j).is_pos) ||
      (!(sNodeAt st i).is_pos && (sNodeAt st j).is_pos))

/-- `inconsistent_support_mutex`: the indicator stays true iff every pair of
parents is action-mutex (vacuously true over an empty parent set), and the
result is `is_mutex or indicator`. -/
def inconsistent_support_mutex (st : GraphState) (i j : Nat) : Bool :=
  let indicator := (sNodeAt st i).parents.all fun p =>
    (sNodeAt st j).parents.all fun p2 => is_mutex_a st p p2
  is_mutex_s st i j || indicator

def update_s_pair (st : GraphState) (i j : Nat) : GraphState :=
  if negation_mutex st i j || inconsistent_support_mutex st i j then mutexify_ss st i j
  else st

/-- `update_s_mutex` over one fact layer. -/
def update_s_mutex (st : GraphState) (ids : List Nat) : GraphState :=
  processPairs update_s_pair st ids

/-- `noop_actions`: for each fluent of the problem's `state_map`, a positive
persistence action (positive precondition, add effect) and a negative one
(negative precondition, delete effect). -/
def noop_actions (literal_list : List Nat) : List PAction :=
  literal_list.foldr
    (fun f acc =>
      ⟨.noopPos f, [f], [], [f], []⟩ :: ⟨.noopNeg f, [], [f], [], [f]⟩ :: acc)
    []

/-- One insertion of the S0 initialization loop of `create_graph`:
`s_levels[0].add(PgNode_s(literal, b))` with set semantics; a value-equal
duplicate creates no reachable object. -/
def initStep (b : Bool) (st : GraphState) (f : Nat) : GraphState :=
  let l : Lit := ⟨f, b⟩
  let lvl0 := st.s_levels.getD 0 []
  if sMember st lvl0 l then st
  else
    let r := allocSNodes st [l]
    { r.1 with s_levels := [lvl0 ++ r.2] }

/-- The S0 initialization of `create_graph`: an empty layer, then one fact node
per positive start literal, then one per negative start literal. -/
def init_graph (pos neg : List Nat) (serial : Bool) : GraphState :=
  let st0 : GraphState := ⟨[], [], [[]], [], serial⟩
  let st1 := pos.foldl (initStep true) st0
  neg.foldl (initStep false) st1

/-- One round of the `while not leveled` loop of `create_graph`: expand the
action level, compute its mutexes, expand the next fact level, compute its
mutexes. -/
def buildRound (all_acts : List PAction) (st : GraphState) : GraphState :=
  let level := st.a_levels.length
  let st1 := add_action_level st all_acts level
  let st2 := update_a_mutex st1 (st1.a_levels.getD level [])
  let st3 := add_literal_level st2 (level + 1)
  update_s_mutex st3 (st3.s_levels.getD (level + 1) [])

/-- Python set equality of two fact layers (`s_levels[level] == s_levels[level-1]`). -/
def layerLitsEq (st : GraphState) (i j : Nat) : Bool :=
  litSetEq (litsOf st (st.s_levels.getD i [])) (litsOf st (st.s_levels.getD j []))

/-- The `while not leveled` loop of `create_graph`, with explicit fuel standing
for the unbounded Python loop; `none` means the fuel ran out before the graph
leveled. -/
def create_graph (all_acts : List PAction) : Nat → GraphState → Option GraphState
  | 0, _ => none
  | fuel + 1, st =>
    let st4 := buildRound all_acts st
    let level := st4.s_levels.length - 1
    if layerLitsEq st4 level (level - 1) then some st4
    else create_graph all_acts fuel st4

/-- The problem data consumed by `PlanningGraph.__init__`: the ground-action
catalog, the fluent ordering table, and the goal literals. -/
structure PProblem where
  actions_list : List PAction
  state_map : List Nat
  goal : List Nat
deriving Repr

/-- `self.all_actions = self.problem.actions_list + self.noop_actions(...)`. -/
def all_actions (pr : PProblem) : List PAction :=
  pr.actions_list ++ noop_actions pr.state_map

/-- `PlanningGraph.__init__` followed by `create_graph`, taking the decoded
positive / negative start literals as the collaborator `decode_state` output. -/
def planning_graph (pr : PProblem) (pos neg : List Nat) (serial : Bool) (fuel : Nat) :
    Option GraphState :=
  create_graph (all_actions pr) fuel (init_graph pos neg serial)

/-- The level-scanning loop of `h_levelsum`: at each layer record (and sum) the
index for each still-unfound goal found there, drop the found goals, and stop
early once nothing is unfound.  Goals never found contribute nothing. -/
def levelsumAux (st : GraphState) : List (List Nat) → Nat → List Lit → Nat
  | [], _, _ => 0
  | lvl :: rest, idx, unfound =>
    let found := unfound.filter fun g => sMember st lvl g
    let remaining := unfound.filter fun g => !sMember st lvl g
    idx * found.length +
      (if remaining.isEmpty then 0 else levelsumAux st rest (idx + 1) remaining)

/-- `h_levelsum`: build the goal fact-node values, scan the fact layers in
order, and return the sum of the first-appearance indices of the goals that
were found. -/
def h_levelsum (st : GraphState) (goal : List Nat) : Nat :=
  levelsumAux st st.s_levels 0 (dedupLits (posLits goal))

/-- The Python class of a node reference: `type(node)` is `PgNode_s` for fact
nodes and `PgNode_a` for action nodes. -/
def nrefKind : NRef → Bool
  | .sref _ => true
  | .aref _ => false

/-- The referenced id points into the corresponding object store. -/
def nrefValid (st : GraphState) : NRef → Prop
  | .sref i => i < st.snodes.length
  | .aref i => i < st.anodes.length

instance (st : GraphState) (n : NRef) : Decidable (nrefValid st n) := by
  cases n <;> simp [nrefValid] <;> infer_instance

/-- The operations `create_graph` performs on node objects: creating fact and
action nodes, symmetric `mutexify` insertion (on a `TypeError` the state is
left as it was at the raise point), linking a parent action into a fact node,
linking a child fact into an action node, and the `parents = prenodes`
assignment of `add_action_level`. -/
inductive GOp where
  | addS (symbol : Nat) (is_pos : Bool)
  | addA (a : PAction)
  | mutexop (n1 n2 : NRef)
  | sparentAdd (nid aid : Nat)
  | achildAdd (aid eid : Nat)
  | aparentsSet (aid : Nat)
deriving DecidableEq, Repr

/-- Apply one graph operation. -/
def applyOp (st : GraphState) : GOp → GraphState
  | .addS symbol b => (allocSNodes st [⟨symbol, b⟩]).1
  | .addA a => (newANode st a).1
  | .mutexop n1 n2 =>
    match mutexify st n1 n2 with
    | .ok st2 => st2
    | .error _ => st
  | .sparentAdd nid aid =>
    let n := sNodeAt st nid
    setSNode st nid { n with parents := aInsert st n.parents aid }
  | .achildAdd aid eid =>
    let n := aNodeAt st aid
    setANode st aid { n with children := sInsert st n.children eid }
  | .aparentsSet aid =>
    let n := aNodeAt st aid
    setANode st aid { n with parents := n.prenodes }

/-- Run a sequence of graph operations from a given state. -/
def runOps (st : GraphState) (ops : List GOp) : GraphState := ops.foldl applyOp st

/-- Every id stored in a mutex set points into the corresponding store (true
of every state the program can reach: Python has no dangling references). -/
def mutexIdsOk (st : GraphState) : Bool :=
  st.snodes.all (fun n => n.mutex.all fun k => k < st.snodes.length) &&
    st.anodes.all (fun n => n.mutex.all fun k => k < st.anodes.length)

/-- A `mutexify` call refers to nodes that exist; the other operations carry
no reference that matters for mutex reasoning. -/
def opOk (st : GraphState) : GOp → Bool
  | .mutexop n1 n2 => decide (nrefValid st n1) && decide (nrefValid st n2)
  | _ => true

/-- Every operation of the sequence is valid in the state where it runs. -/
def opsOk (st : GraphState) : List GOp → Bool
  | [] => true
  | op :: rest => opOk st op && opsOk (applyOp st op) rest

/-! ### Invariants of graph construction -/

/-- Two literal lists denote the same Python set. -/
def eqset (xs ys : List Lit) : Prop := ∀ l, l ∈ xs ↔ l ∈ ys

/-- The admission test of `add_action_level` at the value level: all
precondition literals of the action occur in the layer's literal set. -/
def admissibleB (a : PAction) (lits : List Lit) : Bool := litSetSub (preLits a) lits

/-- The value-level transition of one graph round: the literals of the next
fact layer are the effect literals of the actions admissible on the current
fact layer. -/
def nextLits (pa : List PAction) (lits : List Lit) : List Lit :=
  dedupLits ((pa.filter fun a => admissibleB a lits).foldr (fun a acc => effLits a ++ acc) [])

/-- Structural invariant of every state reached by `create_graph`: layer ids
and stored adjacency ids are in range and free of duplicates, the fresh
prenode / effnode objects of every action node carry exactly the action's
precondition / effect literals, the persistence flag is the value-set equality
of the two, an action node's `parents` is either still empty or the
`prenodes` assignment made on admission (never the fact-layer node objects),
admitted action nodes have received that assignment, and prenode objects are
disjoint from every fact layer and from all effnode sets, with permanently
empty mutex sets. -/
structure Inv (st : GraphState) : Prop where
  slev : ∀ l ∈ st.s_levels, ∀ i ∈ l, i < st.snodes.length
  alev : ∀ l ∈ st.a_levels, ∀ i ∈ l, i < st.anodes.length
  slevnd : ∀ l ∈ st.s_levels, l.Nodup
  alevnd : ∀ l ∈ st.a_levels, l.Nodup
  mids : mutexIdsOk st = true
  apre : ∀ n ∈ st.anodes, ∀ e ∈ n.prenodes, e < st.snodes.length
  aeff : ∀ n ∈ st.anodes, ∀ e ∈ n.effnodes, e < st.snodes.length
  apreLits : ∀ n ∈ st.anodes, litsOf st n.prenodes = preLits n.action
  aeffLits : ∀ n ∈ st.anodes, litsOf st n.effnodes = effLits n.action
  apers : ∀ n ∈ st.anodes, n.is_persistent = litSetEq (preLits n.action) (effLits n.action)
  aparents : ∀ n ∈ st.anodes, n.parents = [] ∨ n.parents = n.prenodes
  alevparents : ∀ l ∈ st.a_levels, ∀ id ∈ l,
    (aNodeAt st id).parents = (aNodeAt st id).prenodes
  prefresh : ∀ n ∈ st.anodes, ∀ p ∈ n.prenodes, (sNodeAt st p).mutex = []
  prelev : ∀ n ∈ st.anodes, ∀ p ∈ n.prenodes, ∀ l ∈ st.s_levels, p ∉ l
  preeff : ∀ n ∈ st.anodes, ∀ p ∈ n.prenodes, ∀ m ∈ st.anodes, p ∉ m.effnodes

/-- What stays fixed or only grows when construction extends a state. -/
structure SExt (st st2 : GraphState) : Prop where
  slen : st.snodes.length ≤ st2.snodes.length
  alen : st.anodes.length ≤ st2.anodes.length
  slit : ∀ k < st.snodes.length, sLit st2 k = sLit st k
  afix : ∀ k < st.anodes.length, (aNodeAt st2 k).action = (aNodeAt st k).action ∧
    (aNodeAt st2 k).prenodes = (aNodeAt st k).prenodes ∧
    (aNodeAt st2 k).effnodes = (aNodeAt st k).effnodes ∧
    (aNodeAt st2 k).is_persistent = (aNodeAt st k).is_persistent
  slevp : ∃ t, st2.s_levels = st.s_levels ++ t
  alevp : ∃ t, st2.a_levels = st.a_levels ++ t
  ser : st2.serial = st.serial
  smut : ∀ a b, b < st.snodes.length → is_mutex_s st a b = true → is_mutex_s st2 a b = true
  amut : ∀ a b, b < st.anodes.length → is_mutex_a st a b = true → is_mutex_a st2 a b = true

/-! ### Concrete instances used by witnesses and counterexamples -/

/-- Two fact nodes over distinct fluents, both with the empty parent set that
`PgNode.__init__` gives every fresh node. -/
def emptyParentsSt : GraphState :=
  ⟨[⟨0, true, [], [], []⟩, ⟨1, true, [], [], []⟩], [], [[0, 1]], [], true⟩

/-- Another two-fact-node state over distinct fluents with empty parent sets. -/
def emptyParentsStW : GraphState :=
  ⟨[⟨2, true, [], [], []⟩, ⟨3, false, [], [], []⟩], [], [[0, 1]], [], true⟩

/-- A one-fact-node, one-action-node state. -/
def oneEachSt : GraphState :=
  ⟨[⟨0, true, [], [], []⟩], [⟨⟨.user 0, [], [], [], []⟩, [], [], true, [], [], []⟩],
   [[0]], [[0]], true⟩

/-- A one-fluent problem with an empty catalog: the graph levels immediately
and the goal fluent 1 is never produced by any effect. -/
def trivProblem : PProblem := ⟨[], [0], [1]⟩

/-- The graph built from `trivProblem` with start state `{+0}`. -/
def trivGraph : GraphState := (planning_graph trivProblem [0] [] true 2).getD default

/-- Shape relation of the first `add_literal_level` loop: fact nodes, layers
and the serial flag are untouched, and every action node keeps all fields
except possibly `children`. -/
def achShape (st st1 : GraphState) : Prop :=
  st1.snodes = st.snodes ∧ st1.anodes.length = st.anodes.length ∧
    st1.s_levels = st.s_levels ∧ st1.a_levels = st.a_levels ∧
    st1.serial = st.serial ∧
    ∀ k, (aNodeAt st1 k).action = (aNodeAt st k).action ∧
      (aNodeAt st1 k).prenodes = (aNodeAt st k).prenodes ∧
      (aNodeAt st1 k).effnodes = (aNodeAt st k).effnodes ∧
      (aNodeAt st1 k).is_persistent = (aNodeAt st k).is_persistent ∧
      (aNodeAt st1 k).parents = (aNodeAt st k).parents ∧
      (aNodeAt st1 k).mutex = (aNodeAt st k).mutex

/-- Shape relation of the second `add_literal_level` loop: action nodes,
layers and the serial flag are untouched, and every fact node keeps all fields
except possibly `parents`. -/
def sparShape (st st1 : GraphState) : Prop :=
  st1.anodes = st.anodes ∧ st1.snodes.length = st.snodes.length ∧
    st1.s_levels = st.s_levels ∧ st1.a_levels = st.a_levels ∧
    st1.serial = st.serial ∧
    ∀ k, (sNodeAt st1 k).symbol = (sNodeAt st k).symbol ∧
      (sNodeAt st1 k).is_pos = (sNodeAt st k).is_pos ∧
      (sNodeAt st1 k).children = (sNodeAt st k).children ∧
      (sNodeAt st1 k).mutex = (sNodeAt st k).mutex

/-- Invariant carried round to round by `create_graph`: the structural
invariant, the layer-count relation, and the two per-layer mutex guarantees
(serial pairs at every action layer, negation pairs at every computed fact
layer). -/
structure RInv (st : GraphState) : Prop where
  inv : Inv st
  len : st.s_levels.length = st.a_levels.length + 1
  ser : st.serial = true → ∀ l ∈ st.a_levels, ∀ i ∈ l, ∀ j ∈ l, i ≠ j →
    (aNodeAt st i).is_persistent = false → (aNodeAt st j).is_persistent = false →
    is_mutex_a st i j = true
  neg : ∀ lv, 1 ≤ lv → ∀ i ∈ st.s_levels.getD lv [], ∀ j ∈ st.s_levels.getD lv [],
    negation_mutex st i j = true → is_mutex_s st i j = true

/-- Two distinct real actions sharing the precondition `+0`, plus the fluent
table `[0]`: in serial mode their layer-0 action nodes must end mutex. -/
def pr5 : PProblem := ⟨[⟨.user 0, [0], [], [], []⟩, ⟨.user 1, [0], [], [], []⟩], [0], []⟩

/-- The serial graph built from `pr5` with start state `{+0}`. -/
def g5 : GraphState := (planning_graph pr5 [0] [] true 2).getD default

/-- The graph built from `trivProblem` with the contradictory start state
`{+0, -0}`: fact layer 1 holds both polarities of fluent 0. -/
def negGraph : GraphState := (planning_graph trivProblem [0] [0] true 2).getD default

/-- The competing-needs failing input: a deleter of fluent 0 plus one action
preconditioned on `+0` and one on `-0`, fluent table `[0]`, start `{+0}`,
non-serial.  Fact layer 1 holds `+0` and `-0` mutex by negation; action layer
1 then holds the two preconditioned actions. -/
def prC2 : PProblem := ⟨[⟨.user 0, [], [], [], [0]⟩, ⟨.user 1, [0], [], [], []⟩,
  ⟨.user 2, [], [0], [], []⟩], [0], []⟩

/-- The action catalog of `prC2` including its no-ops. -/
def c2acts : List PAction := all_actions prC2

/-- The S0 state of the prC2 run. -/
def c2s0 : GraphState :=
{ snodes := [{ symbol := 0, is_pos := true, parents := [], children := [], mutex := [] }],
  anodes := [],
  s_levels := [[0]],
  a_levels := [],
  serial := false }

/-- The prC2 run after round 1 add_action_level. -/
def c2a1 : GraphState :=
{ snodes := [{ symbol := 0, is_pos := true, parents := [], children := [], mutex := [] },
             { symbol := 0, is_pos := false, parents := [], children := [], mutex := [] },
             { symbol := 0, is_pos := true, parents := [], children := [], mutex := [] },
             { symbol := 0, is_pos := false, parents := [], children := [], mutex := [] },
             { symbol := 0, is_pos := true, parents := [], children := [], mutex := [] },
             { symbol := 0, is_pos := true, parents := [], children := [], mutex := [] },
             { symbol := 0, is_pos := false, parents := [], children := [], mutex := [] },
             { symbol := 0, is_pos := false, parents := [], children := [], mutex := [] }],
  anodes := [{ action := { name := PlanningModel.AName.user 0,
                           precond_pos := [],
                           precond_neg := [],
                           effect_add := [],
                           effect_rem := [0] },
               prenodes := [],
               effnodes := [1],
               is_persistent := false,
               parents := [],
               children := [],
               mutex := [] },
             { action := { name := PlanningModel.AName.user 1,
                           precond_pos := [0],
                           precond_neg := [],
                           effect_add := [],
                           effect_rem := [] },
               prenodes := [2],
               effnodes := [],
               is_persistent := false,
               parents := [2],
               children := [],
               mutex := [] },
             { action := { name := PlanningModel.AName.user 2,
                           precond_pos := [],
                           precond_neg := [0],
                           effect_add := [],
                           effect_rem := [] },
               prenodes := [3],
               effnodes := [],
               is_persistent := false,
               parents := [],
               children := [],
               mutex := [] },
             { action := { name := PlanningModel.AName.noopPos 0,
                           precond_pos := [0],
                           precond_neg := [],
                           effect_add := [0],
                           effect_rem := [] },
               prenodes := [4],
               effnodes := [5],
               is_persistent := true,
               parents := [4],
               children := [],
               mutex := [] },
             { action := { name := PlanningModel.AName.noopNeg 0,
                           precond_pos := [],
                           precond_neg := [0],
                           effect_add := [],
                           effect_rem := [0] },
               prenodes := [6],
               effnodes := [7],
               is_persistent := true,
               parents := [],
               children := [],
               mutex := [] }],
  s_levels := [[0]],
  a_levels := [[0, 1, 3]],
  serial := false }

/-- The prC2 run after round 1 update_a_mutex. -/
def c2b1 : GraphState :=
{ snodes := [{ symbol := 0, is_pos := true, parents := [], children := [], mutex := [] },
             { symbol := 0, is_pos := false, parents := [], children := [], mutex := [] },
             { symbol := 0, is_pos := true, parents := [], children := [], mutex := [] },
             { symbol := 0, is_pos := false, parents := [], children := [], mutex := [] },
             { symbol := 0, is_pos := true, parents := [], children := [], mutex := [] },
             { symbol := 0, is_pos := true, parents := [], children := [], mutex := [] },
             { symbol := 0, is_pos := false, parents := [], children := [], mutex := [] },
             { symbol := 0, is_pos := false, parents := [], children := [], mutex := [] }],
  anodes := [{ action := { name := PlanningModel.AName.user 0,
                           precond_pos := [],
                           precond_neg := [],
                           effect_add := [],
                           effect_rem := [0] },
               prenodes := [],
               effnodes := [1],
               is_persistent := false,
               parents := [],
               children := [],
               mutex := [1, 3] },
             { action := { name := PlanningModel.AName.user 1,
                           precond_pos := [0],
                           precond_neg := [],
                           effect_add := [],
                           effect_rem := [] },
               prenodes := [2],
               effnodes := [],
               is_persistent := false,
               parents := [2],
               children := [],
               mutex := [0] },
             { action := { name := PlanningModel.AName.user 2,
                           precond_pos := [],
                           precond_neg := [0],
                           effect_add := [],
                           effect_rem := [] },
               prenodes := [3],
               effnodes := [],
               is_persistent := false,
               parents := [],
               children := [],
               mutex := [] },
             { action := { name := PlanningModel.AName.noopPos 0,
                           precond_pos := [0],
                           precond_neg := [],
                           effect_add := [0],
                           effect_rem := [] },
               prenodes := [4],
               effnodes := [5],
               is_persistent := true,
               parents := [4],
               children := [],
               mutex := [0] },
             { action := { name := PlanningModel.AName.noopNeg 0,
                           precond_pos := [],
                           precond_neg := [0],
                           effect_add := [],
                           effect_rem := [0] },
               prenodes := [6],
               effnodes := [7],
               is_persistent := true,
               parents := [],
               children := [],
               mutex := [] }],
  s_levels := [[0]],
  a_levels := [[0, 1, 3]],
  serial := false }

/-- The prC2 run after round 1 add_literal_level. -/
def c2c1 : GraphState :=
{ snodes := [{ symbol := 0, is_pos := true, parents := [], children := [], mutex := [] },
             { symbol := 0, is_pos := false, parents := [0], children := [], mutex := [] },
             { symbol := 0, is_pos := true, parents := [], children := [], mutex := [] },
             { symbol := 0, is_pos := false, parents := [], children := [], mutex := [] },
             { symbol := 0, is_pos := true, parents := [], children := [], mutex := [] },
             { symbol := 0, is_pos := true, parents := [3], children := [], mutex := [] },
             { symbol := 0, is_pos := false, parents := [], children := [], mutex := [] },
             { symbol := 0, is_pos := false, parents := [], children := [], mutex := [] }],
  anodes := [{ action := { name := PlanningModel.AName.user 0,
                           precond_pos := [],
                           precond_neg := [],
                           effect_add := [],
                           effect_rem := [0] },
               prenodes := [],
               effnodes := [1],
               is_persistent := false,
               parents := [],
               children := [1],
               mutex := [1, 3] },
             { action := { name := PlanningModel.AName.user 1,
                           precond_pos := [0],
                           precond_neg := [],
                           effect_add := [],
                           effect_rem := [] },
               prenodes := [2],
               effnodes := [],
               is_persistent := false,
               parents := [2],
               children := [],
               mutex := [0] },
             { action := { name := PlanningModel.AName.user 2,
                           precond_pos := [],
                           precond_neg := [0],
                           effect_add := [],
                           effect_rem := [] },
               prenodes := [3],
               effnodes := [],
               is_persistent := false,
               parents := [],
               children := [],
               mutex := [] },
             { action := { name := PlanningModel.AName.noopPos 0,
                           precond_pos := [0],
                           precond_neg := [],
                           effect_add := [0],
                           effect_rem := [] },
               prenodes := [4],
               effnodes := [5],
               is_persistent := true,
               parents := [4],
               children := [5],
               mutex := [0] },
             { action := { name := PlanningModel.AName.noopNeg 0,
                           precond_pos := [],
                           precond_neg := [0],
                           effect_add := [],
                           effect_rem := [0] },
               prenodes := [6],
               effnodes := [7],
               is_persistent := true,
               parents := [],
               children := [],
               mutex := [] }],
  s_levels := [[0], [1, 5]],
  a_levels := [[0, 1, 3]],
  serial := false }

/-- The prC2 run after round 1 update_s_mutex. -/
def c2d1 : GraphState :=
{ snodes := [{ symbol := 0, is_pos := true, parents := [], children := [], mutex := [] },
             { symbol := 0, is_pos := false, parents := [0], children := [], mutex := [5] },
             { symbol := 0, is_pos := true, parents := [], children := [], mutex := [] },
             { symbol := 0, is_pos := false, parents := [], children := [], mutex := [] },
             { symbol := 0, is_pos := true, parents := [], children := [], mutex := [] },
             { symbol := 0, is_pos := true, parents := [3], children := [], mutex := [1] },
             { symbol := 0, is_pos := false, parents := [], children := [], mutex := [] },
             { symbol := 0, is_pos := false, parents := [], children := [], mutex := [] }],
  anodes := [{ action := { name := PlanningModel.AName.user 0,
                           precond_pos := [],
                           precond_neg := [],
                           effect_add := [],
                           effect_rem := [0] },
               prenodes := [],
               effnodes := [1],
               is_persistent := false,
               parents := [],
               children := [1],
               mutex := [1, 3] },
             { action := { name := PlanningModel.AName.user 1,
                           precond_pos := [0],
                           precond_neg := [],
                           effect_add := [],
                           effect_rem := [] },
               prenodes := [2],
               effnodes := [],
               is_persistent := false,
               parents := [2],
               children := [],
               mutex := [0] },
             { action := { name := PlanningModel.AName.user 2,
                           precond_pos := [],
                           precond_neg := [0],
                           effect_add := [],
                           effect_rem := [] },
               prenodes := [3],
               effnodes := [],
               is_persistent := false,
               parents := [],
               children := [],
               mutex := [] },
             { action := { name := PlanningModel.AName.noopPos 0,
                           precond_pos := [0],
                           precond_neg := [],
                           effect_add := [0],
                           effect_rem := [] },
               prenodes := [4],
               effnodes := [5],
               is_persistent := true,
               parents := [4],
               children := [5],
               mutex := [0] },
             { action := { name := PlanningModel.AName.noopNeg 0,
                           precond_pos := [],
                           precond_neg := [0],
                           effect_add := [],
                           effect_rem := [0] },
               prenodes := [6],
               effnodes := [7],
               is_persistent := true,
               parents := [],
               children := [],
               mutex := [] }],
  s_levels := [[0], [1, 5]],
  a_levels := [[0, 1, 3]],
  serial := false }

/-- The prC2 run after round 2 add_action_level. -/
def c2a2 : GraphState :=
{ snodes := [{ symbol := 0, is_pos := true, parents := [], children := [], mutex := [] },
             { symbol := 0, is_pos := false, parents := [0], children := [], mutex := [5] },
             { symbol := 0, is_pos := true, parents := [], children := [], mutex := [] },
             { symbol := 0, is_pos := false, parents := [], children := [], mutex := [] },
             { symbol := 0, is_pos := true, parents := [], children := [], mutex := [] },
             { symbol := 0, is_pos := true, parents := [3], children := [], mutex := [1] },
             { symbol := 0, is_pos := false, parents := [], children := [], mutex := [] },
             { symbol := 0, is_pos := false, parents := [], children := [], mutex := [] },
             { symbol := 0, is_pos := false, parents := [], children := [], mutex := [] },
             { symbol := 0, is_pos := true, parents := [], children := [], mutex := [] },
             { symbol := 0, is_pos := false, parents := [], children := [], mutex := [] },
             { symbol := 0, is_pos := true, parents := [], children := [], mutex := [] },
             { symbol := 0, is_pos := true, parents := [], children := [], mutex := [] },
             { symbol := 0, is_pos := false, parents := [], children := [], mutex := [] },
             { symbol := 0, is_pos := false, parents := [], children := [], mutex := [] }],
  anodes := [{ action := { name := PlanningModel.AName.user 0,
                           precond_pos := [],
                           precond_neg := [],
                           effect_add := [],
                           effect_rem := [0] },
               prenodes := [],
               effnodes := [1],
               is_persistent := false,
               parents := [],
               children := [1],
               mutex := [1, 3] },
             { action := { name := PlanningModel.AName.user 1,
                           precond_pos := [0],
                           precond_neg := [],
                           effect_add := [],
                           effect_rem := [] },
               prenodes := [2],
               effnodes := [],
               is_persistent := false,
               parents := [2],
               children := [],
               mutex := [0] },
             { action := { name := PlanningModel.AName.user 2,
                           precond_pos := [],
                           precond_neg := [0],
                           effect_add := [],
                           effect_rem := [] },
               prenodes := [3],
               effnodes := [],
               is_persistent := false,
               parents := [],
               children := [],
               mutex := [] },
             { action := { name := PlanningModel.AName.noopPos 0,
                           precond_pos := [0],
                           precond_neg := [],
                           effect_add := [0],
                           effect_rem := [] },
               prenodes := [4],
               effnodes := [5],
               is_persistent := true,
               parents := [4],
               children := [5],
               mutex := [0] },
             { action := { name := PlanningModel.AName.noopNeg 0,
                           precond_pos := [],
                           precond_neg := [0],
                           effect_add := [],
                           effect_rem := [0] },
               prenodes := [6],
               effnodes := [7],
               is_persistent := true,
               parents := [],
               children := [],
               mutex := [] },
             { action := { name := PlanningModel.AName.user 0,
                           precond_pos := [],
                           precond_neg := [],
                           effect_add := [],
                           effect_rem := [0] },
               prenodes := [],
               effnodes := [8],
               is_persistent := false,
               parents := [],
               children := [],
               mutex := [] },
             { action := { name := PlanningModel.AName.user 1,
                           precond_pos := [0],
                           precond_neg := [],
                           effect_add := [],
                           effect_rem := [] },
               prenodes := [9],
               effnodes := [],
               is_persistent := false,
               parents := [9],
               children := [],
               mutex := [] },
             { action := { name := PlanningModel.AName.user 2,
                           precond_pos := [],
                           precond_neg := [0],
                           effect_add := [],
                           effect_rem := [] },
               prenodes := [10],
               effnodes := [],
               is_persistent := false,
               parents := [10],
               children := [],
               mutex := [] },
             { action := { name := PlanningModel.AName.noopPos 0,
                           precond_pos := [0],
                           precond_neg := [],
                           effect_add := [0],
                           effect_rem := [] },
               prenodes := [11],
               effnodes := [12],
               is_persistent := true,
               parents := [11],
               children := [],
               mutex := [] },
             { action := { name := PlanningModel.AName.noopNeg 0,
                           precond_pos := [],
                           precond_neg := [0],
                           effect_add := [],
                           effect_rem := [0] },
               prenodes := [13],
               effnodes := [14],
               is_persistent := true,
               parents := [13],
               children := [],
               mutex := [] }],
  s_levels := [[0], [1, 5]],
  a_levels := [[0, 1, 3], [5, 6, 7, 8, 9]],
  serial := false }

/-- The prC2 run after round 2 update_a_mutex. -/
def c2b2 : GraphState :=
{ snodes := [{ symbol := 0, is_pos := true, parents := [], children := [], mutex := [] },
             { symbol := 0, is_pos := false, parents := [0], children := [], mutex := [5] },
             { symbol := 0, is_pos := true, parents := [], children := [], mutex := [] },
             { symbol := 0, is_pos := false, parents := [], children := [], mutex := [] },
             { symbol := 0, is_pos := true, parents := [], children := [], mutex := [] },
             { symbol := 0, is_pos := true, parents := [3], children := [], mutex := [1] },
             { symbol := 0, is_pos := false, parents := [], children := [], mutex := [] },
             { symbol := 0, is_pos := false, parents := [], children := [], mutex := [] },
             { symbol := 0, is_pos := false, parents := [], children := [], mutex := [] },
             { symbol := 0, is_pos := true, parents := [], children := [], mutex := [] },
             { symbol := 0, is_pos := false, parents := [], children := [], mutex := [] },
             { symbol := 0, is_pos := true, parents := [], children := [], mutex := [] },
             { symbol := 0, is_pos := true, parents := [], children := [], mutex := [] },
             { symbol := 0, is_pos := false, parents := [], children := [], mutex := [] },
             { symbol := 0, is_pos := false, parents := [], children := [], mutex := [] }],
  anodes := [{ action := { name := PlanningModel.AName.user 0,
                           precond_pos := [],
                           precond_neg := [],
                           effect_add := [],
                           effect_rem := [0] },
               prenodes := [],
               effnodes := [1],
               is_persistent := false,
               parents := [],
               children := [1],
               mutex := [1, 3] },
             { action := { name := PlanningModel.AName.user 1,
                           precond_pos := [0],
                           precond_neg := [],
                           effect_add := [],
                           effect_rem := [] },
               prenodes := [2],
               effnodes := [],
               is_persistent := false,
               parents := [2],
               children := [],
               mutex := [0] },
             { action := { name := PlanningModel.AName.user 2,
                           precond_pos := [],
                           precond_neg := [0],
                           effect_add := [],
                           effect_rem := [] },
               prenodes := [3],
               effnodes := [],
               is_persistent := false,
               parents := [],
               children := [],
               mutex := [] },
             { action := { name := PlanningModel.AName.noopPos 0,
                           precond_pos := [0],
                           precond_neg := [],
                           effect_add := [0],
                           effect_rem := [] },
               prenodes := [4],
               effnodes := [5],
               is_persistent := true,
               parents := [4],
               children := [5],
               mutex := [0] },
             { action := { name := PlanningModel.AName.noopNeg 0,
                           precond_pos := [],
                           precond_neg := [0],
                           effect_add := [],
                           effect_rem := [0] },
               prenodes := [6],
               effnodes := [7],
               is_persistent := true,
               parents := [],
               children := [],
               mutex := [] },
             { action := { name := PlanningModel.AName.user 0,
                           precond_pos := [],
                           precond_neg := [],
                           effect_add := [],
                           effect_rem := [0] },
               prenodes := [],
               effnodes := [8],
               is_persistent := false,
               parents := [],
               children := [],
               mutex := [6, 8] },
             { action := { name := PlanningModel.AName.user 1,
                           precond_pos := [0],
                           precond_neg := [],
                           effect_add := [],
                           effect_rem := [] },
               prenodes := [9],
               effnodes := [],
               is_persistent := false,
               parents := [9],
               children := [],
               mutex := [5, 9] },
             { action := { name := PlanningModel.AName.user 2,
                           precond_pos := [],
                           precond_neg := [0],
                           effect_add := [],
                           effect_rem := [] },
               prenodes := [10],
               effnodes := [],
               is_persistent := false,
               parents := [10],
               children := [],
               mutex := [8] },
             { action := { name := PlanningModel.AName.noopPos 0,
                           precond_pos := [0],
                           precond_neg := [],
                           effect_add := [0],
                           effect_rem := [] },
               prenodes := [11],
               effnodes := [12],
               is_persistent := true,
               parents := [11],
               children := [],
               mutex := [5, 7, 9] },
             { action := { name := PlanningModel.AName.noopNeg 0,
                           precond_pos := [],
                           precond_neg := [0],
                           effect_add := [],
                           effect_rem := [0] },
               prenodes := [13],
               effnodes := [14],
               is_persistent := true,
               parents := [13],
               children := [],
               mutex := [6, 8] }],
  s_levels := [[0], [1, 5]],
  a_levels := [[0, 1, 3], [5, 6, 7, 8, 9]],
  serial := false }

/-- The prC2 run after round 2 add_literal_level. -/
def c2c2 : GraphState :=
{ snodes := [{ symbol := 0, is_pos := true, parents := [], children := [], mutex := [] },
             { symbol := 0, is_pos := false, parents := [0], children := [], mutex := [5] },
             { symbol := 0, is_pos := true, parents := [], children := [], mutex := [] },
             { symbol := 0, is_pos := false, parents := [], children := [], mutex := [] },
             { symbol := 0, is_pos := true, parents := [], children := [], mutex := [] },
             { symbol := 0, is_pos := true, parents := [3], children := [], mutex := [1] },
             { symbol := 0, is_pos := false, parents := [], children := [], mutex := [] },
             { symbol := 0, is_pos := false, parents := [], children := [], mutex := [] },
             { symbol := 0, is_pos := false, parents := [5, 9], children := [], mutex := [] },
             { symbol := 0, is_pos := true, parents := [], children := [], mutex := [] },
             { symbol := 0, is_pos := false, parents := [], children := [], mutex := [] },
             { symbol := 0, is_pos := true, parents := [], children := [], mutex := [] },
             { symbol := 0, is_pos := true, parents := [8], children := [], mutex := [] },
             { symbol := 0, is_pos := false, parents := [], children := [], mutex := [] },
             { symbol := 0, is_pos := false, parents := [], children := [], mutex := [] }],
  anodes := [{ action := { name := PlanningModel.AName.user 0,
                           precond_pos := [],
                           precond_neg := [],
                           effect_add := [],
                           effect_rem := [0] },
               prenodes := [],
               effnodes := [1],
               is_persistent := false,
               parents := [],
               children := [1],
               mutex := [1, 3] },
             { action := { name := PlanningModel.AName.user 1,
                           precond_pos := [0],
                           precond_neg := [],
                           effect_add := [],
                           effect_rem := [] },
               prenodes := [2],
               effnodes := [],
               is_persistent := false,
               parents := [2],
               children := [],
               mutex := [0] },
             { action := { name := PlanningModel.AName.user 2,
                           precond_pos := [],
                           precond_neg := [0],
                           effect_add := [],
                           effect_rem := [] },
               prenodes := [3],
               effnodes := [],
               is_persistent := false,
               parents := [],
               children := [],
               mutex := [] },
             { action := { name := PlanningModel.AName.noopPos 0,
                           precond_pos := [0],
                           precond_neg := [],
                           effect_add := [0],
                           effect_rem := [] },
               prenodes := [4],
               effnodes := [5],
               is_persistent := true,
               parents := [4],
               children := [5],
               mutex := [0] },
             { action := { name := PlanningModel.AName.noopNeg 0,
                           precond_pos := [],
                           precond_neg := [0],
                           effect_add := [],
                           effect_rem := [0] },
               prenodes := [6],
               effnodes := [7],
               is_persistent := true,
               parents := [],
               children := [],
               mutex := [] },
             { action := { name := PlanningModel.AName.user 0,
                           precond_pos := [],
                           precond_neg := [],
                           effect_add := [],
                           effect_rem := [0] },
               prenodes := [],
               effnodes := [8],
               is_persistent := false,
               parents := [],
               children := [8],
               mutex := [6, 8] },
             { action := { name := PlanningModel.AName.user 1,
                           precond_pos := [0],
                           precond_neg := [],
                           effect_add := [],
                           effect_rem := [] },
               prenodes := [9],
               effnodes := [],
               is_persistent := false,
               parents := [9],
               children := [],
               mutex := [5, 9] },
             { action := { name := PlanningModel.AName.user 2,
                           precond_pos := [],
                           precond_neg := [0],
                           effect_add := [],
                           effect_rem := [] },
               prenodes := [10],
               effnodes := [],
               is_persistent := false,
               parents := [10],
               children := [],
               mutex := [8] },
             { action := { name := PlanningModel.AName.noopPos 0,
                           precond_pos := [0],
                           precond_neg := [],
                           effect_add := [0],
                           effect_rem := [] },
               prenodes := [11],
               effnodes := [12],
               is_persistent := true,
               parents := [11],
               children := [12],
               mutex := [5, 7, 9] },
             { action := { name := PlanningModel.AName.noopNeg 0,
                           precond_pos := [],
                           precond_neg := [0],
                           effect_add := [],
                           effect_rem := [0] },
               prenodes := [13],
               effnodes := [14],
               is_persistent := true,
               parents := [13],
               children := [14],
               mutex := [6, 8] }],
  s_levels := [[0], [1, 5], [8, 12]],
  a_levels := [[0, 1, 3], [5, 6, 7, 8, 9]],
  serial := false }

/-- The finished prC2 graph (round 2 update_s_mutex; the run levels here). -/
def c2d2 : GraphState :=
{ snodes := [{ symbol := 0, is_pos := true, parents := [], children := [], mutex := [] },
             { symbol := 0, is_pos := false, parents := [0], children := [], mutex := [5] },
             { symbol := 0, is_pos := true, parents := [], children := [], mutex := [] },
             { symbol := 0, is_pos := false, parents := [], children := [], mutex := [] },
             { symbol := 0, is_pos := true, parents := [], children := [], mutex := [] },
             { symbol := 0, is_pos := true, parents := [3], children := [], mutex := [1] },
             { symbol := 0, is_pos := false, parents := [], children := [], mutex := [] },
             { symbol := 0, is_pos := false, parents := [], children := [], mutex := [] },
             { symbol := 0, is_pos := false, parents := [5, 9], children := [], mutex := [12] },
             { symbol := 0, is_pos := true, parents := [], children := [], mutex := [] },
             { symbol := 0, is_pos := false, parents := [], children := [], mutex := [] },
             { symbol := 0, is_pos := true, parents := [], children := [], mutex := [] },
             { symbol := 0, is_pos := true, parents := [8], children := [], mutex := [8] },
             { symbol := 0, is_pos := false, parents := [], children := [], mutex := [] },
             { symbol := 0, is_pos := false, parents := [], children := [], mutex := [] }],
  anodes := [{ action := { name := PlanningModel.AName.user 0,
                           precond_pos := [],
                           precond_neg := [],
                           effect_add := [],
                           effect_rem := [0] },
               prenodes := [],
               effnodes := [1],
               is_persistent := false,
               parents := [],
               children := [1],
               mutex := [1, 3] },
             { action := { name := PlanningModel.AName.user 1,
                           precond_pos := [0],
                           precond_neg := [],
                           effect_add := [],
                           effect_rem := [] },
               prenodes := [2],
               effnodes := [],
               is_persistent := false,
               parents := [2],
               children := [],
               mutex := [0] },
             { action := { name := PlanningModel.AName.user 2,
                           precond_pos := [],
                           precond_neg := [0],
                           effect_add := [],
                           effect_rem := [] },
               prenodes := [3],
               effnodes := [],
               is_persistent := false,
               parents := [],
               children := [],
               mutex := [] },
             { action := { name := PlanningModel.AName.noopPos 0,
                           precond_pos := [0],
                           precond_neg := [],
                           effect_add := [0],
                           effect_rem := [] },
               prenodes := [4],
               effnodes := [5],
               is_persistent := true,
               parents := [4],
               children := [5],
               mutex := [0] },
             { action := { name := PlanningModel.AName.noopNeg 0,
                           precond_pos := [],
                           precond_neg := [0],
                           effect_add := [],
                           effect_rem := [0] },
               prenodes := [6],
               effnodes := [7],
               is_persistent := true,
               parents := [],
               children := [],
               mutex := [] },
             { action := { name := PlanningModel.AName.user 0,
                           precond_pos := [],
                           precond_neg := [],
                           effect_add := [],
                           effect_rem := [0] },
               prenodes := [],
               effnodes := [8],
               is_persistent := false,
               parents := [],
               children := [8],
               mutex := [6, 8] },
             { action := { name := PlanningModel.AName.user 1,
                           precond_pos := [0],
                           precond_neg := [],
                           effect_add := [],
                           effect_rem := [] },
               prenodes := [9],
               effnodes := [],
               is_persistent := false,
               parents := [9],
               children := [],
               mutex := [5, 9] },
             { action := { name := PlanningModel.AName.user 2,
                           precond_pos := [],
                           precond_neg := [0],
                           effect_add := [],
                           effect_rem := [] },
               prenodes := [10],
               effnodes := [],
               is_persistent := false,
               parents := [10],
               children := [],
               mutex := [8] },
             { action := { name := PlanningModel.AName.noopPos 0,
                           precond_pos := [0],
                           precond_neg := [],
                           effect_add := [0],
                           effect_rem := [] },
               prenodes := [11],
               effnodes := [12],
               is_persistent := true,
               parents := [11],
               children := [12],
               mutex := [5, 7, 9] },
             { action := { name := PlanningModel.AName.noopNeg 0,
                           precond_pos := [],
                           precond_neg := [0],
                           effect_add := [],
                           effect_rem := [0] },
               prenodes := [13],
               effnodes := [14],
               is_persistent := true,
               parents := [13],
               children := [14],
               mutex := [6, 8] }],
  s_levels := [[0], [1, 5], [8, 12]],
  a_levels := [[0, 1, 3], [5, 6, 7, 8, 9]],
  serial := false }

/-- What stays frozen about the S0 prefix as construction proceeds: the first
`n0` fact-node objects and the layer-0 id list never change, every later fact
layer and every effect-node id lives strictly above the prefix. -/
structure L0 (n0 : Nat) (st0 st : GraphState) : Prop where
  nlen : n0 ≤ st.snodes.length
  keep : ∀ k, k < n0 → sNodeAt st k = sNodeAt st0 k
  lvl0 : st.s_levels.getD 0 [] = st0.s_levels.getD 0 []
  hi : ∀ lv, 1 ≤ lv → ∀ id ∈ st.s_levels.getD lv [], n0 ≤ id
  aeffhi : ∀ n ∈ st.anodes, ∀ e ∈ n.effnodes, n0 ≤ e

/-- The finite universe of literals over the problem's fluent table: each
fluent with both polarities, value-deduplicated. -/
def litUniverse (sm : List Nat) : List Lit := dedupLits (posLits sm ++ negLits sm)

/-! ## Theorems -/

theorem mem_insertLit {ls : List Lit} {l x : Lit} :
    x ∈ insertLit ls l ↔ x ∈ ls ∨ x = l := by
  unfold insertLit
  by_cases h : l ∈ ls
  · simp only [if_pos h]
    constructor
    · exact Or.inl
    · rintro (hx | rfl)
      · exact hx
      · exact h
  · simp [if_neg h]

theorem mem_dedupLits_aux {ls acc : List Lit} {x : Lit} :
    x ∈ ls.foldl insertLit acc ↔ x ∈ acc ∨ x ∈ ls := by
  induction ls generalizing acc with
  | nil => simp
  | cons a rest ih =>
    simp only [List.foldl_cons, ih, mem_insertLit, List.mem_cons]
    tauto

theorem mem_dedupLits {ls : List Lit} {x : Lit} : x ∈ dedupLits ls ↔ x ∈ ls := by
  unfold dedupLits
  simp [mem_dedupLits_aux]

theorem sMember_iff {st : GraphState} {ids : List Nat} {l : Lit} :
    sMember st ids l = true ↔ l ∈ litsOf st ids := by
  simp only [sMember, List.any_eq_true, decide_eq_true_eq, litsOf, List.mem_map]

theorem aMember_iff {st : GraphState} {ids : List Nat} {nm : AName} :
    aMember st ids nm = true ↔ nm ∈ ids.map fun j => (aAct st j).name := by
  simp only [aMember, List.any_eq_true, decide_eq_true_eq, List.mem_map]

theorem litSetSub_iff {xs ys : List Lit} : litSetSub xs ys = true ↔ ∀ l ∈ xs, l ∈ ys := by
  simp [litSetSub]

theorem litSetEq_iff {xs ys : List Lit} :
    litSetEq xs ys = true ↔ ((∀ l ∈ xs, l ∈ ys) ∧ ∀ l ∈ ys, l ∈ xs) := by
  simp [litSetEq, litSetSub_iff]

theorem getD_set_ne {l : List α} [Inhabited α] {i k : Nat} {x : α} (h : i ≠ k) :
    (l.set k x).getD i default = l.getD i default := by
  simp [List.getD_eq_getElem?_getD, List.getElem?_set_ne (Ne.symm h)]

theorem getD_set_self {l : List α} [Inhabited α] {k : Nat} {x : α} (h : k < l.length) :
    (l.set k x).getD k default = x := by
  simp [List.getD_eq_getElem?_getD, List.getElem?_set_eq_of_lt x h]

/-- Writing outside the store is a no-op (`List.set` past the end). -/
theorem setSNode_oob {st : GraphState} {i : Nat} {n : SNode}
    (h : st.snodes.length ≤ i) : setSNode st i n = st := by
  unfold setSNode
  rw [List.set_eq_of_length_le h]

theorem setANode_oob {st : GraphState} {i : Nat} {n : ANode}
    (h : st.anodes.length ≤ i) : setANode st i n = st := by
  unfold setANode
  rw [List.set_eq_of_length_le h]

theorem sNodeAt_setSNode_ne {st : GraphState} {i k : Nat} {n : SNode} (h : k ≠ i) :
    sNodeAt (setSNode st i n) k = sNodeAt st k := by
  unfold sNodeAt setSNode
  exact getD_set_ne h

theorem sNodeAt_setSNode_self {st : GraphState} {i : Nat} {n : SNode}
    (h : i < st.snodes.length) : sNodeAt (setSNode st i n) i = n := by
  unfold sNodeAt setSNode
  exact getD_set_self h

theorem aNodeAt_setANode_ne {st : GraphState} {i k : Nat} {n : ANode} (h : k ≠ i) :
    aNodeAt (setANode st i n) k = aNodeAt st k := by
  unfold aNodeAt setANode
  exact getD_set_ne h

theorem aNodeAt_setANode_self {st : GraphState} {i : Nat} {n : ANode}
    (h : i < st.anodes.length) : aNodeAt (setANode st i n) i = n := by
  unfold aNodeAt setANode
  exact getD_set_self h

/-- Replacing node `i` by a node with the same literal value leaves every
`sLit` unchanged. -/
theorem sLit_setSNode {st : GraphState} {i : Nat} {n : SNode}
    (h : n.symbol = (sNodeAt st i).symbol) (h2 : n.is_pos = (sNodeAt st i).is_pos) :
    ∀ k, sLit (setSNode st i n) k = sLit st k := by
  intro k
  by_cases hk : k = i
  · subst hk
    by_cases hlen : k < st.snodes.length
    · unfold sLit
      rw [sNodeAt_setSNode_self hlen, h, h2]
    · rw [setSNode_oob (le_of_not_lt hlen)]
  · unfold sLit
    rw [sNodeAt_setSNode_ne hk]

theorem aAct_setANode {st : GraphState} {i : Nat} {n : ANode}
    (h : n.action = (aNodeAt st i).action) : ∀ k, aAct (setANode st i n) k = aAct st k := by
  intro k
  by_cases hk : k = i
  · subst hk
    by_cases hlen : k < st.anodes.length
    · unfold aAct
      rw [aNodeAt_setANode_self hlen, h]
    · rw [setANode_oob (le_of_not_lt hlen)]
  · unfold aAct
    rw [aNodeAt_setANode_ne hk]

theorem sNodeAt_setANode {st : GraphState} {i : Nat} {n : ANode} :
    ∀ k, sNodeAt (setANode st i n) k = sNodeAt st k := fun _ => rfl

theorem aNodeAt_setSNode {st : GraphState} {i : Nat} {n : SNode} :
    ∀ k, aNodeAt (setSNode st i n) k = aNodeAt st k := fun _ => rfl

/-- `addSMutex` never changes any literal value. -/
theorem sLit_addSMutex {st : GraphState} {i j : Nat} :
    ∀ k, sLit (addSMutex st i j) k = sLit st k := by
  intro k
  unfold addSMutex
  by_cases h : sMember st (sNodeAt st i).mutex (sLit st j) = true
  · simp [h]
  · simp only [Bool.not_eq_true] at h
    simp only [h, Bool.false_eq_true, if_false]
    revert k
    apply sLit_setSNode <;> rfl

/-- `addAMutex` never changes any action value. -/
theorem aAct_addAMutex {st : GraphState} {i j : Nat} :
    ∀ k, aAct (addAMutex st i j) k = aAct st k := by
  intro k
  unfold addAMutex
  by_cases h : aMember st (aNodeAt st i).mutex (aAct st j).name = true
  · simp [h]
  · simp only [Bool.not_eq_true] at h
    simp only [h, Bool.false_eq_true, if_false]
    revert k
    apply aAct_setANode
    rfl

/-- After `addSMutex st i j`, node `j`'s value is in node `i`'s mutex set. -/
theorem is_mutex_s_addSMutex_self {st : GraphState} {i j : Nat}
    (h : i < st.snodes.length) : is_mutex_s (addSMutex st i j) i j = true := by
  unfold is_mutex_s addSMutex
  by_cases hm : sMember st (sNodeAt st i).mutex (sLit st j) = true
  · simp [hm]
  · simp only [Bool.not_eq_true] at hm
    simp only [hm, Bool.false_eq_true, if_false]
    have hn := @sNodeAt_setSNode_self st i
      { sNodeAt st i with mutex := (sNodeAt st i).mutex ++ [j] } h
    rw [hn]
    have hl : ∀ k, sLit (setSNode st i { sNodeAt st i with
        mutex := (sNodeAt st i).mutex ++ [j] }) k = sLit st k := by
      apply sLit_setSNode <;> rfl
    simp [sMember, hl]

/-- `addSMutex` only grows value-level mutex relations. -/
theorem is_mutex_s_addSMutex_mono {st : GraphState} {i j a b : Nat}
    (h : is_mutex_s st a b = true) : is_mutex_s (addSMutex st i j) a b = true := by
  unfold is_mutex_s at *
  unfold addSMutex
  by_cases hm : sMember st (sNodeAt st i).mutex (sLit st j) = true
  · simpa [hm] using h
  · simp only [Bool.not_eq_true] at hm
    simp only [hm, Bool.false_eq_true, if_false]
    have hl : ∀ k, sLit (setSNode st i { sNodeAt st i with
        mutex := (sNodeAt st i).mutex ++ [j] }) k = sLit st k := by
      apply sLit_setSNode <;> rfl
    by_cases hai : a = i
    · subst hai
      by_cases hlen : a < st.snodes.length
      · rw [sNodeAt_setSNode_self hlen]
        simp only [sMember, List.any_append, Bool.or_eq_true] at *
        exact Or.inl (by simpa [hl] using h)
      · rw [setSNode_oob (le_of_not_lt hlen)]
        exact h
    · rw [sNodeAt_setSNode_ne hai]
      simpa [sMember, hl] using h

theorem is_mutex_a_addAMutex_self {st : GraphState} {i j : Nat}
    (h : i < st.anodes.length) : is_mutex_a (addAMutex st i j) i j = true := by
  unfold is_mutex_a addAMutex
  by_cases hm : aMember st (aNodeAt st i).mutex (aAct st j).name = true
  · simp [hm]
  · simp only [Bool.not_eq_true] at hm
    simp only [hm, Bool.false_eq_true, if_false]
    have hn := @aNodeAt_setANode_self st i
      { aNodeAt st i with mutex := (aNodeAt st i).mutex ++ [j] } h
    rw [hn]
    have hl : ∀ k, aAct (setANode st i { aNodeAt st i with
        mutex := (aNodeAt st i).mutex ++ [j] }) k = aAct st k := by
      apply aAct_setANode
      rfl
    simp [aMember, hl]

theorem is_mutex_a_addAMutex_mono {st : GraphState} {i j a b : Nat}
    (h : is_mutex_a st a b = true) : is_mutex_a (addAMutex st i j) a b = true := by
  unfold is_mutex_a at *
  unfold addAMutex
  by_cases hm : aMember st (aNodeAt st i).mutex (aAct st j).name = true
  · simpa [hm] using h
  · simp only [Bool.not_eq_true] at hm
    simp only [hm, Bool.false_eq_true, if_false]
    have hl : ∀ k, aAct (setANode st i { aNodeAt st i with
        mutex := (aNodeAt st i).mutex ++ [j] }) k = aAct st k := by
      apply aAct_setANode
      rfl
    by_cases hai : a = i
    · subst hai
      by_cases hlen : a < st.anodes.length
      · rw [aNodeAt_setANode_self hlen]
        simp only [aMember, List.any_append, Bool.or_eq_true] at *
        exact Or.inl (by simpa [hl] using h)
      · rw [setANode_oob (le_of_not_lt hlen)]
        exact h
    · rw [aNodeAt_setANode_ne hai]
      simpa [aMember, hl] using h

theorem snodes_length_addSMutex {st : GraphState} {i j : Nat} :
    (addSMutex st i j).snodes.length = st.snodes.length := by
  unfold addSMutex
  by_cases hm : sMember st (sNodeAt st i).mutex (sLit st j) = true <;>
    simp [hm, setSNode]

theorem anodes_length_addAMutex {st : GraphState} {i j : Nat} :
    (addAMutex st i j).anodes.length = st.anodes.length := by
  unfold addAMutex
  by_cases hm : aMember st (aNodeAt st i).mutex (aAct st j).name = true <;>
    simp [hm, setANode]

/-- After `mutexify` on two fact nodes, both value-level directions hold. -/
theorem mutexify_ss_both {st : GraphState} {i j : Nat}
    (hi : i < st.snodes.length) (hj : j < st.snodes.length) :
    is_mutex_s (mutexify_ss st i j) i j = true ∧
      is_mutex_s (mutexify_ss st i j) j i = true := by
  unfold mutexify_ss
  constructor
  · exact is_mutex_s_addSMutex_mono (is_mutex_s_addSMutex_self hi)
  · exact is_mutex_s_addSMutex_self (by rw [snodes_length_addSMutex]; exact hj)

theorem mutexify_aa_both {st : GraphState} {i j : Nat}
    (hi : i < st.anodes.length) (hj : j < st.anodes.length) :
    is_mutex_a (mutexify_aa st i j) i j = true ∧
      is_mutex_a (mutexify_aa st i j) j i = true := by
  unfold mutexify_aa
  constructor
  · exact is_mutex_a_addAMutex_mono (is_mutex_a_addAMutex_self hi)
  · exact is_mutex_a_addAMutex_self (by rw [anodes_length_addAMutex]; exact hj)

/-- C10.  `mutexify(a, b)` raises a type error exactly when the two nodes are
of different kinds; on matching kinds it succeeds unconditionally (no
same-layer or distinctness check is imposed, so the two ids may come from
different layers or even coincide) and inserts each node into the other's
mutex set, making `is_mutex` hold in both directions. -/
theorem mutexify_typeerror_iff_kinds_differ (st : GraphState) (n1 n2 : NRef) :
    ((∃ e, mutexify st n1 n2 = Except.error e) ↔ nrefKind n1 ≠ nrefKind n2) ∧
      (nrefKind n1 = nrefKind n2 →
        ∃ st2, mutexify st n1 n2 = Except.ok st2 ∧
          (nrefValid st n1 → nrefValid st n2 →
            is_mutex st2 n1 n2 = true ∧ is_mutex st2 n2 n1 = true)) := by
  constructor
  · cases n1 <;> cases n2 <;> simp [mutexify, nrefKind]
  · intro hk
    cases n1 with
    | sref i =>
      cases n2 with
      | sref j =>
        refine ⟨mutexify_ss st i j, rfl, fun h1 h2 => ?_⟩
        simpa [is_mutex, nrefValid] using mutexify_ss_both h1 h2
      | aref j => simp [nrefKind] at hk
    | aref i =>
      cases n2 with
      | sref j => simp [nrefKind] at hk
      | aref j =>
        refine ⟨mutexify_aa st i j, rfl, fun h1 h2 => ?_⟩
        simpa [is_mutex, nrefValid] using mutexify_aa_both h1 h2

/-- Witness for C10: on a concrete state, a fact node can be mutexified with
itself (no distinctness check), and the insertion is observable. -/
theorem mutexify_typeerror_iff_kinds_differ_witness :
    ∃ st2, mutexify oneEachSt (.sref 0) (.sref 0) = Except.ok st2 ∧
      (nrefValid oneEachSt (.sref 0) → nrefValid oneEachSt (.sref 0) →
        is_mutex st2 (.sref 0) (.sref 0) = true ∧ is_mutex st2 (.sref 0) (.sref 0) = true) :=
  (mutexify_typeerror_iff_kinds_differ oneEachSt (.sref 0) (.sref 0)).2 rfl

/-- Counterexample to C3 as stated: two fact nodes over distinct fluents (so
the negation test does not apply), both with empty parent sets, on which the
inconsistent-support test nevertheless returns true by itself. -/
theorem inconsistent_support_empty_parents_cex :
    (sNodeAt emptyParentsSt 0).parents = [] ∧
      negation_mutex emptyParentsSt 0 1 = false ∧
      inconsistent_support_mutex emptyParentsSt 0 1 = true := by
  refine ⟨rfl, by decide, by decide⟩

/-- C3 amended: when either fact node has an empty parent set, the
inconsistent-support test returns true vacuously (the all-pairs-mutex
indicator holds over an empty product), so such a pair is marked mutex by this
test alone, independently of the negation test. -/
theorem inconsistent_support_empty_parents (st : GraphState) (i j : Nat)
    (h : (sNodeAt st i).parents = [] ∨ (sNodeAt st j).parents = []) :
    inconsistent_support_mutex st i j = true := by
  unfold inconsistent_support_mutex
  rcases h with h | h <;> simp [h]

/-- Witness for the amended C3 on a concrete empty-parents pair. -/
theorem inconsistent_support_empty_parents_witness :
    ((sNodeAt emptyParentsStW 0).parents = [] ∨ (sNodeAt emptyParentsStW 1).parents = []) ∧
      inconsistent_support_mutex emptyParentsStW 0 1 = true :=
  ⟨Or.inl rfl, inconsistent_support_empty_parents emptyParentsStW 0 1 (Or.inl rfl)⟩

end PlanningModel

namespace PlanningModel

theorem levelsumAux_none_found {st : GraphState} {levels : List (List Nat)}
    {unfound : List Lit} {idx : Nat}
    (h : ∀ x ∈ unfound, ∀ lvl ∈ levels, sMember st lvl x = false) :
    levelsumAux st levels idx unfound = 0 := by
  induction levels generalizing idx unfound with
  | nil => rfl
  | cons lvl rest ih =>
    unfold levelsumAux
    have hfound : unfound.filter (fun g => sMember st lvl g) = [] := by
      apply List.filter_eq_nil_iff.2
      intro x hx
      simp [h x hx lvl (List.mem_cons_self lvl rest)]
    have hrem : unfound.filter (fun g => !sMember st lvl g) = unfound := by
      apply List.filter_eq_self.2
      intro x hx
      simp [h x hx lvl (List.mem_cons_self lvl rest)]
    rw [hfound, hrem]
    simp only [List.length_nil, Nat.mul_zero, Nat.zero_add]
    by_cases he : unfound.isEmpty
    · simp [he]
    · simp only [he, Bool.false_eq_true, if_false]
      exact ih (fun x hx l hl => h x hx l (List.mem_cons_of_mem lvl hl)) 

theorem levelsumAux_filter_absent {st : GraphState} {g : Lit} {levels : List (List Nat)}
    (hg : ∀ lvl ∈ levels, sMember st lvl g = false) :
    ∀ idx unfound, levelsumAux st levels idx (unfound.filter fun x => x ≠ g) =
      levelsumAux st levels idx unfound := by
  induction levels with
  | nil => intro idx unfound; rfl
  | cons lvl rest ih =>
    intro idx unfound
    simp only [levelsumAux]
    have hglvl : sMember st lvl g = false := hg lvl (List.mem_cons_self lvl rest)
    have hfound : (unfound.filter fun x => x ≠ g).filter (fun x => sMember st lvl x) =
        unfound.filter (fun x => sMember st lvl x) := by
      rw [List.filter_comm]
      apply List.filter_eq_self.2
      intro x hx
      simp only [List.mem_filter] at hx
      have hne : x ≠ g := by
        rintro rfl
        rw [hglvl] at hx
        simp at hx
      simp [hne]
    have hrem : (unfound.filter fun x => x ≠ g).filter (fun x => !sMember st lvl x) =
        (unfound.filter fun x => !sMember st lvl x).filter (fun x => x ≠ g) :=
      List.filter_comm _ _ _
    rw [hfound, hrem]
    by_cases he : ((unfound.filter fun x => !sMember st lvl x).filter fun x => x ≠ g).isEmpty
    · rw [he]
      simp only [if_true]
      by_cases he2 : (unfound.filter fun x => !sMember st lvl x).isEmpty
      · rw [he2]
        simp
      · simp only [he2, Bool.false_eq_true, if_false]
        have hrest := fun l hl => hg l (List.mem_cons_of_mem lvl hl)
        have hall : ∀ x ∈ unfound.filter (fun x => !sMember st lvl x), ∀ l ∈ rest,
            sMember st l x = false := by
          intro x hx l hl
          have hx2 : x = g := by
            by_contra hne
            have hmem : x ∈ (unfound.filter fun x => !sMember st lvl x).filter
                fun x => x ≠ g := by
              rw [List.mem_filter]
              exact ⟨hx, by simp [hne]⟩
            rw [List.isEmpty_iff] at he
            rw [he] at hmem
            exact absurd hmem (List.not_mem_nil x)
          subst hx2
          exact hrest l hl
        rw [levelsumAux_none_found hall]
    · simp only [he, Bool.false_eq_true, if_false]
      by_cases he2 : (unfound.filter fun x => !sMember st lvl x).isEmpty
      · exfalso
        rw [List.isEmpty_iff] at he2
        rw [he2] at he
        simp at he
      · simp only [he2, Bool.false_eq_true, if_false]
        rw [ih (fun l hl => hg l (List.mem_cons_of_mem lvl hl))]

theorem posLits_filter {goal : List Nat} {g : Nat} :
    posLits (goal.filter fun x => x ≠ g) =
      (posLits goal).filter fun l => l ≠ (⟨g, true⟩ : Lit) := by
  unfold posLits
  rw [List.map_filter]
  congr 1
  apply List.filter_congr
  intro x hx
  simp [Function.comp, Lit.mk.injEq]

theorem insertLit_filter {acc : List Lit} {x : Lit} {p : Lit → Prop} [DecidablePred p]
    (hx : p x) : insertLit (acc.filter fun l => p l) x = (insertLit acc x).filter fun l => p l := by
  unfold insertLit
  by_cases h : x ∈ acc
  · have : x ∈ acc.filter fun l => p l := List.mem_filter.2 ⟨h, by simp [hx]⟩
    simp [h, this]
  · have : x ∉ acc.filter fun l => p l := fun hc => h (List.mem_filter.1 hc).1
    simp only [h, this, if_false]
    rw [List.filter_append]
    simp [hx]

theorem insertLit_filter_not {acc : List Lit} {x : Lit} {p : Lit → Prop} [DecidablePred p]
    (hx : ¬ p x) : (insertLit acc x).filter (fun l => p l) = acc.filter fun l => p l := by
  unfold insertLit
  by_cases h : x ∈ acc
  · simp [h]
  · simp only [h, if_false]
    rw [List.filter_append]
    simp [hx]

theorem dedupLits_filter_aux {l : List Lit} {p : Lit → Prop} [DecidablePred p] :
    ∀ acc, (l.filter fun x => p x).foldl insertLit (acc.filter fun x => p x) =
      (l.foldl insertLit acc).filter fun x => p x := by
  induction l with
  | nil => intro acc; rfl
  | cons x rest ih =>
    intro acc
    by_cases hx : p x
    · rw [List.filter_cons_of_pos (by simp [hx])]
      simp only [List.foldl_cons]
      rw [insertLit_filter hx, ih]
    · rw [List.filter_cons_of_neg (by simp [hx])]
      simp only [List.foldl_cons]
      rw [← insertLit_filter_not hx, ih]

theorem dedupLits_filter {l : List Lit} {p : Lit → Prop} [DecidablePred p] :
    dedupLits (l.filter fun x => p x) = (dedupLits l).filter fun x => p x := by
  unfold dedupLits
  exact dedupLits_filter_aux []

/-- C1 amended: a goal literal absent from every fact layer is silently
dropped: `h_levelsum` still returns an ordinary numeric sum, equal to the sum
computed for the goal list with the absent literal removed, i.e. the absent
literal contributes exactly zero. -/
theorem h_levelsum_absent_goal_contributes_zero (st : GraphState) (goal : List Nat) (g : Nat)
    (hg : ∀ lvl ∈ st.s_levels, sMember st lvl ⟨g, true⟩ = false) :
    h_levelsum st goal = h_levelsum st (goal.filter fun x => x ≠ g) := by
  unfold h_levelsum
  rw [posLits_filter]
  have hfil : ∀ l : Lit, (l ≠ (⟨g, true⟩ : Lit)) = (fun x => x ≠ (⟨g, true⟩ : Lit)) l :=
    fun l => rfl
  rw [dedupLits_filter]
  exact (levelsumAux_filter_absent hg 0 (dedupLits (posLits goal))).symm

/-- Witness for the amended C1 on the concrete leveled graph of `trivProblem`:
goal fluent 1 is absent from every layer and `h_levelsum` of `[0, 1]` equals
`h_levelsum` of `[0]`. -/
theorem h_levelsum_absent_goal_contributes_zero_witness :
    (∀ lvl ∈ trivGraph.s_levels, sMember trivGraph lvl ⟨1, true⟩ = false) ∧
      h_levelsum trivGraph [0, 1] = h_levelsum trivGraph ([0, 1].filter fun x => x ≠ 1) :=
  ⟨by decide, h_levelsum_absent_goal_contributes_zero trivGraph [0, 1] 1 (by decide)⟩

/-- Counterexample to C1 as stated: on the graph actually built for
`trivProblem` (the build succeeds and levels), the goal literal `1` appears in
no fact layer, yet `h_levelsum` raises nothing and returns the ordinary
numeric sum `0` — the same value it returns for the already-satisfied goal
`[0]` — so the absent literal silently contributed zero. -/
theorem h_levelsum_absent_goal_cex :
    (planning_graph trivProblem [0] [] true 2).isSome = true ∧
      (∀ lvl ∈ trivGraph.s_levels, sMember trivGraph lvl ⟨1, true⟩ = false) ∧
      h_levelsum trivGraph [0, 1] = 0 ∧ h_levelsum trivGraph [0] = 0 := by
  refine ⟨by decide, by decide, by decide, by decide⟩

end PlanningModel

namespace PlanningModel

theorem sNodeAt_append {st : GraphState} {extra : List SNode} {anodes2 : List ANode}
    {sl : List (List Nat)} {al : List (List Nat)} {ser : Bool} {k : Nat}
    (h : k < st.snodes.length) :
    sNodeAt ⟨st.snodes ++ extra, anodes2, sl, al, ser⟩ k = sNodeAt st k := by
  unfold sNodeAt
  exact List.getD_append _ _ _ _ h

theorem aNodeAt_append {st : GraphState} {snodes2 : List SNode} {extra : List ANode}
    {sl : List (List Nat)} {al : List (List Nat)} {ser : Bool} {k : Nat}
    (h : k < st.anodes.length) :
    aNodeAt ⟨snodes2, st.anodes ++ extra, sl, al, ser⟩ k = aNodeAt st k := by
  unfold aNodeAt
  exact List.getD_append _ _ _ _ h

theorem snodes_applyOp_mono {st : GraphState} {op : GOp} :
    st.snodes.length ≤ (applyOp st op).snodes.length := by
  cases op with
  | addS s b => simp [applyOp, allocSNodes]
  | addA a => simp [applyOp, newANode, allocSNodes]
  | mutexop n1 n2 =>
    cases n1 <;> cases n2 <;>
      simp [applyOp, mutexify, mutexify_ss, mutexify_aa, addSMutex, addAMutex] <;>
      split <;> try split
    all_goals simp [setSNode, setANode, addSMutex, addAMutex] <;> split <;> simp [setSNode]
  | sparentAdd nid aid => simp [applyOp, setSNode]
  | achildAdd aid eid => simp [applyOp, setANode]
  | aparentsSet aid => simp [applyOp, setANode]

theorem anodes_applyOp_mono {st : GraphState} {op : GOp} :
    st.anodes.length ≤ (applyOp st op).anodes.length := by
  cases op with
  | addS s b => simp [applyOp, allocSNodes]
  | addA a => simp [applyOp, newANode, allocSNodes]
  | mutexop n1 n2 =>
    cases n1 <;> cases n2 <;>
      simp [applyOp, mutexify, mutexify_ss, mutexify_aa, addSMutex, addAMutex] <;>
      split <;> try split
    all_goals simp [setSNode, setANode, addSMutex, addAMutex] <;> split <;> simp [setANode]
  | sparentAdd nid aid => simp [applyOp, setSNode]
  | achildAdd aid eid => simp [applyOp, setANode]
  | aparentsSet aid => simp [applyOp, setANode]

end PlanningModel

namespace PlanningModel

/-- addAMutex touches only the action store. -/
theorem sLit_addAMutex {st : GraphState} {i j : Nat} :
    ∀ k, sLit (addAMutex st i j) k = sLit st k := by
  intro k
  unfold addAMutex
  by_cases hm : aMember st (aNodeAt st i).mutex (aAct st j).name = true
  · simp [hm]
  · simp [hm, setANode, sLit, sNodeAt]

/-- addSMutex touches only the fact store. -/
theorem aAct_addSMutex {st : GraphState} {i j : Nat} :
    ∀ k, aAct (addSMutex st i j) k = aAct st k := by
  intro k
  unfold addSMutex
  by_cases hm : sMember st (sNodeAt st i).mutex (sLit st j) = true
  · simp [hm]
  · simp [hm, setSNode, aAct, aNodeAt]

/-- No graph operation changes the literal value of an existing fact node. -/
theorem sLit_applyOp {st : GraphState} {op : GOp} {k : Nat} (h : k < st.snodes.length) :
    sLit (applyOp st op) k = sLit st k := by
  cases op with
  | addS s b =>
    show sLit ⟨st.snodes ++ _, _, _, _, _⟩ k = sLit st k
    unfold sLit
    rw [sNodeAt_append h]
  | addA a =>
    show sLit ⟨st.snodes ++ _ ++ _, _, _, _, _⟩ k = sLit st k
    unfold sLit
    rw [List.append_assoc]
    rw [show (⟨st.snodes ++ (_ ++ _), _, _, _, _⟩ : GraphState) =
      ⟨st.snodes ++ _, _, _, _, _⟩ from rfl]
    rw [sNodeAt_append h]
  | mutexop n1 n2 =>
    cases n1 with
    | sref i =>
      cases n2 with
      | sref j =>
        show sLit (mutexify_ss st i j) k = sLit st k
        unfold mutexify_ss
        rw [sLit_addSMutex, sLit_addSMutex]
      | aref j => rfl
    | aref i =>
      cases n2 with
      | sref j => rfl
      | aref j =>
        show sLit (mutexify_aa st i j) k = sLit st k
        unfold mutexify_aa
        rw [sLit_addAMutex, sLit_addAMutex]
  | sparentAdd nid aid =>
    show sLit (setSNode st nid _) k = sLit st k
    apply sLit_setSNode <;> rfl
  | achildAdd aid eid => rfl
  | aparentsSet aid => rfl

/-- No graph operation changes the action of an existing action node. -/
theorem aAct_applyOp {st : GraphState} {op : GOp} {k : Nat} (h : k < st.anodes.length) :
    aAct (applyOp st op) k = aAct st k := by
  cases op with
  | addS s b => rfl
  | addA a =>
    show aAct ⟨_, st.anodes ++ _, _, _, _⟩ k = aAct st k
    unfold aAct
    rw [aNodeAt_append h]
  | mutexop n1 n2 =>
    cases n1 with
    | sref i =>
      cases n2 with
      | sref j =>
        show aAct (mutexify_ss st i j) k = aAct st k
        unfold mutexify_ss
        rw [aAct_addSMutex, aAct_addSMutex]
      | aref j => rfl
    | aref i =>
      cases n2 with
      | sref j => rfl
      | aref j =>
        show aAct (mutexify_aa st i j) k = aAct st k
        unfold mutexify_aa
        rw [aAct_addAMutex, aAct_addAMutex]
  | sparentAdd nid aid => rfl
  | achildAdd aid eid =>
    show aAct (setANode st aid _) k = aAct st k
    apply aAct_setANode
    rfl
  | aparentsSet aid =>
    show aAct (setANode st aid _) k = aAct st k
    apply aAct_setANode
    rfl

end PlanningModel

namespace PlanningModel

theorem sNodeAt_mem {st : GraphState} {a : Nat} (h : a < st.snodes.length) :
    sNodeAt st a ∈ st.snodes := by
  unfold sNodeAt
  rw [List.getD_eq_getElem?_getD, List.getElem?_eq_getElem h]
  exact List.getElem_mem h

theorem aNodeAt_mem {st : GraphState} {a : Nat} (h : a < st.anodes.length) :
    aNodeAt st a ∈ st.anodes := by
  unfold aNodeAt
  rw [List.getD_eq_getElem?_getD, List.getElem?_eq_getElem h]
  exact List.getElem_mem h

theorem sNodeAt_oob {st : GraphState} {a : Nat} (h : st.snodes.length ≤ a) :
    sNodeAt st a = default := List.getD_eq_default _ _ h

theorem aNodeAt_oob {st : GraphState} {a : Nat} (h : st.anodes.length ≤ a) :
    aNodeAt st a = default := List.getD_eq_default _ _ h

/-- A node with a nonempty mutex set is a real node of the store. -/
theorem valid_of_is_mutex_s {st : GraphState} {a b : Nat} (h : is_mutex_s st a b = true) :
    a < st.snodes.length := by
  by_contra hlen
  rw [is_mutex_s, sNodeAt_oob (le_of_not_lt hlen)] at h
  simp [sMember, default] at h

theorem valid_of_is_mutex_a {st : GraphState} {a b : Nat} (h : is_mutex_a st a b = true) :
    a < st.anodes.length := by
  by_contra hlen
  rw [is_mutex_a, aNodeAt_oob (le_of_not_lt hlen)] at h
  simp [aMember, default] at h

theorem sMember_congr {st2 st : GraphState} {ids : List Nat} {l : Lit}
    (hk : ∀ k ∈ ids, sLit st2 k = sLit st k) : sMember st2 ids l = sMember st ids l := by
  unfold sMember
  induction ids with
  | nil => rfl
  | cons x rest ih =>
    simp only [List.any_cons]
    rw [hk x (List.mem_cons_self x rest), ih fun k hm => hk k (List.mem_cons_of_mem x hm)]

theorem aMember_congr {st2 st : GraphState} {ids : List Nat} {nm : AName}
    (hk : ∀ k ∈ ids, aAct st2 k = aAct st k) : aMember st2 ids nm = aMember st ids nm := by
  unfold aMember
  induction ids with
  | nil => rfl
  | cons x rest ih =>
    simp only [List.any_cons]
    rw [hk x (List.mem_cons_self x rest), ih fun k hm => hk k (List.mem_cons_of_mem x hm)]

/-- addAMutex does not change the fact store at all. -/
theorem sNodeAt_addAMutex {st : GraphState} {i j : Nat} :
    ∀ k, sNodeAt (addAMutex st i j) k = sNodeAt st k := by
  intro k
  unfold addAMutex
  by_cases hm : aMember st (aNodeAt st i).mutex (aAct st j).name = true
  · simp [hm]
  · simp [hm, setANode, sNodeAt]

theorem aNodeAt_addSMutex {st : GraphState} {i j : Nat} :
    ∀ k, aNodeAt (addSMutex st i j) k = aNodeAt st k := by
  intro k
  unfold addSMutex
  by_cases hm : sMember st (sNodeAt st i).mutex (sLit st j) = true
  · simp [hm]
  · simp [hm, setSNode, aNodeAt]

/-- The fact-mutex relation (by value, on existing nodes) survives every graph
operation, given that mutex sets hold no dangling ids. -/
theorem is_mutex_s_applyOp_mono {st : GraphState} {op : GOp} {a b : Nat}
    (hv : mutexIdsOk st = true) (hb : b < st.snodes.length)
    (h : is_mutex_s st a b = true) : is_mutex_s (applyOp st op) a b = true := by
  have ha : a < st.snodes.length := valid_of_is_mutex_s h
  have hv2 := hv
  simp only [mutexIdsOk, Bool.and_eq_true, List.all_eq_true, decide_eq_true_eq] at hv2
  have hmutids : ∀ k ∈ (sNodeAt st a).mutex, k < st.snodes.length :=
    fun k hk => hv2.1 (sNodeAt st a) (sNodeAt_mem ha) k hk
  cases op with
  | addS s bb =>
    have hnode : sNodeAt (applyOp st (.addS s bb)) a = sNodeAt st a := by
      show sNodeAt ⟨st.snodes ++ _, _, _, _, _⟩ a = sNodeAt st a
      exact sNodeAt_append ha
    rw [is_mutex_s, hnode, sLit_applyOp hb,
      sMember_congr fun k hk => sLit_applyOp (hmutids k hk)]
    exact h
  | addA act =>
    have hnode : sNodeAt (applyOp st (.addA act)) a = sNodeAt st a := by
      show sNodeAt ⟨st.snodes ++ _ ++ _, _, _, _, _⟩ a = sNodeAt st a
      rw [List.append_assoc]
      show sNodeAt ⟨st.snodes ++ _, _, _, _, _⟩ a = sNodeAt st a
      exact sNodeAt_append ha
    rw [is_mutex_s, hnode, sLit_applyOp hb,
      sMember_congr fun k hk => sLit_applyOp (hmutids k hk)]
    exact h
  | mutexop n1 n2 =>
    cases n1 with
    | sref i =>
      cases n2 with
      | sref j =>
        show is_mutex_s (mutexify_ss st i j) a b = true
        unfold mutexify_ss
        exact is_mutex_s_addSMutex_mono (is_mutex_s_addSMutex_mono h)
      | aref j => exact h
    | aref i =>
      cases n2 with
      | sref j => exact h
      | aref j =>
        show is_mutex_s (mutexify_aa st i j) a b = true
        have hs : ∀ k, sNodeAt (mutexify_aa st i j) k = sNodeAt st k := by
          intro k
          unfold mutexify_aa
          rw [sNodeAt_addAMutex, sNodeAt_addAMutex]
        have hsl : ∀ k, sLit (mutexify_aa st i j) k = sLit st k := by
          intro k
          unfold sLit
          rw [hs k]
        have h6 : sMember (mutexify_aa st i j) (sNodeAt st a).mutex (sLit st b) =
            sMember st (sNodeAt st a).mutex (sLit st b) :=
          sMember_congr fun k _ => hsl k
        unfold is_mutex_s
        rw [hs a, hsl b, h6]
        exact h
  | sparentAdd nid aid =>
    show is_mutex_s (setSNode st nid _) a b = true
    have hmux : (sNodeAt (setSNode st nid { sNodeAt st nid with
        parents := aInsert st (sNodeAt st nid).parents aid }) a).mutex =
        (sNodeAt st a).mutex := by
      by_cases hna : a = nid
      · subst hna
        by_cases hlen : a < st.snodes.length
        · rw [sNodeAt_setSNode_self hlen]
        · rw [setSNode_oob (le_of_not_lt hlen)]
      · rw [sNodeAt_setSNode_ne hna]
    have hl : ∀ k, sLit (setSNode st nid { sNodeAt st nid with
        parents := aInsert st (sNodeAt st nid).parents aid }) k = sLit st k := by
      apply sLit_setSNode <;> rfl
    rw [is_mutex_s, hmux, hl b, sMember_congr fun k _ => hl k]
    exact h
  | achildAdd aid eid => exact h
  | aparentsSet aid => exact h

theorem is_mutex_a_applyOp_mono {st : GraphState} {op : GOp} {a b : Nat}
    (hv : mutexIdsOk st = true) (hb : b < st.anodes.length)
    (h : is_mutex_a st a b = true) : is_mutex_a (applyOp st op) a b = true := by
  have ha : a < st.anodes.length := valid_of_is_mutex_a h
  have hv2 := hv
  simp only [mutexIdsOk, Bool.and_eq_true, List.all_eq_true, decide_eq_true_eq] at hv2
  have hmutids : ∀ k ∈ (aNodeAt st a).mutex, k < st.anodes.length :=
    fun k hk => hv2.2 (aNodeAt st a) (aNodeAt_mem ha) k hk
  cases op with
  | addS s bb =>
    exact h
  | addA act =>
    have hnode : aNodeAt (applyOp st (.addA act)) a = aNodeAt st a := by
      show aNodeAt ⟨_, st.anodes ++ _, _, _, _⟩ a = aNodeAt st a
      exact aNodeAt_append ha
    rw [is_mutex_a, hnode, aAct_applyOp hb,
      aMember_congr fun k hk => aAct_applyOp (hmutids k hk)]
    exact h
  | mutexop n1 n2 =>
    cases n1 with
    | sref i =>
      cases n2 with
      | sref j =>
        show is_mutex_a (mutexify_ss st i j) a b = true
        have hs : ∀ k, aNodeAt (mutexify_ss st i j) k = aNodeAt st k := by
          intro k
          unfold mutexify_ss
          rw [aNodeAt_addSMutex, aNodeAt_addSMutex]
        have hsl : ∀ k, aAct (mutexify_ss st i j) k = aAct st k := by
          intro k
          unfold aAct
          rw [hs k]
        have h6 : aMember (mutexify_ss st i j) (aNodeAt st a).mutex (aAct st b).name =
            aMember st (aNodeAt st a).mutex (aAct st b).name :=
          aMember_congr fun k _ => hsl k
        unfold is_mutex_a
        rw [hs a, hsl b, h6]
        exact h
      | aref j => exact h
    | aref i =>
      cases n2 with
      | sref j => exact h
      | aref j =>
        show is_mutex_a (mutexify_aa st i j) a b = true
        unfold mutexify_aa
        exact is_mutex_a_addAMutex_mono (is_mutex_a_addAMutex_mono h)
  | sparentAdd nid aid => exact h
  | achildAdd aid eid =>
    show is_mutex_a (setANode st aid _) a b = true
    have hmux : (aNodeAt (setANode st aid { aNodeAt st aid with
        children := sInsert st (aNodeAt st aid).children eid }) a).mutex =
        (aNodeAt st a).mutex := by
      by_cases hna : a = aid
      · subst hna
        by_cases hlen : a < st.anodes.length
        · rw [aNodeAt_setANode_self hlen]
        · rw [setANode_oob (le_of_not_lt hlen)]
      · rw [aNodeAt_setANode_ne hna]
    have hl : ∀ k, aAct (setANode st aid { aNodeAt st aid with
        children := sInsert st (aNodeAt st aid).children eid }) k = aAct st k := by
      apply aAct_setANode
      rfl
    rw [is_mutex_a, hmux, hl b, aMember_congr fun k _ => hl k]
    exact h
  | aparentsSet aid =>
    show is_mutex_a (setANode st aid _) a b = true
    have hmux : (aNodeAt (setANode st aid { aNodeAt st aid with
        parents := (aNodeAt st aid).prenodes }) a).mutex = (aNodeAt st a).mutex := by
      by_cases hna : a = aid
      · subst hna
        by_cases hlen : a < st.anodes.length
        · rw [aNodeAt_setANode_self hlen]
        · rw [setANode_oob (le_of_not_lt hlen)]
      · rw [aNodeAt_setANode_ne hna]
    have hl : ∀ k, aAct (setANode st aid { aNodeAt st aid with
        parents := (aNodeAt st aid).prenodes }) k = aAct st k := by
      apply aAct_setANode
      rfl
    rw [is_mutex_a, hmux, hl b, aMember_congr fun k _ => hl k]
    exact h

end PlanningModel

namespace PlanningModel

theorem mutexIdsOk_addSMutex {st : GraphState} {i j : Nat}
    (hv : mutexIdsOk st = true) (hj : j < st.snodes.length) :
    mutexIdsOk (addSMutex st i j) = true := by
  have hv2 := hv
  simp only [mutexIdsOk, Bool.and_eq_true, List.all_eq_true, decide_eq_true_eq] at hv2 ⊢
  unfold addSMutex
  by_cases hm : sMember st (sNodeAt st i).mutex (sLit st j) = true
  · simp only [hm, if_true]
    exact hv2
  · simp only [Bool.not_eq_true] at hm
    simp only [hm, Bool.false_eq_true, if_false]
    constructor
    · intro n hn k hk
      have hlen : (setSNode st i { sNodeAt st i with
          mutex := (sNodeAt st i).mutex ++ [j] }).snodes.length = st.snodes.length := by
        simp [setSNode]
      rw [hlen]
      rcases List.mem_or_eq_of_mem_set hn with hn2 | rfl
      · exact hv2.1 n hn2 k hk
      · simp only [List.mem_append, List.mem_singleton] at hk
        rcases hk with hk | rfl
        · by_cases hi : i < st.snodes.length
          · exact hv2.1 (sNodeAt st i) (sNodeAt_mem hi) k hk
          · rw [sNodeAt_oob (le_of_not_lt hi)] at hk
            simp [default] at hk
        · exact hj
    · intro n hn k hk
      exact hv2.2 n hn k hk

theorem mutexIdsOk_addAMutex {st : GraphState} {i j : Nat}
    (hv : mutexIdsOk st = true) (hj : j < st.anodes.length) :
    mutexIdsOk (addAMutex st i j) = true := by
  have hv2 := hv
  simp only [mutexIdsOk, Bool.and_eq_true, List.all_eq_true, decide_eq_true_eq] at hv2 ⊢
  unfold addAMutex
  by_cases hm : aMember st (aNodeAt st i).mutex (aAct st j).name = true
  · simp only [hm, if_true]
    exact hv2
  · simp only [Bool.not_eq_true] at hm
    simp only [hm, Bool.false_eq_true, if_false]
    constructor
    · intro n hn k hk
      exact hv2.1 n hn k hk
    · intro n hn k hk
      have hlen : (setANode st i { aNodeAt st i with
          mutex := (aNodeAt st i).mutex ++ [j] }).anodes.length = st.anodes.length := by
        simp [setANode]
      rw [hlen]
      rcases List.mem_or_eq_of_mem_set hn with hn2 | rfl
      · exact hv2.2 n hn2 k hk
      · simp only [List.mem_append, List.mem_singleton] at hk
        rcases hk with hk | rfl
        · by_cases hi : i < st.anodes.length
          · exact hv2.2 (aNodeAt st i) (aNodeAt_mem hi) k hk
          · rw [aNodeAt_oob (le_of_not_lt hi)] at hk
            simp [default] at hk
        · exact hj

theorem snodes_length_mutexify_ss {st : GraphState} {i j : Nat} :
    (mutexify_ss st i j).snodes.length = st.snodes.length := by
  unfold mutexify_ss
  rw [snodes_length_addSMutex, snodes_length_addSMutex]

theorem anodes_length_mutexify_aa {st : GraphState} {i j : Nat} :
    (mutexify_aa st i j).anodes.length = st.anodes.length := by
  unfold mutexify_aa
  rw [anodes_length_addAMutex, anodes_length_addAMutex]

/-- Graph operations preserve the no-dangling-mutex-ids invariant. -/
theorem mutexIdsOk_applyOp {st : GraphState} {op : GOp}
    (hv : mutexIdsOk st = true) (hop : opOk st op = true) :
    mutexIdsOk (applyOp st op) = true := by
  cases op with
  | addS s b =>
    have hv2 := hv
    simp only [mutexIdsOk, Bool.and_eq_true, List.all_eq_true, decide_eq_true_eq] at hv2
    show mutexIdsOk ⟨st.snodes ++ [⟨s, b, [], [], []⟩], st.anodes, st.s_levels,
      st.a_levels, st.serial⟩ = true
    simp only [mutexIdsOk, Bool.and_eq_true, List.all_eq_true, decide_eq_true_eq]
    refine ⟨?_, ?_⟩
    · intro n hn k hk
      simp only [List.mem_append, List.mem_singleton] at hn
      simp only [List.length_append]
      rcases hn with hn | rfl
      · exact Nat.lt_of_lt_of_le (hv2.1 n hn k hk) (Nat.le_add_right _ _)
      · simp at hk
    · intro n hn k hk
      exact hv2.2 n hn k hk
  | addA act =>
    have hv2 := hv
    simp only [mutexIdsOk, Bool.and_eq_true, List.all_eq_true, decide_eq_true_eq] at hv2 ⊢
    constructor
    · intro n hn
      show ∀ k ∈ n.mutex, k < (st.snodes ++ _ ++ _).length
      simp only [applyOp, newANode, allocSNodes, List.mem_append] at hn
      rcases hn with (hn | hn) | hn
      · intro k hk
        simp only [List.length_append]
        exact Nat.lt_of_lt_of_le (hv2.1 n hn k hk)
          (Nat.le_trans (Nat.le_add_right _ _) (Nat.le_add_right _ _))
      · rcases List.mem_map.1 hn with ⟨l, _, rfl⟩
        intro k hk
        simp at hk
      · rcases List.mem_map.1 hn with ⟨l, _, rfl⟩
        intro k hk
        simp at hk
    · intro n hn
      simp only [applyOp, newANode, allocSNodes, List.mem_append] at hn
      rcases hn with hn | hn
      · intro k hk
        simp only [applyOp, newANode, allocSNodes, List.length_append]
        exact Nat.lt_of_lt_of_le (hv2.2 n hn k hk) (Nat.le_add_right _ _)
      · simp only [List.mem_singleton] at hn
        subst hn
        intro k hk
        simp at hk
  | mutexop n1 n2 =>
    cases n1 with
    | sref i =>
      cases n2 with
      | sref j =>
        simp only [opOk, Bool.and_eq_true, decide_eq_true_eq, nrefValid] at hop
        show mutexIdsOk (mutexify_ss st i j) = true
        unfold mutexify_ss
        apply mutexIdsOk_addSMutex (mutexIdsOk_addSMutex hv hop.2)
        rw [snodes_length_addSMutex]
        exact hop.1
      | aref j => exact hv
    | aref i =>
      cases n2 with
      | sref j => exact hv
      | aref j =>
        simp only [opOk, Bool.and_eq_true, decide_eq_true_eq, nrefValid] at hop
        show mutexIdsOk (mutexify_aa st i j) = true
        unfold mutexify_aa
        apply mutexIdsOk_addAMutex (mutexIdsOk_addAMutex hv hop.2)
        rw [anodes_length_addAMutex]
        exact hop.1
  | sparentAdd nid aid =>
    have hv2 := hv
    simp only [mutexIdsOk, Bool.and_eq_true, List.all_eq_true, decide_eq_true_eq] at hv2 ⊢
    constructor
    · intro n hn k hk
      show k < (st.snodes.set nid _).length
      simp only [List.length_set]
      simp only [applyOp, setSNode] at hn
      rcases List.mem_or_eq_of_mem_set hn with hn2 | rfl
      · exact hv2.1 n hn2 k hk
      · simp only at hk
        by_cases hnid : nid < st.snodes.length
        · exact hv2.1 (sNodeAt st nid) (sNodeAt_mem hnid) k hk
        · rw [sNodeAt_oob (le_of_not_lt hnid)] at hk
          simp [default] at hk
    · intro n hn k hk
      exact hv2.2 n hn k hk
  | achildAdd aid eid =>
    have hv2 := hv
    simp only [mutexIdsOk, Bool.and_eq_true, List.all_eq_true, decide_eq_true_eq] at hv2 ⊢
    refine ⟨fun n hn k hk => hv2.1 n hn k hk, ?_⟩
    intro n hn k hk
    show k < (st.anodes.set aid _).length
    simp only [List.length_set]
    simp only [applyOp, setANode] at hn
    rcases List.mem_or_eq_of_mem_set hn with hn2 | rfl
    · exact hv2.2 n hn2 k hk
    · simp only at hk
      by_cases haid : aid < st.anodes.length
      · exact hv2.2 (aNodeAt st aid) (aNodeAt_mem haid) k hk
      · rw [aNodeAt_oob (le_of_not_lt haid)] at hk
        simp [default] at hk
  | aparentsSet aid =>
    have hv2 := hv
    simp only [mutexIdsOk, Bool.and_eq_true, List.all_eq_true, decide_eq_true_eq] at hv2 ⊢
    refine ⟨fun n hn k hk => hv2.1 n hn k hk, ?_⟩
    intro n hn k hk
    show k < (st.anodes.set aid _).length
    simp only [List.length_set]
    simp only [applyOp, setANode] at hn
    rcases List.mem_or_eq_of_mem_set hn with hn2 | rfl
    · exact hv2.2 n hn2 k hk
    · simp only at hk
      by_cases haid : aid < st.anodes.length
      · exact hv2.2 (aNodeAt st aid) (aNodeAt_mem haid) k hk
      · rw [aNodeAt_oob (le_of_not_lt haid)] at hk
        simp [default] at hk

end PlanningModel

namespace PlanningModel

theorem nrefValid_applyOp {st : GraphState} {op : GOp} {n : NRef}
    (h : nrefValid st n) : nrefValid (applyOp st op) n := by
  cases n with
  | sref i => exact Nat.lt_of_lt_of_le h snodes_applyOp_mono
  | aref i => exact Nat.lt_of_lt_of_le h anodes_applyOp_mono

/-- A value-level mutex fact about existing nodes survives any valid operation
sequence. -/
theorem is_mutex_runOps_mono {n1 n2 : NRef} :
    ∀ (post : List GOp) (st : GraphState), mutexIdsOk st = true → opsOk st post = true →
      nrefValid st n2 → is_mutex st n1 n2 = true →
      is_mutex (runOps st post) n1 n2 = true := by
  intro post
  induction post with
  | nil => intro st _ _ _ h; exact h
  | cons op rest ih =>
    intro st hv hops hval h
    simp only [opsOk, Bool.and_eq_true] at hops
    show is_mutex (runOps (applyOp st op) rest) n1 n2 = true
    refine ih (applyOp st op) (mutexIdsOk_applyOp hv hops.1) hops.2
      (nrefValid_applyOp hval) ?_
    cases n1 with
    | sref i =>
      cases n2 with
      | sref j => exact is_mutex_s_applyOp_mono hv hval h
      | aref j => simp [is_mutex] at h
    | aref i =>
      cases n2 with
      | sref j => simp [is_mutex] at h
      | aref j => exact is_mutex_a_applyOp_mono hv hval h

/-- C6 amended: every insertion goes through the symmetric `mutexify`, so for
every pair of node objects actually passed to `mutexify`, `is_mutex` holds in
both directions immediately afterwards and keeps holding after any further
valid sequence of graph operations.  (As stated over arbitrary node pairs the
claim fails: two distinct node objects carrying the same literal make the
value-based `is_mutex` asymmetric; see the counterexample.) -/
theorem mutexified_pair_is_mutex_both_ways (st : GraphState) (n1 n2 : NRef)
    (hv : mutexIdsOk st = true) (hk : nrefKind n1 = nrefKind n2)
    (h1 : nrefValid st n1) (h2 : nrefValid st n2) (post : List GOp)
    (hpost : opsOk (applyOp st (.mutexop n1 n2)) post = true) :
    is_mutex (runOps (applyOp st (.mutexop n1 n2)) post) n1 n2 = true ∧
      is_mutex (runOps (applyOp st (.mutexop n1 n2)) post) n2 n1 = true := by
  have hvok : opOk st (.mutexop n1 n2) = true := by
    simp only [opOk, Bool.and_eq_true, decide_eq_true_eq]
    exact ⟨h1, h2⟩
  have hv2 : mutexIdsOk (applyOp st (.mutexop n1 n2)) = true :=
    mutexIdsOk_applyOp hv hvok
  cases n1 with
  | sref i =>
    cases n2 with
    | sref j =>
      have hst : applyOp st (.mutexop (.sref i) (.sref j)) = mutexify_ss st i j := rfl
      have hboth := @mutexify_ss_both st i j h1 h2
      rw [hst] at hv2 ⊢
      have hlen : (mutexify_ss st i j).snodes.length = st.snodes.length :=
        snodes_length_mutexify_ss
      constructor
      · exact is_mutex_runOps_mono post (mutexify_ss st i j) hv2 hpost
          (by show j < _; rw [hlen]; exact h2) hboth.1
      · exact is_mutex_runOps_mono post (mutexify_ss st i j) hv2 hpost
          (by show i < _; rw [hlen]; exact h1) hboth.2
    | aref j => simp [nrefKind] at hk
  | aref i =>
    cases n2 with
    | sref j => simp [nrefKind] at hk
    | aref j =>
      have hst : applyOp st (.mutexop (.aref i) (.aref j)) = mutexify_aa st i j := rfl
      have hboth := @mutexify_aa_both st i j h1 h2
      rw [hst] at hv2 ⊢
      have hlen : (mutexify_aa st i j).anodes.length = st.anodes.length :=
        anodes_length_mutexify_aa
      constructor
      · exact is_mutex_runOps_mono post (mutexify_aa st i j) hv2 hpost
          (by show j < _; rw [hlen]; exact h2) hboth.1
      · exact is_mutex_runOps_mono post (mutexify_aa st i j) hv2 hpost
          (by show i < _; rw [hlen]; exact h1) hboth.2

/-- Witness for the amended C6: a concrete mutexify followed by a further
operation, with both directions checked on the resulting state. -/
theorem mutexified_pair_is_mutex_both_ways_witness :
    mutexIdsOk emptyParentsSt = true ∧
      opsOk (applyOp emptyParentsSt (.mutexop (.sref 0) (.sref 1))) [.addS 5 true] = true ∧
      is_mutex (runOps (applyOp emptyParentsSt (.mutexop (.sref 0) (.sref 1)))
        [.addS 5 true]) (.sref 0) (.sref 1) = true ∧
      is_mutex (runOps (applyOp emptyParentsSt (.mutexop (.sref 0) (.sref 1)))
        [.addS 5 true]) (.sref 1) (.sref 0) = true := by
  have h := mutexified_pair_is_mutex_both_ways emptyParentsSt (.sref 0) (.sref 1)
    (by decide) rfl (by decide) (by decide) [.addS 5 true] (by decide)
  exact ⟨by decide, by decide, h.1, h.2⟩

/-- Counterexample to C6 as stated: a sequence of the graph's own operations
(create three fact nodes, the first two carrying the same literal exactly as
`add_action_level` duplicates a fact-layer literal in a fresh prenode object,
then one symmetric `mutexify`) after which `is_mutex` is asymmetric: node 2
finds node 1's value in its mutex set, but node 1's mutex set is empty. -/
theorem is_mutex_not_symmetric_cex :
    is_mutex (runOps ⟨[], [], [], [], true⟩
        [.addS 0 true, .addS 0 true, .addS 1 true, .mutexop (.sref 0) (.sref 2)])
      (.sref 2) (.sref 1) = true ∧
    is_mutex (runOps ⟨[], [], [], [], true⟩
        [.addS 0 true, .addS 0 true, .addS 1 true, .mutexop (.sref 0) (.sref 2)])
      (.sref 1) (.sref 2) = false := by
  exact ⟨by decide, by decide⟩

end PlanningModel

namespace PlanningModel

theorem sext_refl {st : GraphState} : SExt st st where
  slen := Nat.le_refl _
  alen := Nat.le_refl _
  slit := fun _ _ => rfl
  afix := fun _ _ => ⟨rfl, rfl, rfl, rfl⟩
  slevp := ⟨[], (List.append_nil _).symm⟩
  alevp := ⟨[], (List.append_nil _).symm⟩
  ser := rfl
  smut := fun _ _ _ h => h
  amut := fun _ _ _ h => h

theorem sext_trans {st1 st2 st3 : GraphState} (h12 : SExt st1 st2) (h23 : SExt st2 st3) :
    SExt st1 st3 where
  slen := Nat.le_trans h12.slen h23.slen
  alen := Nat.le_trans h12.alen h23.alen
  slit := fun k hk => (h23.slit k (Nat.lt_of_lt_of_le hk h12.slen)).trans (h12.slit k hk)
  afix := fun k hk => by
    obtain ⟨a1, a2, a3, a4⟩ := h12.afix k hk
    obtain ⟨b1, b2, b3, b4⟩ := h23.afix k (Nat.lt_of_lt_of_le hk h12.alen)
    exact ⟨b1.trans a1, b2.trans a2, b3.trans a3, b4.trans a4⟩
  slevp := by
    obtain ⟨t1, ht1⟩ := h12.slevp
    obtain ⟨t2, ht2⟩ := h23.slevp
    exact ⟨t1 ++ t2, by rw [ht2, ht1, List.append_assoc]⟩
  alevp := by
    obtain ⟨t1, ht1⟩ := h12.alevp
    obtain ⟨t2, ht2⟩ := h23.alevp
    exact ⟨t1 ++ t2, by rw [ht2, ht1, List.append_assoc]⟩
  ser := h23.ser.trans h12.ser
  smut := fun a b hb h =>
    h23.smut a b (Nat.lt_of_lt_of_le hb h12.slen) (h12.smut a b hb h)
  amut := fun a b hb h =>
    h23.amut a b (Nat.lt_of_lt_of_le hb h12.alen) (h12.amut a b hb h)

/-- A layer's literal list is unchanged along an extension. -/
theorem litsOf_SExt {st st2 : GraphState} (h : SExt st st2) {ids : List Nat}
    (hids : ∀ i ∈ ids, i < st.snodes.length) : litsOf st2 ids = litsOf st ids := by
  unfold litsOf
  exact List.map_congr_left fun i hi => h.slit i (hids i hi)

/-- Indexing a level that already existed is unchanged along an extension. -/
theorem s_levels_getD_SExt {st st2 : GraphState} (h : SExt st st2) {i : Nat}
    (hi : i < st.s_levels.length) : st2.s_levels.getD i [] = st.s_levels.getD i [] := by
  obtain ⟨t, ht⟩ := h.slevp
  rw [ht]
  exact List.getD_append _ _ _ _ hi

theorem a_levels_getD_SExt {st st2 : GraphState} (h : SExt st st2) {i : Nat}
    (hi : i < st.a_levels.length) : st2.a_levels.getD i [] = st.a_levels.getD i [] := by
  obtain ⟨t, ht⟩ := h.alevp
  rw [ht]
  exact List.getD_append _ _ _ _ hi

end PlanningModel

namespace PlanningModel

theorem idsFrom_mem {base n i : Nat} : i ∈ idsFrom base n ↔ base ≤ i ∧ i < base + n := by
  induction n generalizing base with
  | zero => simp [idsFrom]
  | succ m ih =>
    simp only [idsFrom, List.mem_cons, ih]
    omega

theorem idsFrom_nodup {base n : Nat} : (idsFrom base n).Nodup := by
  induction n generalizing base with
  | zero => exact List.nodup_nil
  | succ m ih =>
    refine List.nodup_cons.2 ⟨fun hc => ?_, ih⟩
    rw [idsFrom_mem] at hc
    omega

/-- The fact store of a state whose snodes are extended behaves identically on
old ids, whatever the other fields are. -/
theorem is_mutex_s_snodes_append {st : GraphState} {extra : List SNode}
    {an : List ANode} {sl al : List (List Nat)} {ser : Bool} {a b : Nat}
    (hv : mutexIdsOk st = true) (hb : b < st.snodes.length)
    (h : is_mutex_s st a b = true) :
    is_mutex_s ⟨st.snodes ++ extra, an, sl, al, ser⟩ a b = true := by
  have ha : a < st.snodes.length := valid_of_is_mutex_s h
  have hv2 := hv
  simp only [mutexIdsOk, Bool.and_eq_true, List.all_eq_true, decide_eq_true_eq] at hv2
  have hmutids : ∀ k ∈ (sNodeAt st a).mutex, k < st.snodes.length :=
    fun k hk => hv2.1 (sNodeAt st a) (sNodeAt_mem ha) k hk
  have hlits : ∀ k, k < st.snodes.length →
      sLit (⟨st.snodes ++ extra, an, sl, al, ser⟩ : GraphState) k = sLit st k := by
    intro k hk
    unfold sLit
    rw [sNodeAt_append hk]
  rw [is_mutex_s, sNodeAt_append ha, hlits b hb,
    sMember_congr fun k hk => hlits k (hmutids k hk)]
  exact h

theorem is_mutex_a_anodes_append {st : GraphState} {extra : List ANode}
    {sn : List SNode} {sl al : List (List Nat)} {ser : Bool} {a b : Nat}
    (hv : mutexIdsOk st = true) (hb : b < st.anodes.length)
    (h : is_mutex_a st a b = true) :
    is_mutex_a ⟨sn, st.anodes ++ extra, sl, al, ser⟩ a b = true := by
  have ha : a < st.anodes.length := valid_of_is_mutex_a h
  have hv2 := hv
  simp only [mutexIdsOk, Bool.and_eq_true, List.all_eq_true, decide_eq_true_eq] at hv2
  have hmutids : ∀ k ∈ (aNodeAt st a).mutex, k < st.anodes.length :=
    fun k hk => hv2.2 (aNodeAt st a) (aNodeAt_mem ha) k hk
  have hacts : ∀ k, k < st.anodes.length →
      aAct (⟨sn, st.anodes ++ extra, sl, al, ser⟩ : GraphState) k = aAct st k := by
    intro k hk
    unfold aAct
    rw [aNodeAt_append hk]
  rw [is_mutex_a, aNodeAt_append ha, hacts b hb,
    aMember_congr fun k hk => hacts k (hmutids k hk)]
  exact h

/-- Extension facts for a pure snodes-append with anodes untouched. -/
theorem sext_snodes_append {st : GraphState} {extra : List SNode}
    (hv : mutexIdsOk st = true) :
    SExt st ⟨st.snodes ++ extra, st.anodes, st.s_levels, st.a_levels, st.serial⟩ where
  slen := by simp
  alen := Nat.le_refl _
  slit := fun k hk => by unfold sLit; rw [sNodeAt_append hk]
  afix := fun _ _ => ⟨rfl, rfl, rfl, rfl⟩
  slevp := ⟨[], (List.append_nil _).symm⟩
  alevp := ⟨[], (List.append_nil _).symm⟩
  ser := rfl
  smut := fun _ b hb h => is_mutex_s_snodes_append hv hb h
  amut := fun _ _ _ h => h

theorem sext_allocSNodes {st : GraphState} {ls : List Lit} (hv : mutexIdsOk st = true) :
    SExt st (allocSNodes st ls).1 := sext_snodes_append hv

theorem litsOf_idsFrom {st2 : GraphState} :
    ∀ (ls : List Lit) (base : Nat),
      (∀ k, k < ls.length → sLit st2 (base + k) = ls.getD k default) →
      litsOf st2 (idsFrom base ls.length) = ls := by
  intro ls
  induction ls with
  | nil => intro base _; rfl
  | cons x rest ih =>
    intro base h
    show sLit st2 base :: litsOf st2 (idsFrom (base + 1) rest.length) = x :: rest
    have h0 := h 0 (Nat.succ_pos _)
    rw [Nat.add_zero] at h0
    rw [h0]
    congr 1
    refine ih (base + 1) fun k hk => ?_
    have hs := h (k + 1) (Nat.succ_lt_succ hk)
    rw [show base + (k + 1) = base + 1 + k by omega] at hs
    exact hs

/-- The literals of freshly allocated nodes are exactly the requested ones. -/
theorem litsOf_allocSNodes {st : GraphState} {ls : List Lit} :
    litsOf (allocSNodes st ls).1 (allocSNodes st ls).2 = ls := by
  apply litsOf_idsFrom
  intro k hk
  show sLit ⟨st.snodes ++ ls.map _, _, _, _, _⟩ (st.snodes.length + k) = ls.getD k default
  unfold sLit sNodeAt
  rw [List.getD_append_right _ _ _ _ (Nat.le_add_right _ _), Nat.add_sub_cancel_left]
  have hklen : k < (ls.map fun l => (⟨l.symbol, l.is_pos, [], [], []⟩ : SNode)).length := by
    simpa using hk
  rw [List.getD_eq_getElem?_getD, List.getElem?_eq_getElem hklen]
  simp only [List.getElem_map, Option.getD_some]
  rw [List.getD_eq_getElem?_getD, List.getElem?_eq_getElem hk]
  rfl

/-- The fresh nodes have empty parents, children and mutex sets. -/
theorem allocSNodes_fresh {st : GraphState} {ls : List Lit} {i : Nat}
    (hi : i ∈ (allocSNodes st ls).2) :
    (sNodeAt (allocSNodes st ls).1 i).parents = [] ∧
      (sNodeAt (allocSNodes st ls).1 i).children = [] ∧
      (sNodeAt (allocSNodes st ls).1 i).mutex = [] := by
  have hrange : st.snodes.length ≤ i ∧ i < st.snodes.length + ls.length := by
    have hmem := hi
    rw [show (allocSNodes st ls).2 = idsFrom st.snodes.length ls.length from rfl,
      idsFrom_mem] at hmem
    exact hmem
  obtain ⟨hge, hlt⟩ := hrange
  have hidx2 : i - st.snodes.length < ls.length := by omega
  have hlen : i < (st.snodes ++ ls.map fun l =>
      (⟨l.symbol, l.is_pos, [], [], []⟩ : SNode)).length := by
    simp only [List.length_append, List.length_map]
    omega
  have hnode : sNodeAt (allocSNodes st ls).1 i =
      ⟨(ls.get ⟨i - st.snodes.length, hidx2⟩).symbol,
        (ls.get ⟨i - st.snodes.length, hidx2⟩).is_pos, [], [], []⟩ := by
    show sNodeAt ⟨st.snodes ++ _, _, _, _, _⟩ i = _
    unfold sNodeAt
    rw [List.getD_eq_getElem?_getD, List.getElem?_eq_getElem hlen, Option.getD_some,
      List.getElem_append_right hge, List.getElem_map, List.get_eq_getElem]
  rw [hnode]
  exact ⟨rfl, rfl, rfl⟩

end PlanningModel

namespace PlanningModel

theorem sNodeAt_eq_of_snodes {st2 st : GraphState} (h : st2.snodes = st.snodes) :
    ∀ k, sNodeAt st2 k = sNodeAt st k := by
  intro k
  unfold sNodeAt
  rw [h]

theorem sLit_eq_of_snodes {st2 st : GraphState} (h : st2.snodes = st.snodes) :
    ∀ k, sLit st2 k = sLit st k := by
  intro k
  unfold sLit sNodeAt
  rw [h]

theorem sLit_snodes_append {st : GraphState} {extra : List SNode}
    {an : List ANode} {sl al : List (List Nat)} {ser : Bool} {k : Nat}
    (h : k < st.snodes.length) :
    sLit (⟨st.snodes ++ extra, an, sl, al, ser⟩ : GraphState) k = sLit st k := by
  unfold sLit
  rw [show sNodeAt (⟨st.snodes ++ extra, an, sl, al, ser⟩ : GraphState) k =
    sNodeAt ⟨st.snodes ++ extra, st.anodes, st.s_levels, st.a_levels, st.serial⟩ k from rfl]
  rw [sNodeAt_append h]

theorem mutexIdsOk_allocSNodes {st : GraphState} {ls : List Lit}
    (hv : mutexIdsOk st = true) : mutexIdsOk (allocSNodes st ls).1 = true := by
  have hv2 := hv
  simp only [mutexIdsOk, Bool.and_eq_true, List.all_eq_true, decide_eq_true_eq] at hv2
  show mutexIdsOk ⟨st.snodes ++ _, st.anodes, _, _, _⟩ = true
  simp only [mutexIdsOk, Bool.and_eq_true, List.all_eq_true, decide_eq_true_eq]
  refine ⟨?_, fun n hn k hk => hv2.2 n hn k hk⟩
  intro n hn k hk
  simp only [List.mem_append] at hn
  simp only [List.length_append]
  rcases hn with hn | hn
  · exact Nat.lt_of_lt_of_le (hv2.1 n hn k hk) (Nat.le_add_right _ _)
  · rcases List.mem_map.1 hn with ⟨l, _, rfl⟩
    simp at hk

theorem mutexIdsOk_anodes_append_fresh {st : GraphState} {node : ANode}
    (hv : mutexIdsOk st = true) (hm : node.mutex = []) :
    mutexIdsOk ⟨st.snodes, st.anodes ++ [node], st.s_levels, st.a_levels, st.serial⟩
      = true := by
  have hv2 := hv
  simp only [mutexIdsOk, Bool.and_eq_true, List.all_eq_true, decide_eq_true_eq] at hv2
  simp only [mutexIdsOk, Bool.and_eq_true, List.all_eq_true, decide_eq_true_eq]
  refine ⟨fun n hn k hk => hv2.1 n hn k hk, ?_⟩
  intro n hn k hk
  simp only [List.mem_append, List.mem_singleton] at hn
  simp only [List.length_append]
  rcases hn with hn | rfl
  · exact Nat.lt_of_lt_of_le (hv2.2 n hn k hk) (Nat.le_add_right _ _)
  · rw [hm] at hk
    exact absurd hk (List.not_mem_nil k)

theorem sext_anodes_append {st : GraphState} {extra : List ANode}
    (hv : mutexIdsOk st = true) :
    SExt st ⟨st.snodes, st.anodes ++ extra, st.s_levels, st.a_levels, st.serial⟩ where
  slen := Nat.le_refl _
  alen := by simp
  slit := fun _ _ => rfl
  afix := fun k hk => by rw [aNodeAt_append hk]; exact ⟨rfl, rfl, rfl, rfl⟩
  slevp := ⟨[], (List.append_nil _).symm⟩
  alevp := ⟨[], (List.append_nil _).symm⟩
  ser := rfl
  smut := fun _ _ _ h => h
  amut := fun _ b hb h => is_mutex_a_anodes_append hv hb h

theorem mutexIdsOk_newANode {st : GraphState} {a : PAction}
    (hv : mutexIdsOk st = true) : mutexIdsOk (newANode st a).1 = true := by
  show mutexIdsOk ⟨(allocSNodes (allocSNodes st (preLits a)).1 (effLits a)).1.snodes,
    (allocSNodes (allocSNodes st (preLits a)).1 (effLits a)).1.anodes ++ [_], _, _, _⟩ = true
  exact mutexIdsOk_anodes_append_fresh
    (mutexIdsOk_allocSNodes (mutexIdsOk_allocSNodes hv)) rfl

theorem sext_newANode {st : GraphState} {a : PAction} (hv : mutexIdsOk st = true) :
    SExt st (newANode st a).1 := by
  have h1 : SExt st (allocSNodes st (preLits a)).1 := sext_allocSNodes hv
  have h2 : SExt (allocSNodes st (preLits a)).1
      (allocSNodes (allocSNodes st (preLits a)).1 (effLits a)).1 :=
    sext_allocSNodes (mutexIdsOk_allocSNodes hv)
  have h3 := @sext_anodes_append
    (allocSNodes (allocSNodes st (preLits a)).1 (effLits a)).1
    [⟨a, (allocSNodes st (preLits a)).2,
      (allocSNodes (allocSNodes st (preLits a)).1 (effLits a)).2,
      litSetEq (preLits a) (effLits a), [], [], []⟩]
    (mutexIdsOk_allocSNodes (mutexIdsOk_allocSNodes hv))
  exact sext_trans (sext_trans h1 h2) h3

theorem newANode_id {st : GraphState} {a : PAction} :
    (newANode st a).2 = st.anodes.length := rfl

theorem newANode_node {st : GraphState} {a : PAction} :
    aNodeAt (newANode st a).1 (newANode st a).2 =
      ⟨a, (allocSNodes st (preLits a)).2,
        (allocSNodes (allocSNodes st (preLits a)).1 (effLits a)).2,
        litSetEq (preLits a) (effLits a), [], [], []⟩ := by
  show (st.anodes ++ [_]).getD st.anodes.length default = _
  rw [List.getD_append_right _ _ _ _ (Nat.le_refl _), Nat.sub_self]
  rfl

theorem newANode_s_levels {st : GraphState} {a : PAction} :
    (newANode st a).1.s_levels = st.s_levels := rfl

theorem newANode_a_levels {st : GraphState} {a : PAction} :
    (newANode st a).1.a_levels = st.a_levels := rfl

theorem newANode_snodes_len {st : GraphState} {a : PAction} :
    (newANode st a).1.snodes.length =
      st.snodes.length + (preLits a).length + (effLits a).length := by
  show (st.snodes ++ _ ++ _).length = _
  simp [Nat.add_assoc]

theorem newANode_anodes_len {st : GraphState} {a : PAction} :
    (newANode st a).1.anodes.length = st.anodes.length + 1 := by
  show (st.anodes ++ [_]).length = _
  simp

theorem newANode_prenodes_lits {st : GraphState} {a : PAction} :
    litsOf (newANode st a).1 (aNodeAt (newANode st a).1 (newANode st a).2).prenodes
      = preLits a := by
  rw [newANode_node]
  show litsOf (newANode st a).1 (allocSNodes st (preLits a)).2 = preLits a
  have hstab : litsOf (newANode st a).1 (allocSNodes st (preLits a)).2 =
      litsOf (allocSNodes st (preLits a)).1 (allocSNodes st (preLits a)).2 := by
    unfold litsOf
    apply List.map_congr_left
    intro i hi
    rw [show (allocSNodes st (preLits a)).2 = idsFrom st.snodes.length (preLits a).length
      from rfl, idsFrom_mem] at hi
    have hval : i < (allocSNodes st (preLits a)).1.snodes.length := by
      show i < (st.snodes ++ _).length
      simp only [List.length_append, List.length_map]
      omega
    show sLit ⟨(allocSNodes st (preLits a)).1.snodes ++ _, _, _, _, _⟩ i = _
    exact sLit_snodes_append hval
  rw [hstab]
  exact litsOf_allocSNodes

theorem newANode_effnodes_lits {st : GraphState} {a : PAction} :
    litsOf (newANode st a).1 (aNodeAt (newANode st a).1 (newANode st a).2).effnodes
      = effLits a := by
  rw [newANode_node]
  show litsOf (newANode st a).1
    (allocSNodes (allocSNodes st (preLits a)).1 (effLits a)).2 = effLits a
  have hstab : litsOf (newANode st a).1
      (allocSNodes (allocSNodes st (preLits a)).1 (effLits a)).2 =
      litsOf (allocSNodes (allocSNodes st (preLits a)).1 (effLits a)).1
        (allocSNodes (allocSNodes st (preLits a)).1 (effLits a)).2 := by
    unfold litsOf
    apply List.map_congr_left
    intro i _
    exact sLit_eq_of_snodes rfl i
  rw [hstab]
  exact litsOf_allocSNodes

end PlanningModel

namespace PlanningModel

theorem allocSNodes_snodes_len {st : GraphState} {ls : List Lit} :
    (allocSNodes st ls).1.snodes.length = st.snodes.length + ls.length := by
  show (st.snodes ++ _).length = _
  simp

theorem newANode_pre_range {st : GraphState} {a : PAction} {p : Nat}
    (hp : p ∈ (aNodeAt (newANode st a).1 (newANode st a).2).prenodes) :
    st.snodes.length ≤ p ∧ p < st.snodes.length + (preLits a).length := by
  rw [newANode_node] at hp
  rw [show (allocSNodes st (preLits a)).2 =
    idsFrom st.snodes.length (preLits a).length from rfl, idsFrom_mem] at hp
  exact hp

theorem newANode_eff_range {st : GraphState} {a : PAction} {e : Nat}
    (he : e ∈ (aNodeAt (newANode st a).1 (newANode st a).2).effnodes) :
    st.snodes.length + (preLits a).length ≤ e ∧
      e < st.snodes.length + (preLits a).length + (effLits a).length := by
  rw [newANode_node] at he
  rw [show (allocSNodes (allocSNodes st (preLits a)).1 (effLits a)).2 =
    idsFrom (allocSNodes st (preLits a)).1.snodes.length (effLits a).length from rfl,
    idsFrom_mem, allocSNodes_snodes_len] at he
  exact he

/-- Every fresh prenode or effnode object of the candidate starts with empty
parents, children and mutex sets. -/
theorem newANode_fresh_snode {st : GraphState} {a : PAction} {p : Nat}
    (hp : p ∈ (aNodeAt (newANode st a).1 (newANode st a).2).prenodes ∨
      p ∈ (aNodeAt (newANode st a).1 (newANode st a).2).effnodes) :
    (sNodeAt (newANode st a).1 p).parents = [] ∧
      (sNodeAt (newANode st a).1 p).children = [] ∧
      (sNodeAt (newANode st a).1 p).mutex = [] := by
  rw [newANode_node] at hp
  rcases hp with hp | hp
  · have hfresh := @allocSNodes_fresh st (preLits a) p hp
    have hval : p < (allocSNodes st (preLits a)).1.snodes.length := by
      have := hp
      rw [show (allocSNodes st (preLits a)).2 =
        idsFrom st.snodes.length (preLits a).length from rfl, idsFrom_mem] at this
      rw [allocSNodes_snodes_len]
      omega
    have hnode : sNodeAt (newANode st a).1 p = sNodeAt (allocSNodes st (preLits a)).1 p := by
      have h1 : ∀ k, sNodeAt (newANode st a).1 k = sNodeAt
          ⟨(allocSNodes st (preLits a)).1.snodes ++
            ((effLits a).map fun l => (⟨l.symbol, l.is_pos, [], [], []⟩ : SNode)),
          (allocSNodes st (preLits a)).1.anodes,
          (allocSNodes st (preLits a)).1.s_levels,
          (allocSNodes st (preLits a)).1.a_levels,
          (allocSNodes st (preLits a)).1.serial⟩ k :=
        sNodeAt_eq_of_snodes rfl
      rw [h1 p]
      exact sNodeAt_append hval
    rw [hnode]
    exact hfresh
  · have hfresh := @allocSNodes_fresh (allocSNodes st (preLits a)).1 (effLits a) p hp
    have hnode : sNodeAt (newANode st a).1 p =
        sNodeAt (allocSNodes (allocSNodes st (preLits a)).1 (effLits a)).1 p := rfl
    rw [hnode]
    exact hfresh

end PlanningModel

namespace PlanningModel

theorem aNodeAt_newANode_old {st : GraphState} {a : PAction} {k : Nat}
    (h : k < st.anodes.length) : aNodeAt (newANode st a).1 k = aNodeAt st k := by
  show (st.anodes ++ [_]).getD k default = _
  exact List.getD_append _ _ _ _ h

theorem sNodeAt_newANode_old {st : GraphState} {a : PAction} {k : Nat}
    (h : k < st.snodes.length) : sNodeAt (newANode st a).1 k = sNodeAt st k := by
  have h1 : ∀ m, sNodeAt (newANode st a).1 m = sNodeAt
      ⟨st.snodes ++ (((preLits a).map fun l => (⟨l.symbol, l.is_pos, [], [], []⟩ : SNode)) ++
        ((effLits a).map fun l => (⟨l.symbol, l.is_pos, [], [], []⟩ : SNode))),
      st.anodes, st.s_levels, st.a_levels, st.serial⟩ m := by
    intro m
    apply sNodeAt_eq_of_snodes
    show (st.snodes ++ _ ++ _ : List SNode) = st.snodes ++ (_ ++ _)
    rw [List.append_assoc]
  rw [h1 k]
  exact sNodeAt_append h

theorem newANode_anodes {st : GraphState} {a : PAction} {n : ANode}
    (hn : n ∈ (newANode st a).1.anodes) :
    n ∈ st.anodes ∨ n = aNodeAt (newANode st a).1 (newANode st a).2 := by
  rw [newANode_node]
  have hshape : (newANode st a).1.anodes = st.anodes ++
      [⟨a, (allocSNodes st (preLits a)).2,
        (allocSNodes (allocSNodes st (preLits a)).1 (effLits a)).2,
        litSetEq (preLits a) (effLits a), [], [], []⟩] := rfl
  rw [hshape] at hn
  simp only [List.mem_append, List.mem_singleton] at hn
  exact hn

/-- Creating a candidate action node preserves the structural invariant. -/
theorem inv_newANode {st : GraphState} {a : PAction} (hinv : Inv st) :
    Inv (newANode st a).1 := by
  have hsext : SExt st (newANode st a).1 := sext_newANode hinv.mids
  have hslev : (newANode st a).1.s_levels = st.s_levels := rfl
  have halev : (newANode st a).1.a_levels = st.a_levels := rfl
  have hlits : ∀ ids : List Nat, (∀ i ∈ ids, i < st.snodes.length) →
      litsOf (newANode st a).1 ids = litsOf st ids := by
    intro ids hids
    exact litsOf_SExt hsext hids
  refine ⟨?_, ?_, ?_, ?_, ?_, ?_, ?_, ?_, ?_, ?_, ?_, ?_, ?_, ?_, ?_⟩
  · rw [hslev]
    intro l hl i hi
    exact Nat.lt_of_lt_of_le (hinv.slev l hl i hi) hsext.slen
  · rw [halev]
    intro l hl i hi
    exact Nat.lt_of_lt_of_le (hinv.alev l hl i hi) hsext.alen
  · rw [hslev]; exact hinv.slevnd
  · rw [halev]; exact hinv.alevnd
  · exact mutexIdsOk_newANode hinv.mids
  · intro n hn e he
    rcases newANode_anodes hn with hn | rfl
    · exact Nat.lt_of_lt_of_le (hinv.apre n hn e he) hsext.slen
    · have := newANode_pre_range he
      rw [newANode_snodes_len]
      omega
  · intro n hn e he
    rcases newANode_anodes hn with hn | rfl
    · exact Nat.lt_of_lt_of_le (hinv.aeff n hn e he) hsext.slen
    · have := newANode_eff_range he
      rw [newANode_snodes_len]
      omega
  · intro n hn
    rcases newANode_anodes hn with hn | rfl
    · rw [hlits n.prenodes (hinv.apre n hn)]
      exact hinv.apreLits n hn
    · rw [show (aNodeAt (newANode st a).1 (newANode st a).2).action = a from
        by rw [newANode_node]]
      exact newANode_prenodes_lits
  · intro n hn
    rcases newANode_anodes hn with hn | rfl
    · rw [hlits n.effnodes (hinv.aeff n hn)]
      exact hinv.aeffLits n hn
    · rw [show (aNodeAt (newANode st a).1 (newANode st a).2).action = a from
        by rw [newANode_node]]
      exact newANode_effnodes_lits
  · intro n hn
    rcases newANode_anodes hn with hn | rfl
    · exact hinv.apers n hn
    · rw [newANode_node]
  · intro n hn
    rcases newANode_anodes hn with hn | rfl
    · exact hinv.aparents n hn
    · rw [newANode_node]
      exact Or.inl rfl
  · rw [halev]
    intro l hl id hid
    have hidlt : id < st.anodes.length := hinv.alev l hl id hid
    rw [aNodeAt_newANode_old hidlt]
    exact hinv.alevparents l hl id hid
  · intro n hn p hp
    rcases newANode_anodes hn with hn | rfl
    · have hplt : p < st.snodes.length := hinv.apre n hn p hp
      rw [sNodeAt_newANode_old hplt]
      exact hinv.prefresh n hn p hp
    · exact (newANode_fresh_snode (Or.inl hp)).2.2
  · intro n hn p hp l hl
    rw [hslev] at hl
    rcases newANode_anodes hn with hn | rfl
    · exact hinv.prelev n hn p hp l hl
    · have := newANode_pre_range hp
      intro hmem
      have := hinv.slev l hl p hmem
      omega
  · intro n hn p hp m hm
    rcases newANode_anodes hn with hn | rfl
    · have hplt : p < st.snodes.length := hinv.apre n hn p hp
      rcases newANode_anodes hm with hm | rfl
      · exact hinv.preeff n hn p hp m hm
      · intro hmem
        have := newANode_eff_range hmem
        omega
    · have hrange := newANode_pre_range hp
      rcases newANode_anodes hm with hm | rfl
      · intro hmem
        have := hinv.aeff m hm p hmem
        omega
      · intro hmem
        have := newANode_eff_range hmem
        omega

end PlanningModel

namespace PlanningModel

theorem bool_eq_of_iff {a b : Bool} (h : a = true ↔ b = true) : a = b := by
  cases a <;> cases b <;> simp_all

theorem subsetLits_iff {st : GraphState} {ids layer : List Nat} :
    subsetLits st ids layer = true ↔ ∀ l ∈ litsOf st ids, sMember st layer l = true := by
  simp [subsetLits, List.all_eq_true]

theorem slev_getD {st : GraphState} (hinv : Inv st) {lv : Nat} :
    ∀ i ∈ st.s_levels.getD lv [], i < st.snodes.length := by
  intro i hi
  by_cases hlen : lv < st.s_levels.length
  · refine hinv.slev _ ?_ i hi
    rw [List.getD_eq_getElem?_getD, List.getElem?_eq_getElem hlen] at hi ⊢
    exact List.getElem_mem hlen
  · rw [List.getD_eq_getElem?_getD, List.getElem?_eq_none (by omega)] at hi
    exact absurd hi (List.not_mem_nil i)

theorem alev_getD {st : GraphState} (hinv : Inv st) {lv : Nat} :
    ∀ i ∈ st.a_levels.getD lv [], i < st.anodes.length := by
  intro i hi
  by_cases hlen : lv < st.a_levels.length
  · refine hinv.alev _ ?_ i hi
    rw [List.getD_eq_getElem?_getD, List.getElem?_eq_getElem hlen] at hi ⊢
    exact List.getElem_mem hlen
  · rw [List.getD_eq_getElem?_getD, List.getElem?_eq_none (by omega)] at hi
    exact absurd hi (List.not_mem_nil i)

theorem is_mutex_a_setANode_same {st : GraphState} {i : Nat} {n : ANode}
    (hmux : n.mutex = (aNodeAt st i).mutex) (hact : n.action = (aNodeAt st i).action) :
    ∀ a b, is_mutex_a (setANode st i n) a b = is_mutex_a st a b := by
  intro a b
  have hl : ∀ k, aAct (setANode st i n) k = aAct st k := by
    apply aAct_setANode
    exact hact
  have hmx : (aNodeAt (setANode st i n) a).mutex = (aNodeAt st a).mutex := by
    by_cases hai : a = i
    · subst hai
      by_cases hlen : a < st.anodes.length
      · rw [aNodeAt_setANode_self hlen, hmux]
      · rw [setANode_oob (le_of_not_lt hlen)]
    · rw [aNodeAt_setANode_ne hai]
  unfold is_mutex_a
  rw [hmx, hl b, aMember_congr fun k _ => hl k]

theorem is_mutex_s_setSNode_same {st : GraphState} {i : Nat} {n : SNode}
    (hmux : n.mutex = (sNodeAt st i).mutex) (hsym : n.symbol = (sNodeAt st i).symbol)
    (hpos : n.is_pos = (sNodeAt st i).is_pos) :
    ∀ a b, is_mutex_s (setSNode st i n) a b = is_mutex_s st a b := by
  intro a b
  have hl : ∀ k, sLit (setSNode st i n) k = sLit st k := by
    apply sLit_setSNode <;> assumption
  have hmx : (sNodeAt (setSNode st i n) a).mutex = (sNodeAt st a).mutex := by
    by_cases hai : a = i
    · subst hai
      by_cases hlen : a < st.snodes.length
      · rw [sNodeAt_setSNode_self hlen, hmux]
      · rw [setSNode_oob (le_of_not_lt hlen)]
    · rw [sNodeAt_setSNode_ne hai]
  unfold is_mutex_s
  rw [hmx, hl b, sMember_congr fun k _ => hl k]

/-- The `parents = prenodes` assignment on admission: extension facts. -/
theorem sext_setParents {st : GraphState} {id : Nat} :
    SExt st (setANode st id { aNodeAt st id with parents := (aNodeAt st id).prenodes }) where
  slen := Nat.le_refl _
  alen := by simp [setANode]
  slit := fun k _ => rfl
  afix := fun k hk => by
    by_cases hki : k = id
    · subst hki
      rw [aNodeAt_setANode_self hk]
      exact ⟨rfl, rfl, rfl, rfl⟩
    · rw [aNodeAt_setANode_ne hki]
      exact ⟨rfl, rfl, rfl, rfl⟩
  slevp := ⟨[], (List.append_nil _).symm⟩
  alevp := ⟨[], (List.append_nil _).symm⟩
  ser := rfl
  smut := fun _ _ _ h => h
  amut := fun a b _ h => by
    have he := @is_mutex_a_setANode_same st id
      { aNodeAt st id with parents := (aNodeAt st id).prenodes } rfl rfl a b
    rw [he]
    exact h

end PlanningModel

namespace PlanningModel

theorem anodes_setANode_mem {st : GraphState} {i : Nat} {n m : ANode}
    (hm : m ∈ (setANode st i n).anodes) : m ∈ st.anodes ∨ m = n := by
  exact List.mem_or_eq_of_mem_set hm

/-- The `parents = prenodes` assignment on admission preserves the invariant,
provided the node is not yet in any action layer. -/
theorem inv_setParents {st : GraphState} {id : Nat} (hinv : Inv st)
    (hid : id < st.anodes.length) (hnotlev : ∀ l ∈ st.a_levels, id ∉ l) :
    Inv (setANode st id { aNodeAt st id with parents := (aNodeAt st id).prenodes }) := by
  set n2 : ANode := { aNodeAt st id with parents := (aNodeAt st id).prenodes } with hn2
  have hmem : aNodeAt st id ∈ st.anodes := aNodeAt_mem hid
  have halen : (setANode st id n2).anodes.length = st.anodes.length := by simp [setANode]
  have hsn : ∀ k, sNodeAt (setANode st id n2) k = sNodeAt st k := fun _ => rfl
  have hlits : ∀ ids : List Nat, litsOf (setANode st id n2) ids = litsOf st ids := by
    intro ids
    unfold litsOf
    exact List.map_congr_left fun i _ => rfl
  refine ⟨?_, ?_, ?_, ?_, ?_, ?_, ?_, ?_, ?_, ?_, ?_, ?_, ?_, ?_, ?_⟩
  · exact fun l hl i hi => hinv.slev l hl i hi
  · intro l hl i hi
    rw [halen]
    exact hinv.alev l hl i hi
  · exact hinv.slevnd
  · exact hinv.alevnd
  · have hv2 := hinv.mids
    simp only [mutexIdsOk, Bool.and_eq_true, List.all_eq_true, decide_eq_true_eq]
      at hv2 ⊢
    refine ⟨fun n hn k hk => hv2.1 n hn k hk, ?_⟩
    intro n hn k hk
    show k < (st.anodes.set id n2).length
    simp only [List.length_set]
    rcases anodes_setANode_mem hn with hn | rfl
    · exact hv2.2 n hn k hk
    · exact hv2.2 (aNodeAt st id) hmem k hk
  · intro n hn e he
    rcases anodes_setANode_mem hn with hn | rfl
    · exact hinv.apre n hn e he
    · exact hinv.apre (aNodeAt st id) hmem e he
  · intro n hn e he
    rcases anodes_setANode_mem hn with hn | rfl
    · exact hinv.aeff n hn e he
    · exact hinv.aeff (aNodeAt st id) hmem e he
  · intro n hn
    rw [hlits]
    rcases anodes_setANode_mem hn with hn | rfl
    · exact hinv.apreLits n hn
    · exact hinv.apreLits (aNodeAt st id) hmem
  · intro n hn
    rw [hlits]
    rcases anodes_setANode_mem hn with hn | rfl
    · exact hinv.aeffLits n hn
    · exact hinv.aeffLits (aNodeAt st id) hmem
  · intro n hn
    rcases anodes_setANode_mem hn with hn | rfl
    · exact hinv.apers n hn
    · exact hinv.apers (aNodeAt st id) hmem
  · intro n hn
    rcases anodes_setANode_mem hn with hn | rfl
    · exact hinv.aparents n hn
    · exact Or.inr rfl
  · intro l hl id2 hid2
    have hne : id2 ≠ id := fun hc => hnotlev l hl (hc ▸ hid2)
    rw [aNodeAt_setANode_ne hne]
    exact hinv.alevparents l hl id2 hid2
  · intro n hn p hp
    rw [hsn]
    rcases anodes_setANode_mem hn with hn | rfl
    · exact hinv.prefresh n hn p hp
    · exact hinv.prefresh (aNodeAt st id) hmem p hp
  · intro n hn p hp l hl
    rcases anodes_setANode_mem hn with hn | rfl
    · exact hinv.prelev n hn p hp l hl
    · exact hinv.prelev (aNodeAt st id) hmem p hp l hl
  · intro n hn p hp m hm
    rcases anodes_setANode_mem hn with hn | rfl
    · rcases anodes_setANode_mem hm with hm | rfl
      · exact hinv.preeff n hn p hp m hm
      · exact hinv.preeff n hn p hp (aNodeAt st id) hmem
    · rcases anodes_setANode_mem hm with hm | rfl
      · exact hinv.preeff (aNodeAt st id) hmem p hp m hm
      · exact hinv.preeff (aNodeAt st id) hmem p hp (aNodeAt st id) hmem

end PlanningModel

namespace PlanningModel

theorem setANode_action {st : GraphState} {id : Nat} {n : ANode}
    (hid : id < st.anodes.length) :
    aAct (setANode st id n) id = n.action := by
  unfold aAct
  rw [aNodeAt_setANode_self hid]

/-- One loop body of `add_action_level`, characterized: the candidate for
action `a` is admitted, with `parents` set to its prenodes and a fresh id
appended to the set, iff `a` is admissible on the layer's literal set. -/
theorem add_action_step_char {st : GraphState} {lv : Nat} (hbase : Inv st)
    {stc : GraphState} {ids : List Nat} {a : PAction}
    (hinvc : Inv stc) (hsext : SExt st stc)
    (hslev : stc.s_levels = st.s_levels) (halev : stc.a_levels = st.a_levels)
    (hnotin : ∀ id ∈ ids, id < stc.anodes.length ∧ (aAct stc id).name ≠ a.name) :
    Inv (add_action_step lv (stc, ids) a).1 ∧
      SExt stc (add_action_step lv (stc, ids) a).1 ∧
      (add_action_step lv (stc, ids) a).1.s_levels = st.s_levels ∧
      (add_action_step lv (stc, ids) a).1.a_levels = st.a_levels ∧
      stc.anodes.length ≤ (add_action_step lv (stc, ids) a).1.anodes.length ∧
      (∀ id, id < stc.anodes.length →
        aNodeAt (add_action_step lv (stc, ids) a).1 id = aNodeAt stc id) ∧
      (if admissibleB a (litsOf st (st.s_levels.getD lv [])) = true
        then (add_action_step lv (stc, ids) a).2 = ids ++ [stc.anodes.length] ∧
          aAct (add_action_step lv (stc, ids) a).1 stc.anodes.length = a ∧
          (aNodeAt (add_action_step lv (stc, ids) a).1 stc.anodes.length).parents =
            (aNodeAt (add_action_step lv (stc, ids) a).1 stc.anodes.length).prenodes ∧
          stc.anodes.length < (add_action_step lv (stc, ids) a).1.anodes.length
        else (add_action_step lv (stc, ids) a).2 = ids) := by
  have hmids := hinvc.mids
  have hsext1 : SExt stc (newANode stc a).1 := sext_newANode hmids
  have hinv1 : Inv (newANode stc a).1 := inv_newANode hinvc
  have hid : (newANode stc a).2 = stc.anodes.length := newANode_id
  have hlayer : (newANode stc a).1.s_levels = st.s_levels := by
    rw [newANode_s_levels, hslev]
  have hlaylits : litsOf (newANode stc a).1 (st.s_levels.getD lv []) =
      litsOf st (st.s_levels.getD lv []) := by
    refine litsOf_SExt (sext_trans hsext hsext1) ?_
    exact slev_getD hbase
  have htest : subsetLits (newANode stc a).1
      (aNodeAt (newANode stc a).1 (newANode stc a).2).prenodes
      ((newANode stc a).1.s_levels.getD lv []) =
      admissibleB a (litsOf st (st.s_levels.getD lv [])) := by
    rw [hlayer]
    apply bool_eq_of_iff
    rw [subsetLits_iff, newANode_prenodes_lits]
    unfold admissibleB
    rw [litSetSub_iff]
    constructor
    · intro h l hl
      have h2 := h l hl
      rw [sMember_iff, hlaylits] at h2
      exact h2
    · intro h l hl
      rw [sMember_iff, hlaylits]
      exact h l hl
  have hstep : add_action_step lv (stc, ids) a =
      (if subsetLits (newANode stc a).1
          (aNodeAt (newANode stc a).1 (newANode stc a).2).prenodes
          ((newANode stc a).1.s_levels.getD lv []) = true
        then (setANode (newANode stc a).1 (newANode stc a).2
            { aNodeAt (newANode stc a).1 (newANode stc a).2 with
              parents := (aNodeAt (newANode stc a).1 (newANode stc a).2).prenodes },
          aInsert (setANode (newANode stc a).1 (newANode stc a).2
            { aNodeAt (newANode stc a).1 (newANode stc a).2 with
              parents := (aNodeAt (newANode stc a).1 (newANode stc a).2).prenodes })
            ids (newANode stc a).2)
        else ((newANode stc a).1, ids)) := by
    unfold add_action_step
    by_cases hc : subsetLits (newANode stc a).1
        (aNodeAt (newANode stc a).1 (newANode stc a).2).prenodes
        ((newANode stc a).1.s_levels.getD lv []) = true
    · simp only [hc, if_true]
    · simp only [Bool.not_eq_true] at hc
      simp only [hc, Bool.false_eq_true, if_false]
  rw [hstep, htest]
  by_cases hadm : admissibleB a (litsOf st (st.s_levels.getD lv [])) = true
  · simp only [hadm, if_true]
    have hidlt : (newANode stc a).2 < (newANode stc a).1.anodes.length := by
      rw [hid, newANode_anodes_len]
      omega
    have hnotlev : ∀ l ∈ (newANode stc a).1.a_levels, (newANode stc a).2 ∉ l := by
      rw [newANode_a_levels, halev]
      intro l hl hmem
      have hlt := hinvc.alev l (halev ▸ hl) _ hmem
      rw [hid] at hlt
      omega
    have hinv2 : Inv (setANode (newANode stc a).1 (newANode stc a).2
        { aNodeAt (newANode stc a).1 (newANode stc a).2 with
          parents := (aNodeAt (newANode stc a).1 (newANode stc a).2).prenodes }) :=
      inv_setParents hinv1 hidlt hnotlev
    have hsext2 := @sext_setParents (newANode stc a).1 (newANode stc a).2
    have hold : ∀ id2, id2 < stc.anodes.length →
        aNodeAt (setANode (newANode stc a).1 (newANode stc a).2
          { aNodeAt (newANode stc a).1 (newANode stc a).2 with
            parents := (aNodeAt (newANode stc a).1 (newANode stc a).2).prenodes }) id2 =
          aNodeAt stc id2 := by
      intro id2 hlt
      have hne : id2 ≠ (newANode stc a).2 := by
        rw [hid]
        omega
      rw [aNodeAt_setANode_ne hne]
      exact aNodeAt_newANode_old hlt
    have hact : aAct (setANode (newANode stc a).1 (newANode stc a).2
        { aNodeAt (newANode stc a).1 (newANode stc a).2 with
          parents := (aNodeAt (newANode stc a).1 (newANode stc a).2).prenodes })
        (newANode stc a).2 = a := by
      rw [setANode_action hidlt]
      show (aNodeAt (newANode stc a).1 (newANode stc a).2).action = a
      rw [newANode_node]
    have hinsert : aInsert (setANode (newANode stc a).1 (newANode stc a).2
        { aNodeAt (newANode stc a).1 (newANode stc a).2 with
          parents := (aNodeAt (newANode stc a).1 (newANode stc a).2).prenodes })
        ids (newANode stc a).2 = ids ++ [(newANode stc a).2] := by
      unfold aInsert
      have hmem : aMember (setANode (newANode stc a).1 (newANode stc a).2
          { aNodeAt (newANode stc a).1 (newANode stc a).2 with
            parents := (aNodeAt (newANode stc a).1 (newANode stc a).2).prenodes })
          ids (aAct (setANode (newANode stc a).1 (newANode stc a).2
            { aNodeAt (newANode stc a).1 (newANode stc a).2 with
              parents := (aNodeAt (newANode stc a).1 (newANode stc a).2).prenodes })
            (newANode stc a).2).name = false := by
        rw [hact]
        rw [show ∀ ids2 st4, aMember st4 ids2 a.name =
          ids2.any fun j => decide ((aAct st4 j).name = a.name) from fun _ _ => rfl]
        rw [List.any_eq_false]
        intro id2 hid2
        have hprop := hnotin id2 hid2
        have hacteq : aAct (setANode (newANode stc a).1 (newANode stc a).2
            { aNodeAt (newANode stc a).1 (newANode stc a).2 with
              parents := (aNodeAt (newANode stc a).1 (newANode stc a).2).prenodes })
            id2 = aAct stc id2 := by
          unfold aAct
          rw [hold id2 hprop.1]
        rw [hacteq]
        simp only [decide_eq_true_eq]
        exact hprop.2
      rw [hmem]
      simp
    rw [hinsert]
    refine ⟨hinv2, sext_trans hsext1 hsext2, ?_, ?_, ?_, hold, ?_, hact, ?_, ?_⟩
    · show (newANode stc a).1.s_levels = st.s_levels
      exact hlayer
    · show (newANode stc a).1.a_levels = st.a_levels
      rw [newANode_a_levels, halev]
    · have hlen2 : (setANode (newANode stc a).1 (newANode stc a).2
          { aNodeAt (newANode stc a).1 (newANode stc a).2 with
            parents := (aNodeAt (newANode stc a).1
              (newANode stc a).2).prenodes }).anodes.length =
          (newANode stc a).1.anodes.length := by
        simp [setANode]
      rw [hlen2, newANode_anodes_len]
      omega
    · rw [hid]
    · rw [show (newANode stc a).2 = stc.anodes.length from hid] at hidlt ⊢
      rw [aNodeAt_setANode_self hidlt]
    · have hlen2 : (setANode (newANode stc a).1 (newANode stc a).2
          { aNodeAt (newANode stc a).1 (newANode stc a).2 with
            parents := (aNodeAt (newANode stc a).1
              (newANode stc a).2).prenodes }).anodes.length =
          (newANode stc a).1.anodes.length := by
        simp [setANode]
      rw [hlen2, newANode_anodes_len]
      omega
  · simp only [Bool.not_eq_true] at hadm
    simp only [hadm, Bool.false_eq_true, if_false]
    refine ⟨hinv1, hsext1, hlayer, ?_, ?_, ?_, trivial⟩
    · rw [newANode_a_levels, halev]
    · rw [newANode_anodes_len]
      omega
    · intro id2 hlt
      exact aNodeAt_newANode_old hlt

end PlanningModel

namespace PlanningModel

theorem add_action_fold_spec {st : GraphState} {lv : Nat} (hbase : Inv st) :
    ∀ (pas : List PAction) (stc : GraphState) (ids : List Nat),
      Inv stc → SExt st stc →
      stc.s_levels = st.s_levels → stc.a_levels = st.a_levels →
      (pas.map PAction.name).Nodup →
      (∀ id ∈ ids, id < stc.anodes.length ∧
        (aNodeAt stc id).parents = (aNodeAt stc id).prenodes ∧
        (∀ l ∈ stc.a_levels, id ∉ l) ∧
        (aAct stc id).name ∉ pas.map PAction.name) →
      ids.Nodup →
      Inv (pas.foldl (add_action_step lv) (stc, ids)).1 ∧
      SExt stc (pas.foldl (add_action_step lv) (stc, ids)).1 ∧
      (pas.foldl (add_action_step lv) (stc, ids)).1.s_levels = st.s_levels ∧
      (pas.foldl (add_action_step lv) (stc, ids)).1.a_levels = st.a_levels ∧
      (pas.foldl (add_action_step lv) (stc, ids)).2.Nodup ∧
      (∀ id ∈ (pas.foldl (add_action_step lv) (stc, ids)).2,
        id < (pas.foldl (add_action_step lv) (stc, ids)).1.anodes.length ∧
        (aNodeAt (pas.foldl (add_action_step lv) (stc, ids)).1 id).parents =
          (aNodeAt (pas.foldl (add_action_step lv) (stc, ids)).1 id).prenodes ∧
        ∀ l ∈ (pas.foldl (add_action_step lv) (stc, ids)).1.a_levels, id ∉ l) ∧
      ((pas.foldl (add_action_step lv) (stc, ids)).2.map
        fun id => aAct (pas.foldl (add_action_step lv) (stc, ids)).1 id) =
        (ids.map fun id => aAct stc id) ++
          pas.filter fun a => admissibleB a (litsOf st (st.s_levels.getD lv [])) := by
  intro pas
  induction pas with
  | nil =>
    intro stc ids hinvc hsext hslev halev _ hprops hnd
    refine ⟨hinvc, sext_refl, hslev, halev, hnd, ?_, by simp⟩
    intro id hid
    obtain ⟨h1, h2, h3, _⟩ := hprops id hid
    exact ⟨h1, h2, h3⟩
  | cons a rest ih =>
    intro stc ids hinvc hsext hslev halev hndn hprops hnd
    have hnotin : ∀ id ∈ ids, id < stc.anodes.length ∧ (aAct stc id).name ≠ a.name := by
      intro id hid
      obtain ⟨h1, _, _, h4⟩ := hprops id hid
      refine ⟨h1, fun hc => h4 ?_⟩
      rw [List.map_cons, hc]
      exact List.mem_cons_self _ _
    have hchar := @add_action_step_char st lv hbase stc ids a hinvc hsext hslev halev hnotin
    obtain ⟨hinv1, hsext1, hslev1, halev1, hlen1, hold, hcond⟩ := hchar
    have hactold : ∀ id, id < stc.anodes.length →
        aAct (add_action_step lv (stc, ids) a).1 id = aAct stc id := by
      intro id hlt
      unfold aAct
      rw [hold id hlt]
    rw [List.map_cons, List.nodup_cons] at hndn
    have hfold : (a :: rest).foldl (add_action_step lv) (stc, ids) =
        rest.foldl (add_action_step lv) (add_action_step lv (stc, ids) a) := rfl
    rw [hfold]
    by_cases hadm : admissibleB a (litsOf st (st.s_levels.getD lv [])) = true
    · rw [if_pos hadm] at hcond
      obtain ⟨hids2, hact2, hpar2, hlt2⟩ := hcond
      have hres := ih (add_action_step lv (stc, ids) a).1
        (add_action_step lv (stc, ids) a).2 hinv1 (sext_trans hsext hsext1)
        hslev1 halev1 hndn.2 ?_ ?_
      · obtain ⟨r1, r2, r3, r4, r5, r6, r7⟩ := by
          rw [show rest.foldl (add_action_step lv) ((add_action_step lv (stc, ids) a).1,
            (add_action_step lv (stc, ids) a).2) =
            rest.foldl (add_action_step lv) (add_action_step lv (stc, ids) a)
            from by rfl] at hres
          exact hres
        refine ⟨r1, sext_trans hsext1 r2, r3, r4, r5, r6, ?_⟩
        rw [r7, hids2]
        rw [List.map_append, List.map_singleton, hact2]
        have hmapold : ids.map (fun id => aAct (add_action_step lv (stc, ids) a).1 id) =
            ids.map fun id => aAct stc id :=
          List.map_congr_left fun id hid => hactold id (hprops id hid).1
        rw [hmapold]
        rw [show (a :: rest).filter
            (fun x => admissibleB x (litsOf st (st.s_levels.getD lv []))) =
            a :: rest.filter (fun x => admissibleB x (litsOf st (st.s_levels.getD lv [])))
          from List.filter_cons_of_pos hadm]
        simp [List.append_assoc]
      · intro id hid
        rw [hids2] at hid
        simp only [List.mem_append, List.mem_singleton] at hid
        rcases hid with hid | rfl
        · obtain ⟨h1, h2, h3, h4⟩ := hprops id hid
          refine ⟨Nat.lt_of_lt_of_le h1 (Nat.le_of_lt hlt2) |>.trans_le (Nat.le_refl _),
            ?_, ?_, ?_⟩
          · rw [hold id h1]
            exact h2
          · rw [halev1, ← halev]
            exact h3
          · rw [hactold id h1]
            intro hc
            exact h4 (by rw [List.map_cons]; exact List.mem_cons_of_mem _ hc)
        · refine ⟨hlt2, hpar2, ?_, ?_⟩
          · rw [halev1, ← halev]
            intro l hl hmem
            have := hinvc.alev l hl _ hmem
            omega
          · rw [hact2]
            exact hndn.1
      · rw [hids2]
        refine List.nodup_append.2 ⟨hnd, List.nodup_singleton _, ?_⟩
        intro id hid
        have h1 := (hprops id hid).1
        simp only [List.mem_singleton]
        omega
    · simp only [Bool.not_eq_true] at hadm
      rw [if_neg (by rw [hadm]; exact Bool.false_ne_true)] at hcond
      have hres := ih (add_action_step lv (stc, ids) a).1
        (add_action_step lv (stc, ids) a).2 hinv1 (sext_trans hsext hsext1)
        hslev1 halev1 hndn.2 ?_ ?_
      · obtain ⟨r1, r2, r3, r4, r5, r6, r7⟩ := hres
        refine ⟨r1, sext_trans hsext1 r2, r3, r4, r5, r6, ?_⟩
        rw [r7, hcond]
        have hmapold : ids.map (fun id => aAct (add_action_step lv (stc, ids) a).1 id) =
            ids.map fun id => aAct stc id :=
          List.map_congr_left fun id hid => hactold id (hprops id hid).1
        rw [hmapold]
        rw [show (a :: rest).filter
            (fun x => admissibleB x (litsOf st (st.s_levels.getD lv []))) =
            rest.filter (fun x => admissibleB x (litsOf st (st.s_levels.getD lv [])))
          from List.filter_cons_of_neg (by rw [hadm]; exact Bool.false_ne_true)]
      · intro id hid
        rw [hcond] at hid
        obtain ⟨h1, h2, h3, h4⟩ := hprops id hid
        refine ⟨Nat.lt_of_lt_of_le h1 hlen1, ?_, ?_, ?_⟩
        · rw [hold id h1]
          exact h2
        · rw [halev1, ← halev]
          exact h3
        · rw [hactold id h1]
          intro hc
          exact h4 (by rw [List.map_cons]; exact List.mem_cons_of_mem _ hc)
      · rw [hcond]
        exact hnd

end PlanningModel

namespace PlanningModel

theorem inv_append_alevel {st : GraphState} {newl : List Nat} (hinv : Inv st)
    (hval : ∀ id ∈ newl, id < st.anodes.length) (hnd : newl.Nodup)
    (hpar : ∀ id ∈ newl, (aNodeAt st id).parents = (aNodeAt st id).prenodes) :
    Inv { st with a_levels := st.a_levels ++ [newl] } := by
  refine ⟨hinv.slev, ?_, hinv.slevnd, ?_, hinv.mids, hinv.apre, hinv.aeff,
    hinv.apreLits, hinv.aeffLits, hinv.apers, hinv.aparents, ?_, hinv.prefresh,
    hinv.prelev, hinv.preeff⟩
  · intro l hl
    simp only [List.mem_append, List.mem_singleton] at hl
    rcases hl with hl | rfl
    · exact hinv.alev l hl
    · exact hval
  · intro l hl
    simp only [List.mem_append, List.mem_singleton] at hl
    rcases hl with hl | rfl
    · exact hinv.alevnd l hl
    · exact hnd
  · intro l hl
    simp only [List.mem_append, List.mem_singleton] at hl
    rcases hl with hl | rfl
    · exact hinv.alevparents l hl
    · exact hpar

theorem sext_append_alevel {st : GraphState} {newl : List Nat} :
    SExt st { st with a_levels := st.a_levels ++ [newl] } where
  slen := Nat.le_refl _
  alen := Nat.le_refl _
  slit := fun _ _ => rfl
  afix := fun _ _ => ⟨rfl, rfl, rfl, rfl⟩
  slevp := ⟨[], (List.append_nil _).symm⟩
  alevp := ⟨[newl], rfl⟩
  ser := rfl
  smut := fun _ _ _ h => h
  amut := fun _ _ _ h => h

theorem sext_append_slevel {st : GraphState} {newl : List Nat} :
    SExt st { st with s_levels := st.s_levels ++ [newl] } where
  slen := Nat.le_refl _
  alen := Nat.le_refl _
  slit := fun _ _ => rfl
  afix := fun _ _ => ⟨rfl, rfl, rfl, rfl⟩
  slevp := ⟨[newl], rfl⟩
  alevp := ⟨[], (List.append_nil _).symm⟩
  ser := rfl
  smut := fun _ _ _ h => h
  amut := fun _ _ _ h => h

/-- `add_action_level`, fully characterized: the state is extended, one action
layer is appended, and the new layer's actions are exactly the catalog actions
admissible on fact layer `lv` (when catalog names are distinct). -/
theorem add_action_level_spec {st : GraphState} {pas : List PAction} {lv : Nat}
    (hinv : Inv st) (hndn : (pas.map PAction.name).Nodup) :
    Inv (add_action_level st pas lv) ∧
      SExt st (add_action_level st pas lv) ∧
      (add_action_level st pas lv).s_levels = st.s_levels ∧
      (add_action_level st pas lv).a_levels = st.a_levels ++
        [(pas.foldl (add_action_step lv) (st, [])).2] ∧
      ((pas.foldl (add_action_step lv) (st, [])).2.map
        fun id => aAct (add_action_level st pas lv) id) =
        pas.filter (fun a => admissibleB a (litsOf st (st.s_levels.getD lv []))) ∧
      (∀ id ∈ (pas.foldl (add_action_step lv) (st, [])).2,
        id < (add_action_level st pas lv).anodes.length) := by
  have hfold := @add_action_fold_spec st lv hinv pas st [] hinv sext_refl rfl rfl hndn
    (fun id hid => absurd hid (List.not_mem_nil id)) List.nodup_nil
  obtain ⟨r1, r2, r3, r4, r5, r6, r7⟩ := hfold
  have hshape : add_action_level st pas lv =
      { (pas.foldl (add_action_step lv) (st, [])).1 with
        a_levels := (pas.foldl (add_action_step lv) (st, [])).1.a_levels ++
          [(pas.foldl (add_action_step lv) (st, [])).2] } := rfl
  have hactsame : ∀ k, aAct (add_action_level st pas lv) k =
      aAct (pas.foldl (add_action_step lv) (st, [])).1 k := fun _ => rfl
  refine ⟨?_, ?_, ?_, ?_, ?_, ?_⟩
  · rw [hshape]
    exact inv_append_alevel r1 (fun id hid => (r6 id hid).1) r5
      (fun id hid => (r6 id hid).2.1)
  · rw [hshape]
    exact sext_trans r2 sext_append_alevel
  · rw [hshape]
    show (pas.foldl (add_action_step lv) (st, [])).1.s_levels = st.s_levels
    exact r3
  · rw [hshape]
    show (pas.foldl (add_action_step lv) (st, [])).1.a_levels ++ _ = _
    rw [r4]
  · rw [show ((pas.foldl (add_action_step lv) (st, [])).2.map
      fun id => aAct (add_action_level st pas lv) id) =
      (pas.foldl (add_action_step lv) (st, [])).2.map
        (fun id => aAct (pas.foldl (add_action_step lv) (st, [])).1 id)
      from List.map_congr_left fun id _ => hactsame id]
    rw [r7]
    simp
  · intro id hid
    exact (r6 id hid).1

end PlanningModel

namespace PlanningModel

theorem aNodeAt_addAMutex_fields {st : GraphState} {i j k : Nat} :
    (aNodeAt (addAMutex st i j) k).action = (aNodeAt st k).action ∧
      (aNodeAt (addAMutex st i j) k).prenodes = (aNodeAt st k).prenodes ∧
      (aNodeAt (addAMutex st i j) k).effnodes = (aNodeAt st k).effnodes ∧
      (aNodeAt (addAMutex st i j) k).is_persistent = (aNodeAt st k).is_persistent ∧
      (aNodeAt (addAMutex st i j) k).parents = (aNodeAt st k).parents ∧
      (aNodeAt (addAMutex st i j) k).children = (aNodeAt st k).children := by
  unfold addAMutex
  by_cases hm : aMember st (aNodeAt st i).mutex (aAct st j).name = true
  · simp [hm]
  · simp only [Bool.not_eq_true] at hm
    simp only [hm, Bool.false_eq_true, if_false]
    by_cases hk : k = i
    · subst hk
      by_cases hlen : k < st.anodes.length
      · rw [aNodeAt_setANode_self hlen]
        exact ⟨rfl, rfl, rfl, rfl, rfl, rfl⟩
      · rw [setANode_oob (le_of_not_lt hlen)]
        exact ⟨rfl, rfl, rfl, rfl, rfl, rfl⟩
    · rw [aNodeAt_setANode_ne hk]
      exact ⟨rfl, rfl, rfl, rfl, rfl, rfl⟩

theorem sNodeAt_addSMutex_fields {st : GraphState} {i j k : Nat} :
    (sNodeAt (addSMutex st i j) k).symbol = (sNodeAt st k).symbol ∧
      (sNodeAt (addSMutex st i j) k).is_pos = (sNodeAt st k).is_pos ∧
      (sNodeAt (addSMutex st i j) k).parents = (sNodeAt st k).parents ∧
      (sNodeAt (addSMutex st i j) k).children = (sNodeAt st k).children := by
  unfold addSMutex
  by_cases hm : sMember st (sNodeAt st i).mutex (sLit st j) = true
  · simp [hm]
  · simp only [Bool.not_eq_true] at hm
    simp only [hm, Bool.false_eq_true, if_false]
    by_cases hk : k = i
    · subst hk
      by_cases hlen : k < st.snodes.length
      · rw [sNodeAt_setSNode_self hlen]
        exact ⟨rfl, rfl, rfl, rfl⟩
      · rw [setSNode_oob (le_of_not_lt hlen)]
        exact ⟨rfl, rfl, rfl, rfl⟩
    · rw [sNodeAt_setSNode_ne hk]
      exact ⟨rfl, rfl, rfl, rfl⟩

/-- Mutex of a fact node outside the touched pair is unchanged. -/
theorem sNodeAt_addSMutex_other {st : GraphState} {i j k : Nat} (hk : k ≠ i) :
    sNodeAt (addSMutex st i j) k = sNodeAt st k := by
  unfold addSMutex
  by_cases hm : sMember st (sNodeAt st i).mutex (sLit st j) = true
  · simp [hm]
  · simp only [Bool.not_eq_true] at hm
    simp only [hm, Bool.false_eq_true, if_false]
    exact sNodeAt_setSNode_ne hk

theorem snodes_length_addSMutex2 {st : GraphState} {i j : Nat} :
    (addSMutex st i j).snodes.length = st.snodes.length := snodes_length_addSMutex

theorem sext_addAMutex {st : GraphState} {i j : Nat}
    (hv : mutexIdsOk st = true) (hj : j < st.anodes.length) :
    SExt st (addAMutex st i j) where
  slen := by
    have : (addAMutex st i j).snodes = st.snodes := by
      unfold addAMutex
      by_cases hm : aMember st (aNodeAt st i).mutex (aAct st j).name = true
      · simp [hm]
      · simp only [Bool.not_eq_true] at hm
        simp [hm, setANode]
    rw [this]
  alen := by rw [anodes_length_addAMutex]
  slit := fun k _ => sLit_addAMutex k
  afix := fun k _ => by
    obtain ⟨h1, h2, h3, h4, _, _⟩ := @aNodeAt_addAMutex_fields st i j k
    exact ⟨h1, h2, h3, h4⟩
  slevp := ⟨[], by
    have : (addAMutex st i j).s_levels = st.s_levels := by
      unfold addAMutex
      by_cases hm : aMember st (aNodeAt st i).mutex (aAct st j).name = true
      · simp [hm]
      · simp only [Bool.not_eq_true] at hm
        simp [hm, setANode]
    rw [this, List.append_nil]⟩
  alevp := ⟨[], by
    have : (addAMutex st i j).a_levels = st.a_levels := by
      unfold addAMutex
      by_cases hm : aMember st (aNodeAt st i).mutex (aAct st j).name = true
      · simp [hm]
      · simp only [Bool.not_eq_true] at hm
        simp [hm, setANode]
    rw [this, List.append_nil]⟩
  ser := by
    unfold addAMutex
    by_cases hm : aMember st (aNodeAt st i).mutex (aAct st j).name = true
    · simp [hm]
    · simp only [Bool.not_eq_true] at hm
      simp [hm, setANode]
  smut := fun a b _ h => by
    have hs : ∀ k, sNodeAt (addAMutex st i j) k = sNodeAt st k := sNodeAt_addAMutex
    have hsl : ∀ k, sLit (addAMutex st i j) k = sLit st k := sLit_addAMutex
    unfold is_mutex_s
    rw [hs a, hsl b, sMember_congr fun k _ => hsl k]
    exact h
  amut := fun a b _ h => is_mutex_a_addAMutex_mono h

theorem sext_addSMutex {st : GraphState} {i j : Nat}
    (hv : mutexIdsOk st = true) (hj : j < st.snodes.length) :
    SExt st (addSMutex st i j) where
  slen := by rw [snodes_length_addSMutex]
  alen := by
    have : (addSMutex st i j).anodes = st.anodes := by
      unfold addSMutex
      by_cases hm : sMember st (sNodeAt st i).mutex (sLit st j) = true
      · simp [hm]
      · simp only [Bool.not_eq_true] at hm
        simp [hm, setSNode]
    rw [this]
  slit := fun k _ => sLit_addSMutex k
  afix := fun k _ => by
    have ha : ∀ m, aNodeAt (addSMutex st i j) m = aNodeAt st m := aNodeAt_addSMutex
    rw [ha k]
    exact ⟨rfl, rfl, rfl, rfl⟩
  slevp := ⟨[], by
    have : (addSMutex st i j).s_levels = st.s_levels := by
      unfold addSMutex
      by_cases hm : sMember st (sNodeAt st i).mutex (sLit st j) = true
      · simp [hm]
      · simp only [Bool.not_eq_true] at hm
        simp [hm, setSNode]
    rw [this, List.append_nil]⟩
  alevp := ⟨[], by
    have : (addSMutex st i j).a_levels = st.a_levels := by
      unfold addSMutex
      by_cases hm : sMember st (sNodeAt st i).mutex (sLit st j) = true
      · simp [hm]
      · simp only [Bool.not_eq_true] at hm
        simp [hm, setSNode]
    rw [this, List.append_nil]⟩
  ser := by
    unfold addSMutex
    by_cases hm : sMember st (sNodeAt st i).mutex (sLit st j) = true
    · simp [hm]
    · simp only [Bool.not_eq_true] at hm
      simp [hm, setSNode]
  smut := fun a b _ h => is_mutex_s_addSMutex_mono h
  amut := fun a b _ h => by
    have ha : ∀ m, aNodeAt (addSMutex st i j) m = aNodeAt st m := aNodeAt_addSMutex
    have hact : ∀ m, aAct (addSMutex st i j) m = aAct st m := aAct_addSMutex
    unfold is_mutex_a
    rw [ha a, hact b, aMember_congr fun k _ => hact k]
    exact h

end PlanningModel

namespace PlanningModel

theorem addAMutex_snodes {st : GraphState} {i j : Nat} :
    (addAMutex st i j).snodes = st.snodes := by
  unfold addAMutex
  by_cases hm : aMember st (aNodeAt st i).mutex (aAct st j).name = true
  · simp [hm]
  · simp only [Bool.not_eq_true] at hm
    simp [hm, setANode]

theorem addAMutex_s_levels {st : GraphState} {i j : Nat} :
    (addAMutex st i j).s_levels = st.s_levels := by
  unfold addAMutex
  by_cases hm : aMember st (aNodeAt st i).mutex (aAct st j).name = true
  · simp [hm]
  · simp only [Bool.not_eq_true] at hm
    simp [hm, setANode]

theorem addAMutex_a_levels {st : GraphState} {i j : Nat} :
    (addAMutex st i j).a_levels = st.a_levels := by
  unfold addAMutex
  by_cases hm : aMember st (aNodeAt st i).mutex (aAct st j).name = true
  · simp [hm]
  · simp only [Bool.not_eq_true] at hm
    simp [hm, setANode]

theorem addAMutex_serial {st : GraphState} {i j : Nat} :
    (addAMutex st i j).serial = st.serial := by
  unfold addAMutex
  by_cases hm : aMember st (aNodeAt st i).mutex (aAct st j).name = true
  · simp [hm]
  · simp only [Bool.not_eq_true] at hm
    simp [hm, setANode]

theorem addSMutex_anodes {st : GraphState} {i j : Nat} :
    (addSMutex st i j).anodes = st.anodes := by
  unfold addSMutex
  by_cases hm : sMember st (sNodeAt st i).mutex (sLit st j) = true
  · simp [hm]
  · simp only [Bool.not_eq_true] at hm
    simp [hm, setSNode]

theorem addSMutex_s_levels {st : GraphState} {i j : Nat} :
    (addSMutex st i j).s_levels = st.s_levels := by
  unfold addSMutex
  by_cases hm : sMember st (sNodeAt st i).mutex (sLit st j) = true
  · simp [hm]
  · simp only [Bool.not_eq_true] at hm
    simp [hm, setSNode]

theorem addSMutex_a_levels {st : GraphState} {i j : Nat} :
    (addSMutex st i j).a_levels = st.a_levels := by
  unfold addSMutex
  by_cases hm : sMember st (sNodeAt st i).mutex (sLit st j) = true
  · simp [hm]
  · simp only [Bool.not_eq_true] at hm
    simp [hm, setSNode]

theorem addSMutex_serial {st : GraphState} {i j : Nat} :
    (addSMutex st i j).serial = st.serial := by
  unfold addSMutex
  by_cases hm : sMember st (sNodeAt st i).mutex (sLit st j) = true
  · simp [hm]
  · simp only [Bool.not_eq_true] at hm
    simp [hm, setSNode]

theorem anodes_addAMutex_mem {st : GraphState} {i j : Nat} {n : ANode}
    (hn : n ∈ (addAMutex st i j).anodes) :
    n ∈ st.anodes ∨ (i < st.anodes.length ∧
      n = { aNodeAt st i with mutex := (aNodeAt st i).mutex ++ [j] }) := by
  revert hn
  unfold addAMutex
  by_cases hm : aMember st (aNodeAt st i).mutex (aAct st j).name = true
  · simp only [hm, if_true]
    exact Or.inl
  · simp only [Bool.not_eq_true] at hm
    simp only [hm, Bool.false_eq_true, if_false]
    intro hn
    by_cases hi : i < st.anodes.length
    · rcases anodes_setANode_mem hn with hn | rfl
      · exact Or.inl hn
      · exact Or.inr ⟨hi, rfl⟩
    · rw [setANode_oob (le_of_not_lt hi)] at hn
      exact Or.inl hn

theorem snodes_addSMutex_mem {st : GraphState} {i j : Nat} {n : SNode}
    (hn : n ∈ (addSMutex st i j).snodes) :
    n ∈ st.snodes ∨ (i < st.snodes.length ∧
      n = { sNodeAt st i with mutex := (sNodeAt st i).mutex ++ [j] }) := by
  revert hn
  unfold addSMutex
  by_cases hm : sMember st (sNodeAt st i).mutex (sLit st j) = true
  · simp only [hm, if_true]
    exact Or.inl
  · simp only [Bool.not_eq_true] at hm
    simp only [hm, Bool.false_eq_true, if_false]
    intro hn
    by_cases hi : i < st.snodes.length
    · rcases List.mem_or_eq_of_mem_set hn with hn | rfl
      · exact Or.inl hn
      · exact Or.inr ⟨hi, rfl⟩
    · rw [show setSNode st i { sNodeAt st i with
        mutex := (sNodeAt st i).mutex ++ [j] } = st from setSNode_oob (le_of_not_lt hi)]
        at hn
      exact Or.inl hn

/-- addAMutex preserves the structural invariant. -/
theorem inv_addAMutex {st : GraphState} {i j : Nat} (hinv : Inv st)
    (hj : j < st.anodes.length) : Inv (addAMutex st i j) := by
  have hsl : ∀ k, sLit (addAMutex st i j) k = sLit st k := sLit_addAMutex
  have hsn : ∀ k, sNodeAt (addAMutex st i j) k = sNodeAt st k := sNodeAt_addAMutex
  have hlits : ∀ ids : List Nat, litsOf (addAMutex st i j) ids = litsOf st ids :=
    fun ids => List.map_congr_left fun k _ => hsl k
  have halen : (addAMutex st i j).anodes.length = st.anodes.length :=
    anodes_length_addAMutex
  have hanodes : ∀ {n : ANode}, n ∈ (addAMutex st i j).anodes →
      ∃ m ∈ st.anodes, n.action = m.action ∧ n.prenodes = m.prenodes ∧
        n.effnodes = m.effnodes ∧ n.is_persistent = m.is_persistent ∧
        n.parents = m.parents := by
    intro n hn
    rcases anodes_addAMutex_mem hn with hn | ⟨hi, rfl⟩
    · exact ⟨n, hn, rfl, rfl, rfl, rfl, rfl⟩
    · exact ⟨aNodeAt st i, aNodeAt_mem hi, rfl, rfl, rfl, rfl, rfl⟩
  refine ⟨?_, ?_, ?_, ?_, ?_, ?_, ?_, ?_, ?_, ?_, ?_, ?_, ?_, ?_, ?_⟩
  · rw [addAMutex_s_levels, addAMutex_snodes]
    exact hinv.slev
  · rw [addAMutex_a_levels]
    intro l hl k hk
    rw [halen]
    exact hinv.alev l hl k hk
  · rw [addAMutex_s_levels]
    exact hinv.slevnd
  · rw [addAMutex_a_levels]
    exact hinv.alevnd
  · exact mutexIdsOk_addAMutex hinv.mids hj
  · intro n hn e he
    obtain ⟨m, hm, _, hpre, _, _, _⟩ := hanodes hn
    rw [addAMutex_snodes]
    exact hinv.apre m hm e (hpre ▸ he)
  · intro n hn e he
    obtain ⟨m, hm, _, _, heff, _, _⟩ := hanodes hn
    rw [addAMutex_snodes]
    exact hinv.aeff m hm e (heff ▸ he)
  · intro n hn
    obtain ⟨m, hm, hact, hpre, _, _, _⟩ := hanodes hn
    rw [hlits, hact, hpre]
    exact hinv.apreLits m hm
  · intro n hn
    obtain ⟨m, hm, hact, _, heff, _, _⟩ := hanodes hn
    rw [hlits, hact, heff]
    exact hinv.aeffLits m hm
  · intro n hn
    obtain ⟨m, hm, hact, _, _, hpers, _⟩ := hanodes hn
    rw [hact, hpers]
    exact hinv.apers m hm
  · intro n hn
    obtain ⟨m, hm, _, hpre, _, _, hpar⟩ := hanodes hn
    rw [hpar, hpre]
    exact hinv.aparents m hm
  · rw [addAMutex_a_levels]
    intro l hl id hid
    obtain ⟨_, h2, h3, _, h5, _⟩ := @aNodeAt_addAMutex_fields st i j id
    rw [h2, h5]
    exact hinv.alevparents l hl id hid
  · intro n hn p hp
    obtain ⟨m, hm, _, hpre, _, _, _⟩ := hanodes hn
    rw [hsn]
    exact hinv.prefresh m hm p (hpre ▸ hp)
  · intro n hn p hp l hl
    obtain ⟨m, hm, _, hpre, _, _, _⟩ := hanodes hn
    rw [addAMutex_s_levels] at hl
    exact hinv.prelev m hm p (hpre ▸ hp) l hl
  · intro n hn p hp m2 hm2
    obtain ⟨m, hm, _, hpre, _, _, _⟩ := hanodes hn
    obtain ⟨m3, hm3, _, _, heff3, _, _⟩ := hanodes hm2
    rw [heff3]
    exact hinv.preeff m hm p (hpre ▸ hp) m3 hm3

/-- addSMutex preserves the structural invariant, provided the touched node is
a member of some fact layer (so it is no action's prenode object). -/
theorem inv_addSMutex {st : GraphState} {i j : Nat} {lev : List Nat} (hinv : Inv st)
    (hj : j < st.snodes.length) (hlev : lev ∈ st.s_levels) (hilev : i ∈ lev) :
    Inv (addSMutex st i j) := by
  have hsl : ∀ k, sLit (addSMutex st i j) k = sLit st k := sLit_addSMutex
  have han : ∀ k, aNodeAt (addSMutex st i j) k = aNodeAt st k := aNodeAt_addSMutex
  have hlits : ∀ ids : List Nat, litsOf (addSMutex st i j) ids = litsOf st ids :=
    fun ids => List.map_congr_left fun k _ => hsl k
  have hslen : (addSMutex st i j).snodes.length = st.snodes.length :=
    snodes_length_addSMutex
  refine ⟨?_, ?_, ?_, ?_, ?_, ?_, ?_, ?_, ?_, ?_, ?_, ?_, ?_, ?_, ?_⟩
  · rw [addSMutex_s_levels]
    intro l hl k hk
    rw [hslen]
    exact hinv.slev l hl k hk
  · rw [addSMutex_a_levels, addSMutex_anodes]
    exact hinv.alev
  · rw [addSMutex_s_levels]
    exact hinv.slevnd
  · rw [addSMutex_a_levels]
    exact hinv.alevnd
  · exact mutexIdsOk_addSMutex hinv.mids hj
  · rw [addSMutex_anodes]
    intro n hn e he
    rw [hslen]
    exact hinv.apre n hn e he
  · rw [addSMutex_anodes]
    intro n hn e he
    rw [hslen]
    exact hinv.aeff n hn e he
  · rw [addSMutex_anodes]
    intro n hn
    rw [hlits]
    exact hinv.apreLits n hn
  · rw [addSMutex_anodes]
    intro n hn
    rw [hlits]
    exact hinv.aeffLits n hn
  · rw [addSMutex_anodes]
    exact hinv.apers
  · rw [addSMutex_anodes]
    exact hinv.aparents
  · rw [addSMutex_a_levels]
    intro l hl id hid
    rw [han]
    exact hinv.alevparents l hl id hid
  · rw [addSMutex_anodes]
    intro n hn p hp
    have hpne : p ≠ i := fun hc => hinv.prelev n hn p hp lev hlev (hc ▸ hilev)
    rw [sNodeAt_addSMutex_other hpne]
    exact hinv.prefresh n hn p hp
  · rw [addSMutex_anodes, addSMutex_s_levels]
    exact hinv.prelev
  · rw [addSMutex_anodes]
    exact hinv.preeff


/-- The shape fields untouched by mutexify_aa. -/
theorem mutexify_aa_shape {st : GraphState} {i j : Nat} :
    (mutexify_aa st i j).snodes = st.snodes ∧
      (mutexify_aa st i j).anodes.length = st.anodes.length ∧
      (mutexify_aa st i j).s_levels = st.s_levels ∧
      (mutexify_aa st i j).a_levels = st.a_levels ∧
      (mutexify_aa st i j).serial = st.serial := by
  unfold mutexify_aa
  refine ⟨?_, ?_, ?_, ?_, ?_⟩
  · rw [addAMutex_snodes, addAMutex_snodes]
  · rw [anodes_length_addAMutex, anodes_length_addAMutex]
  · rw [addAMutex_s_levels, addAMutex_s_levels]
  · rw [addAMutex_a_levels, addAMutex_a_levels]
  · rw [addAMutex_serial, addAMutex_serial]

/-- The shape fields untouched by mutexify_ss. -/
theorem mutexify_ss_shape {st : GraphState} {i j : Nat} :
    (mutexify_ss st i j).anodes = st.anodes ∧
      (mutexify_ss st i j).snodes.length = st.snodes.length ∧
      (mutexify_ss st i j).s_levels = st.s_levels ∧
      (mutexify_ss st i j).a_levels = st.a_levels ∧
      (mutexify_ss st i j).serial = st.serial := by
  unfold mutexify_ss
  refine ⟨?_, ?_, ?_, ?_, ?_⟩
  · rw [addSMutex_anodes, addSMutex_anodes]
  · rw [snodes_length_addSMutex2, snodes_length_addSMutex2]
  · rw [addSMutex_s_levels, addSMutex_s_levels]
  · rw [addSMutex_a_levels, addSMutex_a_levels]
  · rw [addSMutex_serial, addSMutex_serial]

/-- mutexify_aa preserves the structural invariant. -/
theorem inv_mutexify_aa {st : GraphState} {i j : Nat} (hinv : Inv st)
    (hi : i < st.anodes.length) (hj : j < st.anodes.length) : Inv (mutexify_aa st i j) := by
  unfold mutexify_aa
  exact inv_addAMutex (inv_addAMutex hinv hj) (by rw [anodes_length_addAMutex]; exact hi)

/-- mutexify_aa only extends the state. -/
theorem sext_mutexify_aa {st : GraphState} {i j : Nat} (hinv : Inv st)
    (hi : i < st.anodes.length) (hj : j < st.anodes.length) :
    SExt st (mutexify_aa st i j) := by
  unfold mutexify_aa
  exact sext_trans (sext_addAMutex hinv.mids hj)
    (sext_addAMutex (inv_addAMutex hinv hj).mids (by rw [anodes_length_addAMutex]; exact hi))

/-- mutexify_ss preserves the structural invariant when both ids live in fact
layers. -/
theorem inv_mutexify_ss {st : GraphState} {i j : Nat} {levi levj : List Nat} (hinv : Inv st)
    (hi : i < st.snodes.length) (hj : j < st.snodes.length)
    (hlevi : levi ∈ st.s_levels) (hii : i ∈ levi)
    (hlevj : levj ∈ st.s_levels) (hjj : j ∈ levj) : Inv (mutexify_ss st i j) := by
  unfold mutexify_ss
  have h1 := inv_addSMutex hinv hj hlevi hii
  refine inv_addSMutex h1 ?_ ?_ hjj
  · rw [snodes_length_addSMutex2]; exact hi
  · rw [addSMutex_s_levels]; exact hlevj

/-- mutexify_ss only extends the state. -/
theorem sext_mutexify_ss {st : GraphState} {i j : Nat} {levi : List Nat} (hinv : Inv st)
    (hi : i < st.snodes.length) (hj : j < st.snodes.length)
    (hlevi : levi ∈ st.s_levels) (hii : i ∈ levi) :
    SExt st (mutexify_ss st i j) := by
  unfold mutexify_ss
  exact sext_trans (sext_addSMutex hinv.mids hj)
    (sext_addSMutex (inv_addSMutex hinv hj hlevi hii).mids
      (by rw [snodes_length_addSMutex2]; exact hi))

/-- serialize_actions depends only on the serial flag and the two persistence
flags, so it is stable along any extension at valid ids. -/
theorem serialize_stable {st st2 : GraphState} {i j : Nat} (h : SExt st st2)
    (hi : i < st.anodes.length) (hj : j < st.anodes.length) :
    serialize_actions st2 i j = serialize_actions st i j := by
  unfold serialize_actions
  rw [h.ser, (h.afix i hi).2.2.2, (h.afix j hj).2.2.2]

/-- serialize_actions is symmetric in its two ids. -/
theorem serialize_symm {st : GraphState} {i j : Nat} :
    serialize_actions st i j = serialize_actions st j i := by
  unfold serialize_actions
  by_cases hs : st.serial
  · simp [hs, Bool.or_comm]
  · simp [hs]

/-- serialize_actions never fires when either action is persistent. -/
theorem serialize_persistent_false {st : GraphState} {i j : Nat}
    (h : (aNodeAt st i).is_persistent = true ∨ (aNodeAt st j).is_persistent = true) :
    serialize_actions st i j = false := by
  unfold serialize_actions
  rcases h with h | h <;> simp [h]

/-- One update_a_pair step preserves the structural invariant. -/
theorem inv_update_a_pair {st : GraphState} {i j : Nat} (hinv : Inv st)
    (hi : i < st.anodes.length) (hj : j < st.anodes.length) :
    Inv (update_a_pair st i j) := by
  unfold update_a_pair
  by_cases ht : a_mutex_test st i j = true
  · rw [if_pos ht]; exact inv_mutexify_aa hinv hi hj
  · rw [if_neg ht]; exact hinv

/-- One update_a_pair step only extends the state. -/
theorem sext_update_a_pair {st : GraphState} {i j : Nat} (hinv : Inv st)
    (hi : i < st.anodes.length) (hj : j < st.anodes.length) :
    SExt st (update_a_pair st i j) := by
  unfold update_a_pair
  by_cases ht : a_mutex_test st i j = true
  · rw [if_pos ht]; exact sext_mutexify_aa hinv hi hj
  · rw [if_neg ht]; exact sext_refl

/-- The shape fields untouched by update_a_pair. -/
theorem update_a_pair_shape {st : GraphState} {i j : Nat} :
    (update_a_pair st i j).snodes = st.snodes ∧
      (update_a_pair st i j).anodes.length = st.anodes.length ∧
      (update_a_pair st i j).s_levels = st.s_levels ∧
      (update_a_pair st i j).a_levels = st.a_levels ∧
      (update_a_pair st i j).serial = st.serial := by
  unfold update_a_pair
  by_cases ht : a_mutex_test st i j = true
  · rw [if_pos ht]; exact mutexify_aa_shape
  · rw [if_neg ht]; exact ⟨rfl, rfl, rfl, rfl, rfl⟩

/-- When the pair test fires, update_a_pair makes the pair mutex both ways. -/
theorem update_a_pair_mutex_of_test {st : GraphState} {i j : Nat}
    (hi : i < st.anodes.length) (hj : j < st.anodes.length)
    (ht : a_mutex_test st i j = true) :
    is_mutex_a (update_a_pair st i j) i j = true ∧
      is_mutex_a (update_a_pair st i j) j i = true := by
  unfold update_a_pair
  rw [if_pos ht]
  exact mutexify_aa_both hi hj


/-- The inner row fold of processPairs for action pairs: invariant, extension
and shape preservation. -/
theorem row_a_spec {rest : List Nat} :
    ∀ {st : GraphState} {i : Nat}, Inv st → i < st.anodes.length →
      (∀ k ∈ rest, k < st.anodes.length) →
      Inv (rest.foldl (fun s n2 => update_a_pair s i n2) st) ∧
        SExt st (rest.foldl (fun s n2 => update_a_pair s i n2) st) ∧
        (rest.foldl (fun s n2 => update_a_pair s i n2) st).snodes = st.snodes ∧
        (rest.foldl (fun s n2 => update_a_pair s i n2) st).anodes.length =
          st.anodes.length ∧
        (rest.foldl (fun s n2 => update_a_pair s i n2) st).s_levels = st.s_levels ∧
        (rest.foldl (fun s n2 => update_a_pair s i n2) st).a_levels = st.a_levels := by
  induction rest with
  | nil => exact fun hinv _ _ => ⟨hinv, sext_refl, rfl, rfl, rfl, rfl⟩
  | cons k rest ih =>
    intro st i hinv hi hks
    have hk : k < st.anodes.length := hks k (List.mem_cons_self k rest)
    have h1 := inv_update_a_pair hinv hi hk
    have hsh := @update_a_pair_shape st i k
    have h2 := sext_update_a_pair hinv hi hk
    have hrec := ih h1 (hsh.2.1 ▸ hi) (fun m hm => hsh.2.1 ▸ hks m (List.mem_cons_of_mem k hm))
    rw [List.foldl_cons]
    exact ⟨hrec.1, sext_trans h2 hrec.2.1, hrec.2.2.1.trans hsh.1,
      hrec.2.2.2.1.trans hsh.2.1, hrec.2.2.2.2.1.trans hsh.2.2.1,
      hrec.2.2.2.2.2.trans hsh.2.2.2.1⟩

/-- processPairs over update_a_pair: invariant, extension and shape
preservation. -/
theorem update_a_mutex_spec {ids : List Nat} :
    ∀ {st : GraphState}, Inv st → (∀ k ∈ ids, k < st.anodes.length) →
      Inv (update_a_mutex st ids) ∧ SExt st (update_a_mutex st ids) ∧
        (update_a_mutex st ids).snodes = st.snodes ∧
        (update_a_mutex st ids).anodes.length = st.anodes.length ∧
        (update_a_mutex st ids).s_levels = st.s_levels ∧
        (update_a_mutex st ids).a_levels = st.a_levels := by
  induction ids with
  | nil => exact fun hinv _ => ⟨hinv, sext_refl, rfl, rfl, rfl, rfl⟩
  | cons n1 rest ih =>
    intro st hinv hks
    have hn1 : n1 < st.anodes.length := hks n1 (List.mem_cons_self n1 rest)
    have hrow := row_a_spec hinv hn1 (fun m hm => hks m (List.mem_cons_of_mem n1 hm))
    have hrec := ih hrow.1 (fun m hm => hrow.2.2.2.1 ▸ hks m (List.mem_cons_of_mem n1 hm))
    show (Inv (update_a_mutex (rest.foldl (fun s n2 => update_a_pair s n1 n2) st) rest) ∧ _)
    exact ⟨hrec.1, sext_trans hrow.2.1 hrec.2.1, hrec.2.2.1.trans hrow.2.2.1,
      hrec.2.2.2.1.trans hrow.2.2.2.1, hrec.2.2.2.2.1.trans hrow.2.2.2.2.1,
      hrec.2.2.2.2.2.trans hrow.2.2.2.2.2⟩

/-- After the inner row fold for head id i, any later id j of the row with a
true serialize test is mutex with i in both directions. -/
theorem row_a_establish {rest : List Nat} :
    ∀ {st : GraphState} {i j : Nat}, Inv st → i < st.anodes.length →
      (∀ k ∈ rest, k < st.anodes.length) → j ∈ rest →
      serialize_actions st i j = true →
      is_mutex_a (rest.foldl (fun s n2 => update_a_pair s i n2) st) i j = true ∧
        is_mutex_a (rest.foldl (fun s n2 => update_a_pair s i n2) st) j i = true := by
  induction rest with
  | nil => intro _ _ _ _ _ _ hj _; exact absurd hj (List.not_mem_nil _)
  | cons k rest ih =>
    intro st i j hinv hi hks hj hser
    have hk : k < st.anodes.length := hks k (List.mem_cons_self k rest)
    have hsh := @update_a_pair_shape st i k
    have h1 := inv_update_a_pair hinv hi hk
    rw [List.foldl_cons]
    rcases List.mem_cons.mp hj with rfl | hj2
    · have ht : a_mutex_test st i j = true := by
        unfold a_mutex_test
        rw [hser]
        simp
      have hest := update_a_pair_mutex_of_test hi hk ht
      have hrow := row_a_spec h1 (hsh.2.1 ▸ hi)
        (fun m hm => hsh.2.1 ▸ hks m (List.mem_cons_of_mem j hm))
      constructor
      · exact hrow.2.1.amut i j (hsh.2.1 ▸ hk) hest.1
      · exact hrow.2.1.amut j i (hsh.2.1 ▸ hi) hest.2
    · have h2 := sext_update_a_pair hinv hi hk
      refine ih h1 (hsh.2.1 ▸ hi)
        (fun m hm => hsh.2.1 ▸ hks m (List.mem_cons_of_mem k hm)) hj2 ?_
      rw [serialize_stable h2 hi (hks j hj)]
      exact hser

/-- After update_a_mutex over a row of ids, any ordered occurrence of two ids
with a true serialize test ends mutex in both directions. -/
theorem update_a_mutex_establish {ids : List Nat} :
    ∀ {st : GraphState} {i j : Nat}, Inv st → (∀ k ∈ ids, k < st.anodes.length) →
      i ∈ ids → j ∈ ids → i ≠ j → serialize_actions st i j = true →
      is_mutex_a (update_a_mutex st ids) i j = true ∧
        is_mutex_a (update_a_mutex st ids) j i = true := by
  induction ids with
  | nil => intro _ _ _ _ _ hi _ _ _; exact absurd hi (List.not_mem_nil _)
  | cons n1 rest ih =>
    intro st i j hinv hks hi hj hij hser
    have hn1 : n1 < st.anodes.length := hks n1 (List.mem_cons_self n1 rest)
    have hrest : ∀ k ∈ rest, k < st.anodes.length :=
      fun m hm => hks m (List.mem_cons_of_mem n1 hm)
    have hrow := row_a_spec hinv hn1 hrest
    show is_mutex_a (update_a_mutex (rest.foldl (fun s n2 => update_a_pair s n1 n2) st) rest) i j = true ∧ _
    rcases List.mem_cons.mp hi with rfl | hi2
    · have hj2 : j ∈ rest := by
        rcases List.mem_cons.mp hj with rfl | hj2
        · exact absurd rfl hij
        · exact hj2
      have hest := row_a_establish hinv hn1 hrest hj2 hser
      have hspec := update_a_mutex_spec hrow.1
        (fun m hm => hrow.2.2.2.1 ▸ hrest m hm)
      constructor
      · exact hspec.2.1.amut i j (hrow.2.2.2.1 ▸ hks j hj) hest.1
      · exact hspec.2.1.amut j i (hrow.2.2.2.1 ▸ hn1) hest.2
    · rcases List.mem_cons.mp hj with rfl | hj2
      · have hest := row_a_establish hinv hn1 hrest hi2 (serialize_symm.trans hser)
        have hspec := update_a_mutex_spec hrow.1
          (fun m hm => hrow.2.2.2.1 ▸ hrest m hm)
        constructor
        · exact hspec.2.1.amut i j (hrow.2.2.2.1 ▸ hn1) hest.2
        · exact hspec.2.1.amut j i (hrow.2.2.2.1 ▸ hks i hi) hest.1
      · refine ih hrow.1 (fun m hm => hrow.2.2.2.1 ▸ hrest m hm) hi2 hj2 hij ?_
        rw [serialize_stable hrow.2.1 (hks i hi) (hks j hj)]
        exact hser


/-- An in-range index reads the list element itself. -/
theorem aNodeAt_lt {st : GraphState} {k : Nat} (hk : k < st.anodes.length) :
    aNodeAt st k = st.anodes.get ⟨k, hk⟩ := by
  unfold aNodeAt
  rw [List.getD_eq_getElem?_getD, List.getElem?_eq_getElem hk]
  rfl

theorem sNodeAt_lt {st : GraphState} {k : Nat} (hk : k < st.snodes.length) :
    sNodeAt st k = st.snodes.get ⟨k, hk⟩ := by
  unfold sNodeAt
  rw [List.getD_eq_getElem?_getD, List.getElem?_eq_getElem hk]
  rfl

/-- Every stored action node is read back by its index. -/
theorem mem_anodes_index {st : GraphState} {n : ANode} (h : n ∈ st.anodes) :
    ∃ k, k < st.anodes.length ∧ n = aNodeAt st k := by
  obtain ⟨k, hk, hEq⟩ := List.mem_iff_getElem.mp h
  exact ⟨k, hk, by rw [aNodeAt_lt hk]; exact hEq.symm⟩

/-- Every stored fact node is read back by its index. -/
theorem mem_snodes_index {st : GraphState} {n : SNode} (h : n ∈ st.snodes) :
    ∃ k, k < st.snodes.length ∧ n = sNodeAt st k := by
  obtain ⟨k, hk, hEq⟩ := List.mem_iff_getElem.mp h
  exact ⟨k, hk, by rw [sNodeAt_lt hk]; exact hEq.symm⟩

theorem achShape_refl {st : GraphState} : achShape st st :=
  ⟨rfl, rfl, rfl, rfl, rfl, fun _ => ⟨rfl, rfl, rfl, rfl, rfl, rfl⟩⟩

theorem achShape_trans {st1 st2 st3 : GraphState} (h12 : achShape st1 st2)
    (h23 : achShape st2 st3) : achShape st1 st3 := by
  obtain ⟨a1, a2, a3, a4, a5, a6⟩ := h12
  obtain ⟨b1, b2, b3, b4, b5, b6⟩ := h23
  refine ⟨b1.trans a1, b2.trans a2, b3.trans a3, b4.trans a4, b5.trans a5, fun k => ?_⟩
  obtain ⟨c1, c2, c3, c4, c5, c6⟩ := a6 k
  obtain ⟨d1, d2, d3, d4, d5, d6⟩ := b6 k
  exact ⟨d1.trans c1, d2.trans c2, d3.trans c3, d4.trans c4, d5.trans c5, d6.trans c6⟩

theorem sparShape_refl {st : GraphState} : sparShape st st :=
  ⟨rfl, rfl, rfl, rfl, rfl, fun _ => ⟨rfl, rfl, rfl, rfl⟩⟩

theorem sparShape_trans {st1 st2 st3 : GraphState} (h12 : sparShape st1 st2)
    (h23 : sparShape st2 st3) : sparShape st1 st3 := by
  obtain ⟨a1, a2, a3, a4, a5, a6⟩ := h12
  obtain ⟨b1, b2, b3, b4, b5, b6⟩ := h23
  refine ⟨b1.trans a1, b2.trans a2, b3.trans a3, b4.trans a4, b5.trans a5, fun k => ?_⟩
  obtain ⟨c1, c2, c3, c4⟩ := a6 k
  obtain ⟨d1, d2, d3, d4⟩ := b6 k
  exact ⟨d1.trans c1, d2.trans c2, d3.trans c3, d4.trans c4⟩

/-- Rewriting only the children field of one action node is an achShape step. -/
theorem achShape_setChildren {st : GraphState} {aid : Nat} {c : List Nat} :
    achShape st (setANode st aid { aNodeAt st aid with children := c }) := by
  by_cases hid : aid < st.anodes.length
  · refine ⟨rfl, by simp [setANode], rfl, rfl, rfl, fun k => ?_⟩
    by_cases hk : k = aid
    · subst hk
      rw [aNodeAt_setANode_self hid]
      exact ⟨rfl, rfl, rfl, rfl, rfl, rfl⟩
    · rw [aNodeAt_setANode_ne hk]
      exact ⟨rfl, rfl, rfl, rfl, rfl, rfl⟩
  · rw [setANode_oob (Nat.le_of_not_lt hid)]
    exact achShape_refl

/-- Rewriting only the parents field of one fact node is a sparShape step. -/
theorem sparShape_setSParents {st : GraphState} {nid : Nat} {p : List Nat} :
    sparShape st (setSNode st nid { sNodeAt st nid with parents := p }) := by
  by_cases hid : nid < st.snodes.length
  · refine ⟨rfl, by simp [setSNode], rfl, rfl, rfl, fun k => ?_⟩
    by_cases hk : k = nid
    · subst hk
      rw [sNodeAt_setSNode_self hid]
      exact ⟨rfl, rfl, rfl, rfl⟩
    · rw [sNodeAt_setSNode_ne hk]
      exact ⟨rfl, rfl, rfl, rfl⟩
  · rw [setSNode_oob (Nat.le_of_not_lt hid)]
    exact sparShape_refl

/-- achShape preserves fact-node reads and literals. -/
theorem sLit_achShape {st st1 : GraphState} (h : achShape st st1) :
    ∀ k, sLit st1 k = sLit st k := by
  intro k
  unfold sLit sNodeAt
  rw [h.1]

/-- sparShape preserves fact-node literals. -/
theorem sLit_sparShape {st st1 : GraphState} (h : sparShape st st1) :
    ∀ k, sLit st1 k = sLit st k := by
  intro k
  show (⟨(sNodeAt st1 k).symbol, (sNodeAt st1 k).is_pos⟩ : Lit) = _
  rw [(h.2.2.2.2.2 k).1, (h.2.2.2.2.2 k).2.1]
  rfl

/-- achShape preserves the structural invariant. -/
theorem inv_achShape {st st1 : GraphState} (h : achShape st st1) (hinv : Inv st) :
    Inv st1 := by
  obtain ⟨hsn, halen, hslev, halev, hser, hfix⟩ := h
  have hlits : ∀ ids, litsOf st1 ids = litsOf st ids :=
    fun ids => List.map_congr_left fun k _ => sLit_achShape ⟨hsn, halen, hslev, halev, hser, hfix⟩ k
  have hmem : ∀ n ∈ st1.anodes, ∃ m ∈ st.anodes, n.action = m.action ∧
      n.prenodes = m.prenodes ∧ n.effnodes = m.effnodes ∧
      n.is_persistent = m.is_persistent ∧ n.parents = m.parents ∧
      n.mutex = m.mutex := by
    intro n hn
    obtain ⟨k, hk, rfl⟩ := mem_anodes_index hn
    obtain ⟨f1, f2, f3, f4, f5, f6⟩ := hfix k
    exact ⟨aNodeAt st k, aNodeAt_mem (halen ▸ hk), f1, f2, f3, f4, f5, f6⟩
  refine ⟨?_, ?_, ?_, ?_, ?_, ?_, ?_, ?_, ?_, ?_, ?_, ?_, ?_, ?_, ?_⟩
  · rw [hslev, hsn]
    exact hinv.slev
  · rw [halev]
    intro l hl k hk
    rw [halen]
    exact hinv.alev l hl k hk
  · rw [hslev]
    exact hinv.slevnd
  · rw [halev]
    exact hinv.alevnd
  · have hold := hinv.mids
    simp only [mutexIdsOk, Bool.and_eq_true, List.all_eq_true, decide_eq_true_eq] at hold ⊢
    constructor
    · rw [hsn]
      exact hold.1
    · intro n hn m hm
      obtain ⟨n2, hn2, _, _, _, _, _, hmux⟩ := hmem n hn
      rw [halen]
      exact hold.2 n2 hn2 m (hmux ▸ hm)
  · intro n hn e he
    obtain ⟨m, hm, _, hpre, _, _, _, _⟩ := hmem n hn
    rw [hsn]
    exact hinv.apre m hm e (hpre ▸ he)
  · intro n hn e he
    obtain ⟨m, hm, _, _, heff, _, _, _⟩ := hmem n hn
    rw [hsn]
    exact hinv.aeff m hm e (heff ▸ he)
  · intro n hn
    obtain ⟨m, hm, hact, hpre, _, _, _, _⟩ := hmem n hn
    rw [hlits, hact, hpre]
    exact hinv.apreLits m hm
  · intro n hn
    obtain ⟨m, hm, hact, _, heff, _, _, _⟩ := hmem n hn
    rw [hlits, hact, heff]
    exact hinv.aeffLits m hm
  · intro n hn
    obtain ⟨m, hm, hact, _, _, hpers, _, _⟩ := hmem n hn
    rw [hact, hpers]
    exact hinv.apers m hm
  · intro n hn
    obtain ⟨m, hm, _, hpre, _, _, hpar, _⟩ := hmem n hn
    rw [hpar, hpre]
    exact hinv.aparents m hm
  · rw [halev]
    intro l hl id hid
    obtain ⟨_, f2, _, _, f5, _⟩ := hfix id
    rw [f2, f5]
    exact hinv.alevparents l hl id hid
  · intro n hn p hp
    obtain ⟨m, hm, _, hpre, _, _, _, _⟩ := hmem n hn
    show (SNode.mutex (sNodeAt st1 p)) = []
    unfold sNodeAt
    rw [hsn]
    exact hinv.prefresh m hm p (hpre ▸ hp)
  · intro n hn p hp l hl
    obtain ⟨m, hm, _, hpre, _, _, _, _⟩ := hmem n hn
    rw [hslev] at hl
    exact hinv.prelev m hm p (hpre ▸ hp) l hl
  · intro n hn p hp m2 hm2
    obtain ⟨m, hm, _, hpre, _, _, _, _⟩ := hmem n hn
    obtain ⟨m3, hm3, _, _, heff3, _, _, _⟩ := hmem m2 hm2
    rw [heff3]
    exact hinv.preeff m hm p (hpre ▸ hp) m3 hm3

/-- sparShape preserves the structural invariant. -/
theorem inv_sparShape {st st1 : GraphState} (h : sparShape st st1) (hinv : Inv st) :
    Inv st1 := by
  obtain ⟨han, hslen, hslev, halev, hser, hfix⟩ := h
  have hlits : ∀ ids, litsOf st1 ids = litsOf st ids :=
    fun ids => List.map_congr_left fun k _ =>
      sLit_sparShape ⟨han, hslen, hslev, halev, hser, hfix⟩ k
  have hmem : ∀ n ∈ st1.snodes, ∃ m ∈ st.snodes, n.mutex = m.mutex := by
    intro n hn
    obtain ⟨k, hk, rfl⟩ := mem_snodes_index hn
    exact ⟨sNodeAt st k, sNodeAt_mem (hslen ▸ hk), (hfix k).2.2.2⟩
  refine ⟨?_, ?_, ?_, ?_, ?_, ?_, ?_, ?_, ?_, ?_, ?_, ?_, ?_, ?_, ?_⟩
  · rw [hslev]
    intro l hl k hk
    rw [hslen]
    exact hinv.slev l hl k hk
  · rw [halev, han]
    exact hinv.alev
  · rw [hslev]
    exact hinv.slevnd
  · rw [halev]
    exact hinv.alevnd
  · have hold := hinv.mids
    simp only [mutexIdsOk, Bool.and_eq_true, List.all_eq_true, decide_eq_true_eq] at hold ⊢
    constructor
    · intro n hn m hm
      obtain ⟨n2, hn2, hmux⟩ := hmem n hn
      rw [hslen]
      exact hold.1 n2 hn2 m (hmux ▸ hm)
    · rw [han]
      exact hold.2
  · rw [han]
    intro n hn e he
    rw [hslen]
    exact hinv.apre n hn e he
  · rw [han]
    intro n hn e he
    rw [hslen]
    exact hinv.aeff n hn e he
  · rw [han]
    intro n hn
    rw [hlits]
    exact hinv.apreLits n hn
  · rw [han]
    intro n hn
    rw [hlits]
    exact hinv.aeffLits n hn
  · rw [han]
    exact hinv.apers
  · rw [han]
    exact hinv.aparents
  · rw [halev]
    intro l hl id hid
    show ANode.parents (aNodeAt st1 id) = ANode.prenodes (aNodeAt st1 id)
    unfold aNodeAt
    rw [han]
    exact hinv.alevparents l hl id hid
  · rw [han]
    intro n hn p hp
    rw [(hfix p).2.2.2]
    exact hinv.prefresh n hn p hp
  · rw [han, hslev]
    exact hinv.prelev
  · rw [han]
    exact hinv.preeff

/-- achShape is an extension. -/
theorem sext_achShape {st st1 : GraphState} (h : achShape st st1) : SExt st st1 := by
  obtain ⟨hsn, halen, hslev, halev, hser, hfix⟩ := h
  refine ⟨by rw [hsn], Nat.le_of_eq halen.symm, ?_, ?_, ⟨[], by rw [hslev, List.append_nil]⟩,
    ⟨[], by rw [halev, List.append_nil]⟩, hser, ?_, ?_⟩
  · intro k _
    exact sLit_achShape ⟨hsn, halen, hslev, halev, hser, hfix⟩ k
  · intro k _
    obtain ⟨f1, f2, f3, f4, _, _⟩ := hfix k
    exact ⟨f1, f2, f3, f4⟩
  · intro a b _ hm
    show sMember st1 (SNode.mutex (sNodeAt st1 a)) (sLit st1 b) = true
    unfold sNodeAt
    rw [hsn]
    have : sLit st1 b = sLit st b := sLit_achShape ⟨hsn, halen, hslev, halev, hser, hfix⟩ b
    rw [this, sMember_congr fun k _ => sLit_achShape ⟨hsn, halen, hslev, halev, hser, hfix⟩ k]
    exact hm
  · intro a b _ hm
    have hacts : ∀ k, aAct st1 k = aAct st k := fun k => (hfix k).1
    rw [show is_mutex_a st1 a b = aMember st1 (aNodeAt st1 a).mutex (aAct st1 b).name from rfl]
    rw [(hfix a).2.2.2.2.2, hacts b, aMember_congr fun k _ => hacts k]
    exact hm

/-- sparShape is an extension. -/
theorem sext_sparShape {st st1 : GraphState} (h : sparShape st st1) : SExt st st1 := by
  obtain ⟨han, hslen, hslev, halev, hser, hfix⟩ := h
  refine ⟨Nat.le_of_eq hslen.symm, by rw [han], ?_, ?_, ⟨[], by rw [hslev, List.append_nil]⟩,
    ⟨[], by rw [halev, List.append_nil]⟩, hser, ?_, ?_⟩
  · intro k _
    exact sLit_sparShape ⟨han, hslen, hslev, halev, hser, hfix⟩ k
  · intro k _
    show (ANode.action (aNodeAt st1 k) = _) ∧ _
    unfold aNodeAt
    rw [han]
    exact ⟨rfl, rfl, rfl, rfl⟩
  · intro a b _ hm
    rw [show is_mutex_s st1 a b = sMember st1 (sNodeAt st1 a).mutex (sLit st1 b) from rfl]
    rw [(hfix a).2.2.2, sLit_sparShape ⟨han, hslen, hslev, halev, hser, hfix⟩ b,
      sMember_congr fun k _ => sLit_sparShape ⟨han, hslen, hslev, halev, hser, hfix⟩ k]
    exact hm
  · intro a b _ hm
    have hn : ∀ k, aNodeAt st1 k = aNodeAt st k := by
      intro k
      unfold aNodeAt
      rw [han]
    rw [show is_mutex_a st1 a b = aMember st1 (aNodeAt st1 a).mutex (aAct st1 b).name from rfl]
    have hacts : ∀ k, aAct st1 k = aAct st k := by
      intro k
      unfold aAct
      rw [hn k]
    rw [hn a, hacts b, aMember_congr fun k _ => hacts k]
    exact hm


/-- sInsert preserves Nodup: a present id is found by its own literal value. -/
theorem sInsert_nodup {st : GraphState} {ids : List Nat} {j : Nat} (h : ids.Nodup) :
    (sInsert st ids j).Nodup := by
  unfold sInsert
  by_cases hm : sMember st ids (sLit st j) = true
  · rw [if_pos hm]
    exact h
  · rw [if_neg hm]
    have hj : j ∉ ids := by
      intro hj
      exact hm (sMember_iff.mpr (List.mem_map.mpr ⟨j, hj, rfl⟩))
    simp [List.nodup_append, h, hj]

/-- Everything in an sInsert result was there or is the inserted id. -/
theorem mem_sInsert {st : GraphState} {ids : List Nat} {j id : Nat}
    (h : id ∈ sInsert st ids j) : id ∈ ids ∨ id = j := by
  unfold sInsert at h
  by_cases hm : sMember st ids (sLit st j) = true
  · rw [if_pos hm] at h
    exact Or.inl h
  · rw [if_neg hm] at h
    rcases List.mem_append.mp h with h | h
    · exact Or.inl h
    · exact Or.inr (List.mem_singleton.mp h)

/-- The literal set after an sInsert. -/
theorem litsOf_sInsert {st : GraphState} {ids : List Nat} {j : Nat} {l : Lit} :
    l ∈ litsOf st (sInsert st ids j) ↔ l ∈ litsOf st ids ∨ l = sLit st j := by
  unfold sInsert
  by_cases hm : sMember st ids (sLit st j) = true
  · rw [if_pos hm]
    constructor
    · exact Or.inl
    · rintro (h | rfl)
      · exact h
      · exact sMember_iff.mp hm
  · rw [if_neg hm]
    unfold litsOf
    rw [List.map_append]
    simp [litsOf]

/-- sInsert only looks at literal values, so it transfers along literal-
preserving state changes. -/
theorem sInsert_congr {st2 st : GraphState} {ids : List Nat} {j : Nat}
    (h : ∀ k, sLit st2 k = sLit st k) : sInsert st2 ids j = sInsert st ids j := by
  unfold sInsert
  rw [h j, sMember_congr fun k _ => h k]

/-- The inner effnode loop of `literalStep`: children edits only, and the
collected set accumulates exactly the literal values of the scanned ids. -/
theorem literal_inner {aid : Nat} {es : List Nat} :
    ∀ {st0 st1 : GraphState} {ids : List Nat}, achShape st0 st1 → ids.Nodup →
      achShape st0 (es.foldl
        (fun acc2 eid =>
          let st := acc2.1
          let n := aNodeAt st aid
          let st2 := setANode st aid { n with children := sInsert st n.children eid }
          (st2, sInsert st2 acc2.2 eid))
        (st1, ids)).1 ∧
      (es.foldl
        (fun acc2 eid =>
          let st := acc2.1
          let n := aNodeAt st aid
          let st2 := setANode st aid { n with children := sInsert st n.children eid }
          (st2, sInsert st2 acc2.2 eid))
        (st1, ids)).2.Nodup ∧
      (∀ id ∈ (es.foldl
        (fun acc2 eid =>
          let st := acc2.1
          let n := aNodeAt st aid
          let st2 := setANode st aid { n with children := sInsert st n.children eid }
          (st2, sInsert st2 acc2.2 eid))
        (st1, ids)).2, id ∈ ids ∨ id ∈ es) ∧
      (∀ l : Lit, l ∈ litsOf st0 (es.foldl
        (fun acc2 eid =>
          let st := acc2.1
          let n := aNodeAt st aid
          let st2 := setANode st aid { n with children := sInsert st n.children eid }
          (st2, sInsert st2 acc2.2 eid))
        (st1, ids)).2 ↔ l ∈ litsOf st0 ids ∨ l ∈ litsOf st0 es) := by
  induction es with
  | nil =>
    intro st0 st1 ids hsh hnd
    refine ⟨hsh, hnd, fun id hid => Or.inl hid, fun l => ?_⟩
    simp [litsOf]
  | cons e es ih =>
    intro st0 st1 ids hsh hnd
    rw [List.foldl_cons]
    have hsh2 : achShape st0 (setANode st1 aid
        { aNodeAt st1 aid with
          children := sInsert st1 (aNodeAt st1 aid).children e }) :=
      achShape_trans hsh achShape_setChildren
    have hslit2 : ∀ k, sLit (setANode st1 aid
        { aNodeAt st1 aid with
          children := sInsert st1 (aNodeAt st1 aid).children e }) k = sLit st0 k :=
      sLit_achShape hsh2
    have hins : sInsert (setANode st1 aid
        { aNodeAt st1 aid with
          children := sInsert st1 (aNodeAt st1 aid).children e }) ids e =
        sInsert st0 ids e := sInsert_congr hslit2
    have hnd2 : (sInsert (setANode st1 aid
        { aNodeAt st1 aid with
          children := sInsert st1 (aNodeAt st1 aid).children e }) ids e).Nodup := by
      rw [hins]
      exact sInsert_nodup hnd
    have hrec := ih hsh2 hnd2
    refine ⟨hrec.1, hrec.2.1, ?_, ?_⟩
    · intro id hid
      rcases hrec.2.2.1 id hid with hid2 | hid2
      · rw [hins] at hid2
        rcases mem_sInsert hid2 with h | rfl
        · exact Or.inl h
        · exact Or.inr (List.mem_cons_self _ _)
      · exact Or.inr (List.mem_cons_of_mem e hid2)
    · intro l
      rw [hrec.2.2.2 l, hins, litsOf_sInsert]
      show _ ∨ _ ∈ litsOf st0 es ↔ _ ∨ _ ∈ List.map (sLit st0) (e :: es)
      rw [List.map_cons]
      simp only [List.mem_cons, litsOf]
      constructor
      · rintro ((h | h) | h)
        · exact Or.inl h
        · exact Or.inr (Or.inl h)
        · exact Or.inr (Or.inr h)
      · rintro (h | (h | h))
        · exact Or.inl (Or.inl h)
        · exact Or.inl (Or.inr h)
        · exact Or.inr h

/-- The first loop of `add_literal_level` as a whole: children edits only, and
the collected new layer carries exactly the effect-node literal values of the
scanned action layer. -/
theorem literal_fold {lvl : List Nat} :
    ∀ {st0 st1 : GraphState} {ids : List Nat}, achShape st0 st1 → ids.Nodup →
      achShape st0 (lvl.foldl literalStep (st1, ids)).1 ∧
      (lvl.foldl literalStep (st1, ids)).2.Nodup ∧
      (∀ id ∈ (lvl.foldl literalStep (st1, ids)).2,
        id ∈ ids ∨ ∃ a ∈ lvl, id ∈ (aNodeAt st0 a).effnodes) ∧
      (∀ l : Lit, l ∈ litsOf st0 (lvl.foldl literalStep (st1, ids)).2 ↔
        l ∈ litsOf st0 ids ∨ ∃ a ∈ lvl, l ∈ litsOf st0 (aNodeAt st0 a).effnodes) := by
  induction lvl with
  | nil =>
    intro st0 st1 ids hsh hnd
    refine ⟨hsh, hnd, fun id hid => Or.inl hid, fun l => ?_⟩
    simp
  | cons aid lvl ih =>
    intro st0 st1 ids hsh hnd
    rw [List.foldl_cons]
    have heff : (aNodeAt st1 aid).effnodes = (aNodeAt st0 aid).effnodes :=
      (hsh.2.2.2.2.2 aid).2.2.1
    have hinner := @literal_inner aid (aNodeAt st1 aid).effnodes st0 st1 ids hsh hnd
    rw [show literalStep (st1, ids) aid =
      ((aNodeAt st1 aid).effnodes.foldl
        (fun acc2 eid =>
          let st := acc2.1
          let n := aNodeAt st aid
          let st2 := setANode st aid { n with children := sInsert st n.children eid }
          (st2, sInsert st2 acc2.2 eid))
        (st1, ids)) from rfl]
    obtain ⟨i1, i2, i3, i4⟩ := hinner
    have hrec := ih i1 i2
    refine ⟨hrec.1, hrec.2.1, ?_, ?_⟩
    · intro id hid
      rcases hrec.2.2.1 id hid with hid2 | ⟨a, ha, hid2⟩
      · rcases i3 id hid2 with h | h
        · exact Or.inl h
        · exact Or.inr ⟨aid, List.mem_cons_self _ _, heff ▸ h⟩
      · exact Or.inr ⟨a, List.mem_cons_of_mem aid ha, hid2⟩
    · intro l
      rw [hrec.2.2.2 l]
      constructor
      · rintro (h | ⟨a, ha, h⟩)
        · rcases (i4 l).mp h with h2 | h2
          · exact Or.inl h2
          · exact Or.inr ⟨aid, List.mem_cons_self _ _, by rw [heff] at h2; exact h2⟩
        · exact Or.inr ⟨a, List.mem_cons_of_mem aid ha, h⟩
      · rintro (h | ⟨a, ha, h⟩)
        · exact Or.inl ((i4 l).mpr (Or.inl h))
        · rcases List.mem_cons.mp ha with rfl | ha2
          · exact Or.inl ((i4 l).mpr (Or.inr (heff ▸ h)))
          · exact Or.inr ⟨a, ha2, h⟩

/-- One `parentStep` pass only edits fact-node parents. -/
theorem sparShape_parentStep {lvl : List Nat} :
    ∀ {st : GraphState} {nid : Nat}, sparShape st (parentStep lvl st nid) := by
  unfold parentStep
  induction lvl with
  | nil => intro st nid; exact sparShape_refl
  | cons aid lvl ih =>
    intro st nid
    rw [List.foldl_cons]
    refine sparShape_trans ?_ ih
    by_cases hc : sMember st (aNodeAt st aid).effnodes (sLit st nid) = true
    · rw [if_pos hc]
      exact sparShape_setSParents
    · rw [if_neg hc]
      exact sparShape_refl

/-- The second loop of `add_literal_level` only edits fact-node parents. -/
theorem sparShape_parent_fold {nids : List Nat} {lvl : List Nat} :
    ∀ {st : GraphState}, sparShape st (nids.foldl (parentStep lvl) st) := by
  induction nids with
  | nil => intro st; exact sparShape_refl
  | cons nid nids ih =>
    intro st
    rw [List.foldl_cons]
    exact sparShape_trans sparShape_parentStep ih

/-- Appending a fact layer of valid, duplicate-free ids disjoint from all
prenode objects preserves the structural invariant. -/
theorem inv_append_slevel {st : GraphState} {newl : List Nat} (hinv : Inv st)
    (hval : ∀ id ∈ newl, id < st.snodes.length) (hnd : newl.Nodup)
    (hpre : ∀ n ∈ st.anodes, ∀ p ∈ n.prenodes, p ∉ newl) :
    Inv { st with s_levels := st.s_levels ++ [newl] } := by
  refine ⟨?_, hinv.alev, ?_, hinv.alevnd, hinv.mids, hinv.apre, hinv.aeff,
    hinv.apreLits, hinv.aeffLits, hinv.apers, hinv.aparents, hinv.alevparents,
    hinv.prefresh, ?_, hinv.preeff⟩
  · intro l hl
    simp only [List.mem_append, List.mem_singleton] at hl
    rcases hl with hl | rfl
    · exact hinv.slev l hl
    · exact hval
  · intro l hl
    simp only [List.mem_append, List.mem_singleton] at hl
    rcases hl with hl | rfl
    · exact hinv.slevnd l hl
    · exact hnd
  · intro n hn p hp l hl
    simp only [List.mem_append, List.mem_singleton] at hl
    rcases hl with hl | rfl
    · exact hinv.prelev n hn p hp l hl
    · exact hpre n hn p hp


/-- `add_literal_level`, fully characterized: the state is extended, one fact
layer is appended whose ids are drawn (duplicate-free) from the effect nodes
of the previous action layer, and whose literal values are exactly the effect
literal values of that layer's action nodes. -/
theorem add_literal_level_spec {st : GraphState} {lv : Nat} (hinv : Inv st) :
    Inv (add_literal_level st lv) ∧
      SExt st (add_literal_level st lv) ∧
      (add_literal_level st lv).a_levels = st.a_levels ∧
      (add_literal_level st lv).anodes.length = st.anodes.length ∧
      (add_literal_level st lv).snodes.length = st.snodes.length ∧
      (∀ ids, litsOf (add_literal_level st lv) ids = litsOf st ids) ∧
      ∃ newl, (add_literal_level st lv).s_levels = st.s_levels ++ [newl] ∧
        newl.Nodup ∧
        (∀ id ∈ newl, ∃ a ∈ st.a_levels.getD (lv - 1) [],
          id ∈ (aNodeAt st a).effnodes) ∧
        (∀ l : Lit, l ∈ litsOf st newl ↔
          ∃ a ∈ st.a_levels.getD (lv - 1) [], l ∈ litsOf st (aNodeAt st a).effnodes) := by
  obtain ⟨f1, f2, f3, f4⟩ :=
    @literal_fold (st.a_levels.getD (lv - 1) []) st st [] achShape_refl List.nodup_nil
  have hspar : sparShape ((st.a_levels.getD (lv - 1) []).foldl literalStep (st, [])).1 (((st.a_levels.getD (lv - 1) []).foldl literalStep (st, [])).2.foldl (parentStep (st.a_levels.getD (lv - 1) [])) ((st.a_levels.getD (lv - 1) []).foldl literalStep (st, [])).1) := sparShape_parent_fold
  have hshape : add_literal_level st lv =
      { (((st.a_levels.getD (lv - 1) []).foldl literalStep (st, [])).2.foldl (parentStep (st.a_levels.getD (lv - 1) [])) ((st.a_levels.getD (lv - 1) []).foldl literalStep (st, [])).1) with s_levels := (((st.a_levels.getD (lv - 1) []).foldl literalStep (st, [])).2.foldl (parentStep (st.a_levels.getD (lv - 1) [])) ((st.a_levels.getD (lv - 1) []).foldl literalStep (st, [])).1).s_levels ++ [((st.a_levels.getD (lv - 1) []).foldl literalStep (st, [])).2] } := rfl
  have hinv2 : Inv (((st.a_levels.getD (lv - 1) []).foldl literalStep (st, [])).2.foldl (parentStep (st.a_levels.getD (lv - 1) [])) ((st.a_levels.getD (lv - 1) []).foldl literalStep (st, [])).1) := inv_sparShape hspar (inv_achShape f1 hinv)
  have hsl2 : ∀ k, sLit (((st.a_levels.getD (lv - 1) []).foldl literalStep (st, [])).2.foldl (parentStep (st.a_levels.getD (lv - 1) [])) ((st.a_levels.getD (lv - 1) []).foldl literalStep (st, [])).1) k = sLit st k :=
    fun k => (sLit_sparShape hspar k).trans (sLit_achShape f1 k)
  have hsn2 : (((st.a_levels.getD (lv - 1) []).foldl literalStep (st, [])).2.foldl (parentStep (st.a_levels.getD (lv - 1) [])) ((st.a_levels.getD (lv - 1) []).foldl literalStep (st, [])).1).snodes.length = st.snodes.length := by
    rw [hspar.2.1, f1.1]
  have han2 : (((st.a_levels.getD (lv - 1) []).foldl literalStep (st, [])).2.foldl (parentStep (st.a_levels.getD (lv - 1) [])) ((st.a_levels.getD (lv - 1) []).foldl literalStep (st, [])).1).anodes.length = st.anodes.length := by
    rw [hspar.1]
    exact f1.2.1
  have hslev2 : (((st.a_levels.getD (lv - 1) []).foldl literalStep (st, [])).2.foldl (parentStep (st.a_levels.getD (lv - 1) [])) ((st.a_levels.getD (lv - 1) []).foldl literalStep (st, [])).1).s_levels = st.s_levels := hspar.2.2.1.trans f1.2.2.1
  have hmemlvl : ∀ a ∈ st.a_levels.getD (lv - 1) [], aNodeAt st a ∈ st.anodes :=
    fun a ha => aNodeAt_mem (alev_getD hinv a ha)
  have hval : ∀ id ∈ ((st.a_levels.getD (lv - 1) []).foldl literalStep (st, [])).2, id < st.snodes.length := by
    intro id hid
    rcases f3 id hid with h | ⟨a, ha, hid2⟩
    · exact absurd h (List.not_mem_nil id)
    · exact hinv.aeff (aNodeAt st a) (hmemlvl a ha) id hid2
  have hpre : ∀ n ∈ (((st.a_levels.getD (lv - 1) []).foldl literalStep (st, [])).2.foldl (parentStep (st.a_levels.getD (lv - 1) [])) ((st.a_levels.getD (lv - 1) []).foldl literalStep (st, [])).1).anodes, ∀ p ∈ n.prenodes, p ∉ ((st.a_levels.getD (lv - 1) []).foldl literalStep (st, [])).2 := by
    intro n hn p hp hpin
    rw [hspar.1] at hn
    obtain ⟨k, hk, rfl⟩ := mem_anodes_index hn
    have hpren : (aNodeAt ((st.a_levels.getD (lv - 1) []).foldl literalStep (st, [])).1 k).prenodes = (aNodeAt st k).prenodes :=
      (f1.2.2.2.2.2 k).2.1
    have hkmem : aNodeAt st k ∈ st.anodes := aNodeAt_mem (f1.2.1 ▸ hk)
    rcases f3 p hpin with h | ⟨a, ha, hpe⟩
    · exact absurd h (List.not_mem_nil p)
    · exact hinv.preeff (aNodeAt st k) hkmem p (hpren ▸ hp)
        (aNodeAt st a) (hmemlvl a ha) hpe
  refine ⟨?_, ?_, ?_, ?_, ?_, ?_, ⟨((st.a_levels.getD (lv - 1) []).foldl literalStep (st, [])).2, ?_, f2, ?_, ?_⟩⟩
  · rw [hshape]
    exact inv_append_slevel hinv2 (fun id hid => hsn2 ▸ hval id hid) f2 hpre
  · rw [hshape]
    exact sext_trans (sext_achShape f1) (sext_trans (sext_sparShape hspar) sext_append_slevel)
  · rw [hshape]
    show (((st.a_levels.getD (lv - 1) []).foldl literalStep (st, [])).2.foldl (parentStep (st.a_levels.getD (lv - 1) [])) ((st.a_levels.getD (lv - 1) []).foldl literalStep (st, [])).1).a_levels = st.a_levels
    exact hspar.2.2.2.1.trans f1.2.2.2.1
  · rw [hshape]
    show (((st.a_levels.getD (lv - 1) []).foldl literalStep (st, [])).2.foldl (parentStep (st.a_levels.getD (lv - 1) [])) ((st.a_levels.getD (lv - 1) []).foldl literalStep (st, [])).1).anodes.length = st.anodes.length
    exact han2
  · rw [hshape]
    show (((st.a_levels.getD (lv - 1) []).foldl literalStep (st, [])).2.foldl (parentStep (st.a_levels.getD (lv - 1) [])) ((st.a_levels.getD (lv - 1) []).foldl literalStep (st, [])).1).snodes.length = st.snodes.length
    exact hsn2
  · intro ids
    rw [hshape]
    refine (List.map_congr_left fun k _ => ?_).trans
      (List.map_congr_left fun k _ => hsl2 k)
    exact sLit_eq_of_snodes rfl k
  · rw [hshape]
    show (((st.a_levels.getD (lv - 1) []).foldl literalStep (st, [])).2.foldl (parentStep (st.a_levels.getD (lv - 1) [])) ((st.a_levels.getD (lv - 1) []).foldl literalStep (st, [])).1).s_levels ++ [((st.a_levels.getD (lv - 1) []).foldl literalStep (st, [])).2] = st.s_levels ++ [((st.a_levels.getD (lv - 1) []).foldl literalStep (st, [])).2]
    rw [hslev2]
  · intro id hid
    rcases f3 id hid with h | h
    · exact absurd h (List.not_mem_nil id)
    · exact h
  · intro l
    rw [f4 l]
    constructor
    · rintro (h | h)
      · exact absurd h (by simp [litsOf])
      · exact h
    · exact Or.inr


/-- mutexify_ss preserves every fact literal. -/
theorem sLit_mutexify_ss {st : GraphState} {i j : Nat} :
    ∀ k, sLit (mutexify_ss st i j) k = sLit st k := by
  intro k
  unfold mutexify_ss
  rw [sLit_addSMutex, sLit_addSMutex]

/-- update_s_pair preserves every fact literal. -/
theorem sLit_update_s_pair {st : GraphState} {i j : Nat} :
    ∀ k, sLit (update_s_pair st i j) k = sLit st k := by
  intro k
  unfold update_s_pair
  by_cases ht : (negation_mutex st i j || inconsistent_support_mutex st i j) = true
  · rw [if_pos ht, sLit_mutexify_ss]
  · rw [if_neg ht]

/-- The negation test is a function of the two literal values only. -/
theorem negation_stable {st2 st : GraphState} {i j : Nat}
    (h : ∀ k, sLit st2 k = sLit st k) :
    negation_mutex st2 i j = negation_mutex st i j := by
  have hsym : ∀ k, (sNodeAt st2 k).symbol = (sNodeAt st k).symbol :=
    fun k => congrArg Lit.symbol (h k)
  have hpos : ∀ k, (sNodeAt st2 k).is_pos = (sNodeAt st k).is_pos :=
    fun k => congrArg Lit.is_pos (h k)
  unfold negation_mutex
  rw [hsym i, hsym j, hpos i, hpos j]

/-- The shape fields untouched by update_s_pair. -/
theorem update_s_pair_shape {st : GraphState} {i j : Nat} :
    (update_s_pair st i j).anodes = st.anodes ∧
      (update_s_pair st i j).snodes.length = st.snodes.length ∧
      (update_s_pair st i j).s_levels = st.s_levels ∧
      (update_s_pair st i j).a_levels = st.a_levels ∧
      (update_s_pair st i j).serial = st.serial := by
  unfold update_s_pair
  by_cases ht : (negation_mutex st i j || inconsistent_support_mutex st i j) = true
  · rw [if_pos ht]; exact mutexify_ss_shape
  · rw [if_neg ht]; exact ⟨rfl, rfl, rfl, rfl, rfl⟩

/-- One update_s_pair step preserves the structural invariant. -/
theorem inv_update_s_pair {st : GraphState} {i j : Nat} {levi levj : List Nat}
    (hinv : Inv st) (hi : i < st.snodes.length) (hj : j < st.snodes.length)
    (hlevi : levi ∈ st.s_levels) (hii : i ∈ levi)
    (hlevj : levj ∈ st.s_levels) (hjj : j ∈ levj) :
    Inv (update_s_pair st i j) := by
  unfold update_s_pair
  by_cases ht : (negation_mutex st i j || inconsistent_support_mutex st i j) = true
  · rw [if_pos ht]; exact inv_mutexify_ss hinv hi hj hlevi hii hlevj hjj
  · rw [if_neg ht]; exact hinv

/-- One update_s_pair step only extends the state. -/
theorem sext_update_s_pair {st : GraphState} {i j : Nat} {levi : List Nat}
    (hinv : Inv st) (hi : i < st.snodes.length) (hj : j < st.snodes.length)
    (hlevi : levi ∈ st.s_levels) (hii : i ∈ levi) :
    SExt st (update_s_pair st i j) := by
  unfold update_s_pair
  by_cases ht : (negation_mutex st i j || inconsistent_support_mutex st i j) = true
  · rw [if_pos ht]; exact sext_mutexify_ss hinv hi hj hlevi hii
  · rw [if_neg ht]; exact sext_refl

/-- When either fact test fires, update_s_pair makes the pair mutex both
ways. -/
theorem update_s_pair_mutex_of_test {st : GraphState} {i j : Nat}
    (hi : i < st.snodes.length) (hj : j < st.snodes.length)
    (ht : (negation_mutex st i j || inconsistent_support_mutex st i j) = true) :
    is_mutex_s (update_s_pair st i j) i j = true ∧
      is_mutex_s (update_s_pair st i j) j i = true := by
  unfold update_s_pair
  rw [if_pos ht]
  exact mutexify_ss_both hi hj

/-- The inner row fold of processPairs for fact pairs: invariant, extension,
shape and literal preservation, for ids drawn from one fact layer. -/
theorem row_s_spec {rest : List Nat} :
    ∀ {st : GraphState} {i : Nat} {lev : List Nat}, Inv st →
      lev ∈ st.s_levels → i ∈ lev → (∀ k ∈ rest, k ∈ lev) →
      Inv (rest.foldl (fun s n2 => update_s_pair s i n2) st) ∧
        SExt st (rest.foldl (fun s n2 => update_s_pair s i n2) st) ∧
        (rest.foldl (fun s n2 => update_s_pair s i n2) st).anodes = st.anodes ∧
        (rest.foldl (fun s n2 => update_s_pair s i n2) st).snodes.length =
          st.snodes.length ∧
        (rest.foldl (fun s n2 => update_s_pair s i n2) st).s_levels = st.s_levels ∧
        (rest.foldl (fun s n2 => update_s_pair s i n2) st).a_levels = st.a_levels ∧
        (∀ k, sLit (rest.foldl (fun s n2 => update_s_pair s i n2) st) k = sLit st k) := by
  induction rest with
  | nil => exact fun hinv _ _ _ => ⟨hinv, sext_refl, rfl, rfl, rfl, rfl, fun _ => rfl⟩
  | cons k rest ih =>
    intro st i lev hinv hlev hilev hks
    have hklev : k ∈ lev := hks k (List.mem_cons_self k rest)
    have hi : i < st.snodes.length := hinv.slev lev hlev i hilev
    have hk : k < st.snodes.length := hinv.slev lev hlev k hklev
    have h1 := inv_update_s_pair hinv hi hk hlev hilev hlev hklev
    have hsh := @update_s_pair_shape st i k
    have h2 := sext_update_s_pair hinv hi hk hlev hilev
    have hrec := ih h1 (hsh.2.2.1 ▸ hlev) hilev (fun m hm => hks m (List.mem_cons_of_mem k hm))
    rw [List.foldl_cons]
    exact ⟨hrec.1, sext_trans h2 hrec.2.1, hrec.2.2.1.trans hsh.1,
      hrec.2.2.2.1.trans hsh.2.1, hrec.2.2.2.2.1.trans hsh.2.2.1,
      hrec.2.2.2.2.2.1.trans hsh.2.2.2.1,
      fun m => (hrec.2.2.2.2.2.2 m).trans (sLit_update_s_pair m)⟩

/-- processPairs over update_s_pair: invariant, extension, shape and literal
preservation. -/
theorem update_s_mutex_spec {ids : List Nat} :
    ∀ {st : GraphState} {lev : List Nat}, Inv st →
      lev ∈ st.s_levels → (∀ k ∈ ids, k ∈ lev) →
      Inv (update_s_mutex st ids) ∧ SExt st (update_s_mutex st ids) ∧
        (update_s_mutex st ids).anodes = st.anodes ∧
        (update_s_mutex st ids).snodes.length = st.snodes.length ∧
        (update_s_mutex st ids).s_levels = st.s_levels ∧
        (update_s_mutex st ids).a_levels = st.a_levels ∧
        (∀ k, sLit (update_s_mutex st ids) k = sLit st k) := by
  induction ids with
  | nil => exact fun hinv _ _ => ⟨hinv, sext_refl, rfl, rfl, rfl, rfl, fun _ => rfl⟩
  | cons n1 rest ih =>
    intro st lev hinv hlev hks
    have hn1 : n1 ∈ lev := hks n1 (List.mem_cons_self n1 rest)
    have hrow := row_s_spec hinv hlev hn1 (fun m hm => hks m (List.mem_cons_of_mem n1 hm))
    have hrec := ih hrow.1 (hrow.2.2.2.2.1 ▸ hlev)
      (fun m hm => hks m (List.mem_cons_of_mem n1 hm))
    show (Inv (update_s_mutex (rest.foldl (fun s n2 => update_s_pair s n1 n2) st) rest) ∧ _)
    exact ⟨hrec.1, sext_trans hrow.2.1 hrec.2.1, hrec.2.2.1.trans hrow.2.2.1,
      hrec.2.2.2.1.trans hrow.2.2.2.1, hrec.2.2.2.2.1.trans hrow.2.2.2.2.1,
      hrec.2.2.2.2.2.1.trans hrow.2.2.2.2.2.1,
      fun m => (hrec.2.2.2.2.2.2 m).trans (hrow.2.2.2.2.2.2 m)⟩

/-- After the inner row fold for head id i, any later id j of the row with a
true negation test is mutex with i in both directions. -/
theorem row_s_establish {rest : List Nat} :
    ∀ {st : GraphState} {i j : Nat} {lev : List Nat}, Inv st →
      lev ∈ st.s_levels → i ∈ lev → (∀ k ∈ rest, k ∈ lev) → j ∈ rest →
      negation_mutex st i j = true →
      is_mutex_s (rest.foldl (fun s n2 => update_s_pair s i n2) st) i j = true ∧
        is_mutex_s (rest.foldl (fun s n2 => update_s_pair s i n2) st) j i = true := by
  induction rest with
  | nil => intro _ _ _ _ _ _ _ _ hj _; exact absurd hj (List.not_mem_nil _)
  | cons k rest ih =>
    intro st i j lev hinv hlev hilev hks hj hneg
    have hklev : k ∈ lev := hks k (List.mem_cons_self k rest)
    have hi : i < st.snodes.length := hinv.slev lev hlev i hilev
    have hk : k < st.snodes.length := hinv.slev lev hlev k hklev
    have hsh := @update_s_pair_shape st i k
    have h1 := inv_update_s_pair hinv hi hk hlev hilev hlev hklev
    rw [List.foldl_cons]
    rcases List.mem_cons.mp hj with rfl | hj2
    · have ht : (negation_mutex st i j || inconsistent_support_mutex st i j) = true := by
        rw [hneg]
        simp
      have hest := update_s_pair_mutex_of_test hi hk ht
      have hrow := row_s_spec h1 (hsh.2.2.1 ▸ hlev) hilev
        (fun m hm => hks m (List.mem_cons_of_mem j hm))
      constructor
      · exact hrow.2.1.smut i j (hsh.2.1 ▸ hk) hest.1
      · exact hrow.2.1.smut j i (hsh.2.1 ▸ hi) hest.2
    · refine ih h1 (hsh.2.2.1 ▸ hlev) hilev
        (fun m hm => hks m (List.mem_cons_of_mem k hm)) hj2 ?_
      rw [negation_stable sLit_update_s_pair]
      exact hneg

/-- After update_s_mutex over a row of layer ids, any two distinct ids with a
true negation test end mutex in both directions. -/
theorem update_s_mutex_establish {ids : List Nat} :
    ∀ {st : GraphState} {i j : Nat} {lev : List Nat}, Inv st →
      lev ∈ st.s_levels → (∀ k ∈ ids, k ∈ lev) →
      i ∈ ids → j ∈ ids → i ≠ j → negation_mutex st i j = true →
      is_mutex_s (update_s_mutex st ids) i j = true ∧
        is_mutex_s (update_s_mutex st ids) j i = true := by
  induction ids with
  | nil => intro _ _ _ _ _ _ _ hi _ _ _; exact absurd hi (List.not_mem_nil _)
  | cons n1 rest ih =>
    intro st i j lev hinv hlev hks hi hj hij hneg
    have hn1 : n1 ∈ lev := hks n1 (List.mem_cons_self n1 rest)
    have hrest : ∀ k ∈ rest, k ∈ lev := fun m hm => hks m (List.mem_cons_of_mem n1 hm)
    have hrow := row_s_spec hinv hlev hn1 hrest
    have hiv : i < st.snodes.length := hinv.slev lev hlev i (hks i hi)
    have hjv : j < st.snodes.length := hinv.slev lev hlev j (hks j hj)
    show is_mutex_s (update_s_mutex (rest.foldl (fun s n2 => update_s_pair s n1 n2) st) rest) i j = true ∧ _
    rcases List.mem_cons.mp hi with rfl | hi2
    · have hj2 : j ∈ rest := by
        rcases List.mem_cons.mp hj with rfl | hj2
        · exact absurd rfl hij
        · exact hj2
      have hest := row_s_establish hinv hlev hn1 hrest hj2 hneg
      have hspec := update_s_mutex_spec hrow.1 (hrow.2.2.2.2.1 ▸ hlev) hrest
      constructor
      · exact hspec.2.1.smut i j (hrow.2.2.2.1 ▸ hjv) hest.1
      · exact hspec.2.1.smut j i (hrow.2.2.2.1 ▸ hiv) hest.2
    · rcases List.mem_cons.mp hj with rfl | hj2
      · have hnegs : negation_mutex st j i = true := by
          unfold negation_mutex at hneg ⊢
          simp only [Bool.and_eq_true, Bool.or_eq_true, decide_eq_true_eq] at hneg ⊢
          refine ⟨hneg.1.symm, ?_⟩
          rcases hneg.2 with ⟨h1, h2⟩ | ⟨h1, h2⟩
          · exact Or.inr ⟨h2, h1⟩
          · exact Or.inl ⟨h2, h1⟩
        have hest := row_s_establish hinv hlev hn1 hrest hi2 hnegs
        have hspec := update_s_mutex_spec hrow.1 (hrow.2.2.2.2.1 ▸ hlev) hrest
        constructor
        · exact hspec.2.1.smut i j (hrow.2.2.2.1 ▸ hjv) hest.2
        · exact hspec.2.1.smut j i (hrow.2.2.2.1 ▸ hiv) hest.1
      · refine ih hrow.1 (hrow.2.2.2.2.1 ▸ hlev) hrest hi2 hj2 hij ?_
        rw [negation_stable hrow.2.2.2.2.2.2]
        exact hneg


/-- Reading the appended element of a snoc list. -/
theorem getD_snoc_self {α : Type} {xs : List α} {y d : α} :
    (xs ++ [y]).getD xs.length d = y := by
  rw [List.getD_eq_getElem?_getD, List.getElem?_append_right (Nat.le_refl _)]
  simp

/-- Reading before the appended element of a snoc list. -/
theorem getD_snoc_lt {α : Type} {xs : List α} {y d : α} {k : Nat}
    (h : k < xs.length) : (xs ++ [y]).getD k d = xs.getD k d := by
  rw [List.getD_eq_getElem?_getD, List.getElem?_append_left h, ← List.getD_eq_getElem?_getD]

/-- Reading past the end of a snoc list. -/
theorem getD_snoc_gt {α : Type} {xs : List α} {y d : α} {k : Nat}
    (h : xs.length + 1 ≤ k) : (xs ++ [y]).getD k d = d := by
  rw [List.getD_eq_getElem?_getD, List.getElem?_eq_none (by simp; omega)]
  rfl

/-- Membership in the effect-literal union underlying nextLits. -/
theorem mem_eff_foldr {la : List PAction} {l : Lit} :
    l ∈ la.foldr (fun a acc => effLits a ++ acc) [] ↔ ∃ a ∈ la, l ∈ effLits a := by
  induction la with
  | nil => simp
  | cons a la ih =>
    simp only [List.foldr_cons, List.mem_append, ih, List.mem_cons]
    constructor
    · rintro (h | ⟨a2, ha2, h⟩)
      · exact ⟨a, Or.inl rfl, h⟩
      · exact ⟨a2, Or.inr ha2, h⟩
    · rintro ⟨a2, ha2 | ha2, h⟩
      · exact Or.inl (ha2 ▸ h)
      · exact Or.inr ⟨a2, ha2, h⟩

/-- Membership in the value-level next-layer literal set. -/
theorem mem_nextLits {pa : List PAction} {lits : List Lit} {l : Lit} :
    l ∈ nextLits pa lits ↔ ∃ a ∈ pa, admissibleB a lits = true ∧ l ∈ effLits a := by
  unfold nextLits
  rw [mem_dedupLits, mem_eff_foldr]
  constructor
  · rintro ⟨a, ha, h⟩
    rw [List.mem_filter] at ha
    exact ⟨a, ha.1, ha.2, h⟩
  · rintro ⟨a, ha, hadm, h⟩
    exact ⟨a, List.mem_filter.mpr ⟨ha, hadm⟩, h⟩

/-- The negation test is a function of the two touched literal values. -/
theorem negation_pointwise {st2 st : GraphState} {i j : Nat}
    (hi : sLit st2 i = sLit st i) (hj : sLit st2 j = sLit st j) :
    negation_mutex st2 i j = negation_mutex st i j := by
  show (decide ((sLit st2 i).symbol = (sLit st2 j).symbol) &&
      ((sLit st2 i).is_pos && !(sLit st2 j).is_pos ||
        !(sLit st2 i).is_pos && (sLit st2 j).is_pos)) =
    (decide ((sLit st i).symbol = (sLit st j).symbol) &&
      ((sLit st i).is_pos && !(sLit st j).is_pos ||
        !(sLit st i).is_pos && (sLit st j).is_pos))
  rw [hi, hj]

/-- The negation test never holds of a node and itself. -/
theorem negation_irrefl {st : GraphState} {i j : Nat}
    (h : negation_mutex st i j = true) : i ≠ j := by
  intro hij
  subst hij
  unfold negation_mutex at h
  simp only [Bool.and_eq_true, Bool.or_eq_true] at h
  rcases h.2 with ⟨h1, h2⟩ | ⟨h1, h2⟩
  · rw [h1] at h2
    simp at h2
  · rw [h2] at h1
    simp at h1


/-- One `while` round of `create_graph`, fully characterized: the round
invariant is preserved, the state is extended, one action layer and one fact
layer are appended, and the new fact layer's literal set is the value-level
`nextLits` image of the previous fact layer's literal set. -/
theorem buildRound_spec {pa : List PAction} {st : GraphState}
    (hr : RInv st) (hndn : (pa.map PAction.name).Nodup) :
    RInv (buildRound pa st) ∧ SExt st (buildRound pa st) ∧
      (buildRound pa st).a_levels.length = st.a_levels.length + 1 ∧
      ∃ newl, (buildRound pa st).s_levels = st.s_levels ++ [newl] ∧
        (∀ l : Lit, l ∈ litsOf (buildRound pa st) newl ↔
          l ∈ nextLits pa (litsOf st (st.s_levels.getD st.a_levels.length []))) := by
  obtain ⟨a1, a2, a3, a4, a5, a6⟩ := @add_action_level_spec st pa st.a_levels.length hr.inv hndn
  have hlayer : ((add_action_level st pa st.a_levels.length).a_levels.getD st.a_levels.length []) = (pa.foldl (add_action_step st.a_levels.length) (st, [])).2 := by
    rw [a4]
    exact getD_snoc_self
  have hval1 : ∀ k ∈ ((add_action_level st pa st.a_levels.length).a_levels.getD st.a_levels.length []), k < (add_action_level st pa st.a_levels.length).anodes.length := by
    intro k hk
    rw [hlayer] at hk
    exact a6 k hk
  obtain ⟨b1, b2, b3, b4, b5, b6⟩ := @update_a_mutex_spec ((add_action_level st pa st.a_levels.length).a_levels.getD st.a_levels.length []) (add_action_level st pa st.a_levels.length) a1 hval1
  obtain ⟨c1, c2, c3, c4, c5, c6, newl, c7, c8, c9, c10⟩ :=
    @add_literal_level_spec (update_a_mutex (add_action_level st pa st.a_levels.length) ((add_action_level st pa st.a_levels.length).a_levels.getD st.a_levels.length [])) (st.a_levels.length + 1) b1
  have hS2slev : (update_a_mutex (add_action_level st pa st.a_levels.length) ((add_action_level st pa st.a_levels.length).a_levels.getD st.a_levels.length [])).s_levels = st.s_levels := b5.trans a3
  have hsrow : ((add_literal_level (update_a_mutex (add_action_level st pa st.a_levels.length) ((add_action_level st pa st.a_levels.length).a_levels.getD st.a_levels.length [])) (st.a_levels.length + 1)).s_levels.getD (st.a_levels.length + 1) []) = newl := by
    rw [c7, hS2slev, ← hr.len]
    exact getD_snoc_self
  have hnewlmem : newl ∈ (add_literal_level (update_a_mutex (add_action_level st pa st.a_levels.length) ((add_action_level st pa st.a_levels.length).a_levels.getD st.a_levels.length [])) (st.a_levels.length + 1)).s_levels := by
    rw [c7]
    exact List.mem_append_right _ (List.mem_singleton.mpr rfl)
  have hsub2 : ∀ k ∈ ((add_literal_level (update_a_mutex (add_action_level st pa st.a_levels.length) ((add_action_level st pa st.a_levels.length).a_levels.getD st.a_levels.length [])) (st.a_levels.length + 1)).s_levels.getD (st.a_levels.length + 1) []), k ∈ newl := by
    intro k hk
    rw [hsrow] at hk
    exact hk
  obtain ⟨d1, d2, d3, d4, d5, d6, d7⟩ :=
    @update_s_mutex_spec ((add_literal_level (update_a_mutex (add_action_level st pa st.a_levels.length) ((add_action_level st pa st.a_levels.length).a_levels.getD st.a_levels.length [])) (st.a_levels.length + 1)).s_levels.getD (st.a_levels.length + 1) []) (add_literal_level (update_a_mutex (add_action_level st pa st.a_levels.length) ((add_action_level st pa st.a_levels.length).a_levels.getD st.a_levels.length [])) (st.a_levels.length + 1)) newl c1 hnewlmem hsub2
  have hshape : buildRound pa st = (update_s_mutex (add_literal_level (update_a_mutex (add_action_level st pa st.a_levels.length) ((add_action_level st pa st.a_levels.length).a_levels.getD st.a_levels.length [])) (st.a_levels.length + 1)) ((add_literal_level (update_a_mutex (add_action_level st pa st.a_levels.length) ((add_action_level st pa st.a_levels.length).a_levels.getD st.a_levels.length [])) (st.a_levels.length + 1)).s_levels.getD (st.a_levels.length + 1) [])) := rfl
  have hS14 : SExt (add_action_level st pa st.a_levels.length) (update_s_mutex (add_literal_level (update_a_mutex (add_action_level st pa st.a_levels.length) ((add_action_level st pa st.a_levels.length).a_levels.getD st.a_levels.length [])) (st.a_levels.length + 1)) ((add_literal_level (update_a_mutex (add_action_level st pa st.a_levels.length) ((add_action_level st pa st.a_levels.length).a_levels.getD st.a_levels.length [])) (st.a_levels.length + 1)).s_levels.getD (st.a_levels.length + 1) [])) := sext_trans b2 (sext_trans c2 d2)
  have hS24 : SExt (update_a_mutex (add_action_level st pa st.a_levels.length) ((add_action_level st pa st.a_levels.length).a_levels.getD st.a_levels.length [])) (update_s_mutex (add_literal_level (update_a_mutex (add_action_level st pa st.a_levels.length) ((add_action_level st pa st.a_levels.length).a_levels.getD st.a_levels.length [])) (st.a_levels.length + 1)) ((add_literal_level (update_a_mutex (add_action_level st pa st.a_levels.length) ((add_action_level st pa st.a_levels.length).a_levels.getD st.a_levels.length [])) (st.a_levels.length + 1)).s_levels.getD (st.a_levels.length + 1) [])) := sext_trans c2 d2
  have hS04 : SExt st (update_s_mutex (add_literal_level (update_a_mutex (add_action_level st pa st.a_levels.length) ((add_action_level st pa st.a_levels.length).a_levels.getD st.a_levels.length [])) (st.a_levels.length + 1)) ((add_literal_level (update_a_mutex (add_action_level st pa st.a_levels.length) ((add_action_level st pa st.a_levels.length).a_levels.getD st.a_levels.length [])) (st.a_levels.length + 1)).s_levels.getD (st.a_levels.length + 1) [])) := sext_trans a2 hS14
  have halev4 : (update_s_mutex (add_literal_level (update_a_mutex (add_action_level st pa st.a_levels.length) ((add_action_level st pa st.a_levels.length).a_levels.getD st.a_levels.length [])) (st.a_levels.length + 1)) ((add_literal_level (update_a_mutex (add_action_level st pa st.a_levels.length) ((add_action_level st pa st.a_levels.length).a_levels.getD st.a_levels.length [])) (st.a_levels.length + 1)).s_levels.getD (st.a_levels.length + 1) [])).a_levels = st.a_levels ++ [(pa.foldl (add_action_step st.a_levels.length) (st, [])).2] :=
    d6.trans (c3.trans (b6.trans a4))
  have hslev4 : (update_s_mutex (add_literal_level (update_a_mutex (add_action_level st pa st.a_levels.length) ((add_action_level st pa st.a_levels.length).a_levels.getD st.a_levels.length [])) (st.a_levels.length + 1)) ((add_literal_level (update_a_mutex (add_action_level st pa st.a_levels.length) ((add_action_level st pa st.a_levels.length).a_levels.getD st.a_levels.length [])) (st.a_levels.length + 1)).s_levels.getD (st.a_levels.length + 1) [])).s_levels = st.s_levels ++ [newl] := by
    rw [d5, c7, hS2slev]
  have hrow1eq : (update_a_mutex (add_action_level st pa st.a_levels.length) ((add_action_level st pa st.a_levels.length).a_levels.getD st.a_levels.length [])).a_levels.getD (st.a_levels.length + 1 - 1) [] = (pa.foldl (add_action_step st.a_levels.length) (st, [])).2 := by
    rw [Nat.add_sub_cancel, b6, hlayer]
  rw [hshape]
  refine ⟨⟨d1, ?_, ?_, ?_⟩, hS04, ?_, newl, hslev4, ?_⟩
  · rw [hslev4, halev4]
    simp [hr.len]
  · intro hser4 l hl i hil j hjl hij hpi hpj
    have hser0 : st.serial = true := hS04.ser.symm.trans hser4
    rw [halev4] at hl
    rcases List.mem_append.mp hl with hl | hl
    · have hi0 : i < st.anodes.length := hr.inv.alev l hl i hil
      have hj0 : j < st.anodes.length := hr.inv.alev l hl j hjl
      rw [(hS04.afix i hi0).2.2.2] at hpi
      rw [(hS04.afix j hj0).2.2.2] at hpj
      exact hS04.amut i j hj0 (hr.ser hser0 l hl i hil j hjl hij hpi hpj)
    · rw [List.mem_singleton] at hl
      subst hl
      have hi1 : i < (add_action_level st pa st.a_levels.length).anodes.length := a6 i hil
      have hj1 : j < (add_action_level st pa st.a_levels.length).anodes.length := a6 j hjl
      rw [(hS14.afix i hi1).2.2.2] at hpi
      rw [(hS14.afix j hj1).2.2.2] at hpj
      have hser1 : (add_action_level st pa st.a_levels.length).serial = true := a2.ser.trans hser0
      have hserialize : serialize_actions (add_action_level st pa st.a_levels.length) i j = true := by
        simp [serialize_actions, hser1, hpi, hpj]
      have hest := @update_a_mutex_establish ((add_action_level st pa st.a_levels.length).a_levels.getD st.a_levels.length []) (add_action_level st pa st.a_levels.length) i j a1 hval1
        (by rw [hlayer]; exact hil) (by rw [hlayer]; exact hjl) hij hserialize
      exact hS24.amut i j (by rw [b4]; exact hj1) hest.1
  · intro lv2 h1lv i hi j hj hneg
    rw [hslev4] at hi hj
    rcases Nat.lt_trichotomy lv2 st.s_levels.length with hc | hc | hc
    · rw [getD_snoc_lt hc] at hi hj
      have hi0 : i < st.snodes.length := slev_getD hr.inv i hi
      have hj0 : j < st.snodes.length := slev_getD hr.inv j hj
      rw [negation_pointwise (hS04.slit i hi0) (hS04.slit j hj0)] at hneg
      exact hS04.smut i j hj0 (hr.neg lv2 h1lv i hi j hj hneg)
    · rw [hc, getD_snoc_self] at hi hj
      have hij : i ≠ j := negation_irrefl hneg
      rw [negation_pointwise (d7 i) (d7 j)] at hneg
      exact (@update_s_mutex_establish ((add_literal_level (update_a_mutex (add_action_level st pa st.a_levels.length) ((add_action_level st pa st.a_levels.length).a_levels.getD st.a_levels.length [])) (st.a_levels.length + 1)).s_levels.getD (st.a_levels.length + 1) []) (add_literal_level (update_a_mutex (add_action_level st pa st.a_levels.length) ((add_action_level st pa st.a_levels.length).a_levels.getD st.a_levels.length [])) (st.a_levels.length + 1)) i j newl c1 hnewlmem hsub2
        (by rw [hsrow]; exact hi) (by rw [hsrow]; exact hj) hij hneg).1
    · rw [getD_snoc_gt hc] at hi
      exact absurd hi (List.not_mem_nil i)
  · rw [halev4]
    simp
  · intro l
    have h1 : litsOf (update_s_mutex (add_literal_level (update_a_mutex (add_action_level st pa st.a_levels.length) ((add_action_level st pa st.a_levels.length).a_levels.getD st.a_levels.length [])) (st.a_levels.length + 1)) ((add_literal_level (update_a_mutex (add_action_level st pa st.a_levels.length) ((add_action_level st pa st.a_levels.length).a_levels.getD st.a_levels.length [])) (st.a_levels.length + 1)).s_levels.getD (st.a_levels.length + 1) [])) newl = litsOf (add_literal_level (update_a_mutex (add_action_level st pa st.a_levels.length) ((add_action_level st pa st.a_levels.length).a_levels.getD st.a_levels.length [])) (st.a_levels.length + 1)) newl :=
      List.map_congr_left fun k _ => d7 k
    rw [h1, c6 newl, c10 l, hrow1eq]
    constructor
    · rintro ⟨a, ha, hla⟩
      have ha1 : a < (add_action_level st pa st.a_levels.length).anodes.length := a6 a ha
      have ha2 : a < (update_a_mutex (add_action_level st pa st.a_levels.length) ((add_action_level st pa st.a_levels.length).a_levels.getD st.a_levels.length [])).anodes.length := by
        rw [b4]
        exact ha1
      rw [b1.aeffLits (aNodeAt (update_a_mutex (add_action_level st pa st.a_levels.length) ((add_action_level st pa st.a_levels.length).a_levels.getD st.a_levels.length [])) a) (aNodeAt_mem ha2), (b2.afix a ha1).1] at hla
      have hmap : aAct (add_action_level st pa st.a_levels.length) a ∈ (pa.foldl (add_action_step st.a_levels.length) (st, [])).2.map fun id => aAct (add_action_level st pa st.a_levels.length) id :=
        List.mem_map.mpr ⟨a, ha, rfl⟩
      rw [a5] at hmap
      obtain ⟨hpa, hadm⟩ := List.mem_filter.mp hmap
      exact mem_nextLits.mpr ⟨aAct (add_action_level st pa st.a_levels.length) a, hpa, hadm, hla⟩
    · intro hl
      obtain ⟨act, hpa, hadm, hla⟩ := mem_nextLits.mp hl
      have hmap : act ∈ pa.filter fun a =>
          admissibleB a (litsOf st (st.s_levels.getD st.a_levels.length [])) :=
        List.mem_filter.mpr ⟨hpa, hadm⟩
      rw [← a5] at hmap
      obtain ⟨a, ha, haeq⟩ := List.mem_map.mp hmap
      refine ⟨a, ha, ?_⟩
      have ha1 : a < (add_action_level st pa st.a_levels.length).anodes.length := a6 a ha
      have ha2 : a < (update_a_mutex (add_action_level st pa st.a_levels.length) ((add_action_level st pa st.a_levels.length).a_levels.getD st.a_levels.length [])).anodes.length := by
        rw [b4]
        exact ha1
      rw [b1.aeffLits (aNodeAt (update_a_mutex (add_action_level st pa st.a_levels.length) ((add_action_level st pa st.a_levels.length).a_levels.getD st.a_levels.length [])) a) (aNodeAt_mem ha2), (b2.afix a ha1).1]
      have haeq2 : aAct (add_action_level st pa st.a_levels.length) a = act := haeq
      show l ∈ effLits (aAct (add_action_level st pa st.a_levels.length) a)
      rw [haeq2]
      exact hla


/-- idsFrom grows by one id at the top. -/
theorem idsFrom_snoc {base n : Nat} :
    idsFrom base (n + 1) = idsFrom base n ++ [base + n] := by
  induction n generalizing base with
  | zero => simp [idsFrom]
  | succ n ih =>
    show base :: idsFrom (base + 1) (n + 1) = (base :: idsFrom (base + 1) n) ++ _
    rw [ih]
    simp [Nat.add_assoc, Nat.add_comm 1 n]

/-- One S0 insertion step: the literal lands in the layer, nothing else
changes shape, and all object fields stay fresh. -/
theorem init_fold {b : Bool} {fs : List Nat} :
    ∀ {st : GraphState}, st.anodes = [] → st.a_levels = [] →
      st.s_levels = [idsFrom 0 st.snodes.length] →
      (∀ n ∈ st.snodes, n.parents = [] ∧ n.children = [] ∧ n.mutex = []) →
      (litsOf st (idsFrom 0 st.snodes.length)).Nodup →
      (fs.foldl (initStep b) st).anodes = [] ∧
        (fs.foldl (initStep b) st).a_levels = [] ∧
        (fs.foldl (initStep b) st).s_levels =
          [idsFrom 0 (fs.foldl (initStep b) st).snodes.length] ∧
        (∀ n ∈ (fs.foldl (initStep b) st).snodes,
          n.parents = [] ∧ n.children = [] ∧ n.mutex = []) ∧
        (litsOf (fs.foldl (initStep b) st)
          (idsFrom 0 (fs.foldl (initStep b) st).snodes.length)).Nodup ∧
        (∀ l : Lit, l ∈ litsOf (fs.foldl (initStep b) st)
            (idsFrom 0 (fs.foldl (initStep b) st).snodes.length) ↔
          l ∈ litsOf st (idsFrom 0 st.snodes.length) ∨ ∃ f ∈ fs, l = ⟨f, b⟩) ∧
        (fs.foldl (initStep b) st).serial = st.serial := by
  induction fs with
  | nil =>
    intro st h1 h2 h3 h4 h5
    refine ⟨h1, h2, h3, h4, h5, fun l => ?_, rfl⟩
    simp
  | cons f fs ih =>
    intro st h1 h2 h3 h4 h5
    rw [List.foldl_cons]
    by_cases hm : sMember st (st.s_levels.getD 0 []) ⟨f, b⟩ = true
    · have hstep : initStep b st f = st := by
        simp only [initStep]
        rw [if_pos hm]
      rw [hstep]
      obtain ⟨r1, r2, r3, r4, r5, r6, r7⟩ := ih h1 h2 h3 h4 h5
      refine ⟨r1, r2, r3, r4, r5, fun l => ?_, r7⟩
      rw [r6 l]
      constructor
      · rintro (h | ⟨g, hg, rfl⟩)
        · exact Or.inl h
        · exact Or.inr ⟨g, List.mem_cons_of_mem f hg, rfl⟩
      · rintro (h | ⟨g, hg, rfl⟩)
        · exact Or.inl h
        · rcases List.mem_cons.mp hg with rfl | hg2
          · refine Or.inl ?_
            rw [h3] at hm
            have := sMember_iff.mp hm
            simpa using this
          · exact Or.inr ⟨g, hg2, rfl⟩
    · have hlvl0 : st.s_levels.getD 0 [] = idsFrom 0 st.snodes.length := by
        rw [h3]
        rfl
      have hsteq : initStep b st f =
          ⟨st.snodes ++ [⟨f, b, [], [], []⟩], st.anodes,
            [idsFrom 0 st.snodes.length ++ [st.snodes.length]], st.a_levels,
            st.serial⟩ := by
        simp only [initStep]
        rw [if_neg hm, hlvl0]
        rfl
      have hlen2 : (initStep b st f).snodes.length = st.snodes.length + 1 := by
        rw [hsteq]
        simp
      have hslit : ∀ k, k < st.snodes.length → sLit (initStep b st f) k = sLit st k := by
        intro k hk
        rw [hsteq]
        exact sLit_snodes_append hk
      have hsnew : sLit (initStep b st f) st.snodes.length = ⟨f, b⟩ := by
        rw [hsteq]
        unfold sLit sNodeAt
        rw [List.getD_append_right _ _ _ _ (Nat.le_refl _), Nat.sub_self]
        rfl
      have hlits2 : litsOf (initStep b st f) (idsFrom 0 (st.snodes.length + 1)) =
          litsOf st (idsFrom 0 st.snodes.length) ++ [⟨f, b⟩] := by
        rw [idsFrom_snoc, Nat.zero_add]
        unfold litsOf
        rw [List.map_append]
        congr 1
        · refine List.map_congr_left fun k hk => ?_
          refine hslit k ?_
          have := idsFrom_mem.mp hk
          omega
        · rw [List.map_singleton, hsnew]
      have hnotin : (⟨f, b⟩ : Lit) ∉ litsOf st (idsFrom 0 st.snodes.length) := by
        intro h
        refine hm ?_
        rw [hlvl0]
        exact sMember_iff.mpr h
      have h1a : (initStep b st f).anodes = [] := by
        rw [hsteq]
        exact h1
      have h2a : (initStep b st f).a_levels = [] := by
        rw [hsteq]
        exact h2
      have h3a : (initStep b st f).s_levels =
          [idsFrom 0 (initStep b st f).snodes.length] := by
        rw [hlen2, hsteq, idsFrom_snoc, Nat.zero_add]
      have h4a : ∀ n ∈ (initStep b st f).snodes,
          n.parents = [] ∧ n.children = [] ∧ n.mutex = [] := by
        rw [hsteq]
        intro n hn
        rcases List.mem_append.mp hn with hn | hn
        · exact h4 n hn
        · rw [List.mem_singleton] at hn
          subst hn
          exact ⟨rfl, rfl, rfl⟩
      have h5a : (litsOf (initStep b st f)
          (idsFrom 0 (initStep b st f).snodes.length)).Nodup := by
        rw [hlen2, hlits2]
        simp [List.nodup_append, h5, hnotin]
      obtain ⟨r1, r2, r3, r4, r5, r6, r7⟩ := ih h1a h2a h3a h4a h5a
      refine ⟨r1, r2, r3, r4, r5, fun l => ?_, r7.trans (by rw [hsteq])⟩
      rw [r6 l, hlen2, hlits2]
      simp only [List.mem_append, List.mem_singleton, List.mem_cons,
        List.mem_nil_iff, or_false]
      constructor
      · rintro ((h | rfl) | ⟨g, hg, rfl⟩)
        · exact Or.inl h
        · exact Or.inr ⟨f, Or.inl rfl, rfl⟩
        · exact Or.inr ⟨g, Or.inr hg, rfl⟩
      · rintro (h | ⟨g, rfl | hg, rfl⟩)
        · exact Or.inl (Or.inl h)
        · exact Or.inl (Or.inr rfl)
        · exact Or.inr ⟨g, hg, rfl⟩


/-- `create_graph`'s S0 initialization, fully characterized: no actions yet,
one fact layer holding every allocated node, all object fields fresh, one
node per distinct start literal, and the round invariant holds. -/
theorem init_graph_spec {pos neg : List Nat} {serial : Bool} :
    RInv (init_graph pos neg serial) ∧
      (init_graph pos neg serial).anodes = [] ∧
      (init_graph pos neg serial).a_levels = [] ∧
      (init_graph pos neg serial).serial = serial ∧
      (init_graph pos neg serial).s_levels = [idsFrom 0 (init_graph pos neg serial).snodes.length] ∧
      (∀ n ∈ (init_graph pos neg serial).snodes, n.parents = [] ∧ n.children = [] ∧ n.mutex = []) ∧
      (litsOf (init_graph pos neg serial) (idsFrom 0 (init_graph pos neg serial).snodes.length)).Nodup ∧
      (∀ l : Lit, l ∈ litsOf (init_graph pos neg serial) (idsFrom 0 (init_graph pos neg serial).snodes.length) ↔
        (∃ f ∈ pos, l = ⟨f, true⟩) ∨ ∃ f ∈ neg, l = ⟨f, false⟩) := by
  have hshape : init_graph pos neg serial =
      neg.foldl (initStep false)
        (pos.foldl (initStep true) ⟨[], [], [[]], [], serial⟩) := rfl
  obtain ⟨p1, p2, p3, p4, p5, p6, p7⟩ :=
    @init_fold true pos ⟨[], [], [[]], [], serial⟩ rfl rfl rfl
      (fun n hn => absurd hn (List.not_mem_nil n)) List.nodup_nil
  obtain ⟨q1, q2, q3, q4, q5, q6, q7⟩ := @init_fold false neg _ p1 p2 p3 p4 p5
  have hchar : ∀ l : Lit, l ∈ litsOf (init_graph pos neg serial) (idsFrom 0 (init_graph pos neg serial).snodes.length) ↔
      (∃ f ∈ pos, l = ⟨f, true⟩) ∨ ∃ f ∈ neg, l = ⟨f, false⟩ := by
    intro l
    rw [hshape, q6 l, p6 l]
    constructor
    · rintro ((h | h) | h)
      · exact absurd h (by simp [litsOf, idsFrom])
      · exact Or.inl h
      · exact Or.inr h
    · rintro (h | h)
      · exact Or.inl (Or.inr h)
      · exact Or.inr h
  have hanodes : (init_graph pos neg serial).anodes = [] := by
    rw [hshape]
    exact q1
  have halev : (init_graph pos neg serial).a_levels = [] := by
    rw [hshape]
    exact q2
  have hslev : (init_graph pos neg serial).s_levels = [idsFrom 0 (init_graph pos neg serial).snodes.length] := by
    rw [hshape]
    exact q3
  have hfresh : ∀ n ∈ (init_graph pos neg serial).snodes, n.parents = [] ∧ n.children = [] ∧ n.mutex = [] := by
    rw [hshape]
    exact q4
  have hinv : Inv (init_graph pos neg serial) := by
    refine ⟨?_, ?_, ?_, ?_, ?_, ?_, ?_, ?_, ?_, ?_, ?_, ?_, ?_, ?_, ?_⟩
    · rw [hslev]
      intro l hl i hi
      rw [List.mem_singleton] at hl
      subst hl
      have := idsFrom_mem.mp hi
      omega
    · rw [halev]
      intro l hl
      exact absurd hl (List.not_mem_nil l)
    · rw [hslev]
      intro l hl
      rw [List.mem_singleton] at hl
      subst hl
      exact idsFrom_nodup
    · rw [halev]
      intro l hl
      exact absurd hl (List.not_mem_nil l)
    · simp only [mutexIdsOk, Bool.and_eq_true, List.all_eq_true, decide_eq_true_eq]
      constructor
      · intro n hn m hm
        rw [(hfresh n hn).2.2] at hm
        exact absurd hm (List.not_mem_nil m)
      · rw [hanodes]
        intro n hn
        exact absurd hn (List.not_mem_nil n)
    all_goals first
      | (rw [hanodes]
         exact fun n hn => absurd hn (List.not_mem_nil n))
      | (rw [halev]
         intro l hl
         exact absurd hl (List.not_mem_nil l))
  refine ⟨⟨hinv, ?_, ?_, ?_⟩, hanodes, halev, ?_, hslev, hfresh, ?_, hchar⟩
  · rw [hslev, halev]
    rfl
  · rw [halev]
    intro _ l hl
    exact absurd hl (List.not_mem_nil l)
  · intro lv h1lv i hi j hj hneg
    rw [hslev] at hi
    rcases lv with _ | lv2
    · omega
    · have hnil : ([idsFrom 0 (init_graph pos neg serial).snodes.length] :
          List (List Nat)).getD (lv2 + 1) [] = [] := rfl
      rw [hnil] at hi
      exact absurd hi (List.not_mem_nil i)
  · rw [hshape]
    exact q7.trans p7
  · rw [hshape]
    exact q5


/-- One unfolding of the `while not leveled` loop. -/
theorem create_graph_succ {pa : List PAction} {fuel : Nat} {st : GraphState} :
    create_graph pa (fuel + 1) st =
      if layerLitsEq (buildRound pa st) ((buildRound pa st).s_levels.length - 1)
          ((buildRound pa st).s_levels.length - 1 - 1) = true
        then some (buildRound pa st)
        else create_graph pa fuel (buildRound pa st) := rfl

/-- Every state returned by `create_graph` from a round-invariant state keeps
the round invariant and extends the start state. -/
theorem create_graph_rinv {pa : List PAction} (hndn : (pa.map PAction.name).Nodup) :
    ∀ {fuel : Nat} {st st2 : GraphState}, RInv st →
      create_graph pa fuel st = some st2 → RInv st2 ∧ SExt st st2 := by
  intro fuel
  induction fuel with
  | zero =>
    intro st st2 _ h
    exact absurd h (by simp [create_graph])
  | succ fuel ih =>
    intro st st2 hr h
    rw [create_graph_succ] at h
    obtain ⟨hb1, hb2, _, _⟩ := buildRound_spec hr hndn
    by_cases hc : layerLitsEq (buildRound pa st) ((buildRound pa st).s_levels.length - 1)
        ((buildRound pa st).s_levels.length - 1 - 1) = true
    · rw [if_pos hc] at h
      cases h
      exact ⟨hb1, hb2⟩
    · rw [if_neg hc] at h
      obtain ⟨hr2, hs2⟩ := ih hb1 h
      exact ⟨hr2, sext_trans hb2 hs2⟩

/-- Every graph produced by `planning_graph` keeps the round invariant and
extends its S0 initialization. -/
theorem planning_graph_rinv {pr : PProblem} {pos neg : List Nat} {serial : Bool}
    {fuel : Nat} {st : GraphState}
    (hndn : ((all_actions pr).map PAction.name).Nodup)
    (hrun : planning_graph pr pos neg serial fuel = some st) :
    RInv st ∧ SExt (init_graph pos neg serial) st :=
  create_graph_rinv hndn (init_graph_spec).1 hrun


/-- C5.  When the graph is constructed with serial planning enabled, the
action-layer mutex analysis leaves no pair of distinct non-persistence action
nodes of a common action layer non-mutex; and the serialize test by itself
returns false (so never mutexifies) whenever either action of the pair is a
persistence action. -/
theorem serial_all_pairs_mutex (pr : PProblem) (pos neg : List Nat) (fuel : Nat)
    (st : GraphState) (hnd : ((all_actions pr).map PAction.name).Nodup)
    (hrun : planning_graph pr pos neg true fuel = some st) :
    (∀ l ∈ st.a_levels, ∀ i ∈ l, ∀ j ∈ l, i ≠ j →
      (aNodeAt st i).is_persistent = false → (aNodeAt st j).is_persistent = false →
      is_mutex_a st i j = true) ∧
    ∀ st2 : GraphState, ∀ i j : Nat,
      ((aNodeAt st2 i).is_persistent = true ∨ (aNodeAt st2 j).is_persistent = true) →
      serialize_actions st2 i j = false := by
  obtain ⟨hr, hs⟩ := planning_graph_rinv hnd hrun
  have hser : st.serial = true := by
    rw [hs.ser]
    exact init_graph_spec.2.2.2.1
  exact ⟨hr.ser hser, fun st2 i j h => serialize_persistent_false h⟩

theorem serial_all_pairs_mutex_witness :
    is_mutex_a g5 0 1 = true ∧ serialize_actions g5 2 3 = false := by
  have h := serial_all_pairs_mutex pr5 [0] [] 2 g5 (by decide) rfl
  exact ⟨h.1 [0, 1, 2] (by decide) 0 (by decide) 1 (by decide) (by decide)
    (by decide) (by decide), h.2 g5 2 3 (Or.inl (by decide))⟩

/-- C8.  In every graph produced by `planning_graph`, two fact nodes of a
common fact layer at any level at least 1 that carry the same fluent with
opposite polarities are mutex. -/
theorem negation_pairs_always_mutex (pr : PProblem) (pos neg : List Nat)
    (serial : Bool) (fuel : Nat) (st : GraphState)
    (hnd : ((all_actions pr).map PAction.name).Nodup)
    (hrun : planning_graph pr pos neg serial fuel = some st) :
    ∀ lv, 1 ≤ lv → ∀ i ∈ st.s_levels.getD lv [], ∀ j ∈ st.s_levels.getD lv [],
      (sNodeAt st i).symbol = (sNodeAt st j).symbol →
      (sNodeAt st i).is_pos ≠ (sNodeAt st j).is_pos →
      is_mutex_s st i j = true := by
  obtain ⟨hr, _⟩ := planning_graph_rinv hnd hrun
  intro lv h1 i hi j hj hsym hpos
  refine hr.neg lv h1 i hi j hj ?_
  unfold negation_mutex
  cases hbi : (sNodeAt st i).is_pos <;> cases hbj : (sNodeAt st j).is_pos <;>
    simp_all

theorem negation_pairs_always_mutex_witness :
    is_mutex_s negGraph 3 5 = true :=
  negation_pairs_always_mutex trivProblem [0] [0] true 2 negGraph (by decide) rfl
    1 (by decide) 3 (by decide) 5 (by decide) (by decide) (by decide)


/-- C7.  `add_action_level` admits a candidate action node into the new layer
iff the action's signed precondition literal set is contained, by literal
content, in fact layer `lv`'s literal set: the appended layer lists exactly
the admissible catalog actions, each admitted node's prenode objects carry
exactly the action's precondition literals, and all those literals occur in
fact layer `lv`. -/
theorem action_admission_iff (st : GraphState) (pa : List PAction) (lv : Nat)
    (hinv : Inv st) (hnd : (pa.map PAction.name).Nodup) :
    (add_action_level st pa lv).a_levels = st.a_levels ++ [(pa.foldl (add_action_step lv) (st, [])).2] ∧
      ((pa.foldl (add_action_step lv) (st, [])).2.map fun id => aAct (add_action_level st pa lv) id) =
        pa.filter (fun a => litSetSub (preLits a)
          (litsOf st (st.s_levels.getD lv []))) ∧
      ∀ id ∈ (pa.foldl (add_action_step lv) (st, [])).2,
        litsOf (add_action_level st pa lv) (aNodeAt (add_action_level st pa lv) id).prenodes = preLits (aAct (add_action_level st pa lv) id) ∧
        ∀ l ∈ preLits (aAct (add_action_level st pa lv) id), l ∈ litsOf st (st.s_levels.getD lv []) := by
  obtain ⟨a1, a2, a3, a4, a5, a6⟩ := @add_action_level_spec st pa lv hinv hnd
  refine ⟨a4, a5, ?_⟩
  intro id hid
  have h1 : aNodeAt (add_action_level st pa lv) id ∈ (add_action_level st pa lv).anodes := aNodeAt_mem (a6 id hid)
  refine ⟨a1.apreLits _ h1, ?_⟩
  intro l hl
  have hmap : aAct (add_action_level st pa lv) id ∈ (pa.foldl (add_action_step lv) (st, [])).2.map fun k => aAct (add_action_level st pa lv) k :=
    List.mem_map.mpr ⟨id, hid, rfl⟩
  rw [a5] at hmap
  exact litSetSub_iff.mp (List.mem_filter.mp hmap).2 l hl

theorem action_admission_iff_witness :
    (((all_actions pr5).foldl (add_action_step 0) (init_graph [0] [] true, [])).2.map
      fun id => aAct (add_action_level (init_graph [0] [] true) (all_actions pr5) 0) id) =
      (all_actions pr5).filter (fun a => litSetSub (preLits a)
        (litsOf (init_graph [0] [] true)
          ((init_graph [0] [] true).s_levels.getD 0 []))) :=
  (action_admission_iff (init_graph [0] [] true) (all_actions pr5) 0
    init_graph_spec.1.inv (by decide)).2.1


/-- The prC2 run, phase by phase: round 1. -/
theorem c2_round1 : buildRound c2acts c2s0 = c2d1 := by
  have e1 : add_action_level c2s0 c2acts 0 = c2a1 := by decide
  have e2 : update_a_mutex c2a1 (c2a1.a_levels.getD 0 []) = c2b1 := by decide
  have e3 : add_literal_level c2b1 1 = c2c1 := by decide
  have e4 : update_s_mutex c2c1 (c2c1.s_levels.getD 1 []) = c2d1 := by decide
  show update_s_mutex
      (add_literal_level (update_a_mutex (add_action_level c2s0 c2acts 0)
        ((add_action_level c2s0 c2acts 0).a_levels.getD 0 [])) 1)
      ((add_literal_level (update_a_mutex (add_action_level c2s0 c2acts 0)
        ((add_action_level c2s0 c2acts 0).a_levels.getD 0 [])) 1).s_levels.getD 1 []) =
    c2d1
  rw [e1, e2, e3, e4]

/-- The prC2 run, phase by phase: round 2. -/
theorem c2_round2 : buildRound c2acts c2d1 = c2d2 := by
  have e1 : add_action_level c2d1 c2acts 1 = c2a2 := by decide
  have e2 : update_a_mutex c2a2 (c2a2.a_levels.getD 1 []) = c2b2 := by decide
  have e3 : add_literal_level c2b2 2 = c2c2 := by decide
  have e4 : update_s_mutex c2c2 (c2c2.s_levels.getD 2 []) = c2d2 := by decide
  show update_s_mutex
      (add_literal_level (update_a_mutex (add_action_level c2d1 c2acts 1)
        ((add_action_level c2d1 c2acts 1).a_levels.getD 1 [])) 2)
      ((add_literal_level (update_a_mutex (add_action_level c2d1 c2acts 1)
        ((add_action_level c2d1 c2acts 1).a_levels.getD 1 [])) 2).s_levels.getD 2 []) =
    c2d2
  rw [e1, e2, e3, e4]

/-- The whole prC2 run: it levels after the second round. -/
theorem c2_run : planning_graph prC2 [0] [] false 2 = some c2d2 := by
  show create_graph c2acts 2 (init_graph [0] [] false) = some c2d2
  rw [show init_graph [0] [] false = c2s0 from by decide]
  rw [create_graph_succ, c2_round1]
  rw [if_neg (by decide)]
  rw [create_graph_succ, c2_round2]
  rw [if_pos (by decide)]


/-- C2.  The competing-needs test can never mark any pair mutex on a state
satisfying the construction invariant, because the tested parent adjacency of
an action node is the fresh prenode objects (or still empty), and prenode
objects carry permanently empty mutex sets; on the concrete prC2 run the two
layer-1 action nodes preconditioned on `+0` and `-0` have their precondition
literals realized by fact-layer-1 nodes that are mutex, yet the action pair is
left non-mutex in both directions. -/
theorem competing_needs_constantly_false :
    (∀ st : GraphState, Inv st → ∀ i j, competing_needs_mutex st i j = false) ∧
      planning_graph prC2 [0] [] false 2 = some c2d2 ∧
      6 ∈ c2d2.a_levels.getD 1 [] ∧ 7 ∈ c2d2.a_levels.getD 1 [] ∧
      preLits (aAct c2d2 6) = [⟨0, true⟩] ∧ preLits (aAct c2d2 7) = [⟨0, false⟩] ∧
      5 ∈ c2d2.s_levels.getD 1 [] ∧ 1 ∈ c2d2.s_levels.getD 1 [] ∧
      sLit c2d2 5 = ⟨0, true⟩ ∧ sLit c2d2 1 = ⟨0, false⟩ ∧
      is_mutex_s c2d2 5 1 = true ∧ is_mutex_s c2d2 1 5 = true ∧
      is_mutex_a c2d2 6 7 = false ∧ is_mutex_a c2d2 7 6 = false := by
  refine ⟨?_, c2_run, by decide, by decide, by decide, by decide, by decide,
    by decide, by decide, by decide, by decide, by decide, by decide, by decide⟩
  intro st hinv i j
  by_cases hi : i < st.anodes.length
  · have hnode : aNodeAt st i ∈ st.anodes := aNodeAt_mem hi
    rcases hinv.aparents _ hnode with hpar | hpar
    · unfold competing_needs_mutex
      rw [hpar]
      rfl
    · unfold competing_needs_mutex
      rw [hpar]
      refine List.any_eq_false.mpr ?_
      intro p hp
      simp only [Bool.not_eq_true]
      refine List.any_eq_false.mpr ?_
      intro p2 hp2
      simp only [Bool.not_eq_true]
      have hmux : (sNodeAt st p).mutex = [] := hinv.prefresh _ hnode p hp
      unfold is_mutex_s
      rw [hmux]
      rfl
  · unfold competing_needs_mutex
    rw [aNodeAt_oob (Nat.le_of_not_lt hi)]
    rfl

theorem competing_needs_constantly_false_witness :
    competing_needs_mutex (init_graph [0] [] true) 0 0 = false :=
  competing_needs_constantly_false.1 (init_graph [0] [] true) init_graph_spec.1.inv 0 0


/-- Prefix reads are unchanged when the fact store is only appended to. -/
theorem sNodeAt_of_snodes_append {st2 st : GraphState} {ex : List SNode} {k : Nat}
    (h : st2.snodes = st.snodes ++ ex) (hk : k < st.snodes.length) :
    sNodeAt st2 k = sNodeAt st k := by
  unfold sNodeAt
  rw [h]
  exact List.getD_append _ _ _ _ hk

/-- add_action_step only appends to the fact store. -/
theorem snodes_add_action_step {lv : Nat} {acc : GraphState × List Nat} {a : PAction} :
    ∃ ex, (add_action_step lv acc a).1.snodes = acc.1.snodes ++ ex := by
  have hnew : (newANode acc.1 a).1.snodes = acc.1.snodes ++
      (((preLits a).map fun l => (⟨l.symbol, l.is_pos, [], [], []⟩ : SNode)) ++
        ((effLits a).map fun l => (⟨l.symbol, l.is_pos, [], [], []⟩ : SNode))) := by
    rw [← List.append_assoc]
    rfl
  have hsame : (add_action_step lv acc a).1.snodes = (newANode acc.1 a).1.snodes := by
    unfold add_action_step
    by_cases hc : subsetLits (newANode acc.1 a).1
        (aNodeAt (newANode acc.1 a).1 (newANode acc.1 a).2).prenodes
        ((newANode acc.1 a).1.s_levels.getD lv []) = true
    · rw [if_pos hc]
      rfl
    · rw [if_neg hc]
  exact ⟨_, hsame.trans hnew⟩

/-- The add_action_level loop only appends to the fact store. -/
theorem snodes_add_action_fold {lv : Nat} {pas : List PAction} :
    ∀ {acc : GraphState × List Nat},
      ∃ ex, (pas.foldl (add_action_step lv) acc).1.snodes = acc.1.snodes ++ ex := by
  induction pas with
  | nil => exact fun {acc} => ⟨[], (List.append_nil _).symm⟩
  | cons a pas ih =>
    intro acc
    rw [List.foldl_cons]
    obtain ⟨ex1, h1⟩ := @snodes_add_action_step lv acc a
    obtain ⟨ex2, h2⟩ := @ih (add_action_step lv acc a)
    exact ⟨ex1 ++ ex2, by rw [h2, h1, List.append_assoc]⟩

/-- add_action_level only appends to the fact store. -/
theorem snodes_add_action_level {st : GraphState} {pa : List PAction} {lv : Nat} :
    ∃ ex, (add_action_level st pa lv).snodes = st.snodes ++ ex := by
  obtain ⟨ex, h⟩ := @snodes_add_action_fold lv pa (st, [])
  exact ⟨ex, h⟩

/-- Any action node present after one add_action_step was already present or
has all its effect-node ids at or above the previous store size. -/
theorem anodes_add_action_step_mem {lv : Nat} {acc : GraphState × List Nat}
    {a : PAction} {n : ANode} (hn : n ∈ (add_action_step lv acc a).1.anodes) :
    n ∈ acc.1.anodes ∨ ∀ e ∈ n.effnodes, acc.1.snodes.length ≤ e := by
  have hshape : ∀ m ∈ (add_action_step lv acc a).1.anodes,
      m ∈ (newANode acc.1 a).1.anodes ∨
        (m.effnodes = (aNodeAt (newANode acc.1 a).1 (newANode acc.1 a).2).effnodes) := by
    intro m hm
    unfold add_action_step at hm
    by_cases hc : subsetLits (newANode acc.1 a).1
        (aNodeAt (newANode acc.1 a).1 (newANode acc.1 a).2).prenodes
        ((newANode acc.1 a).1.s_levels.getD lv []) = true
    · rw [if_pos hc] at hm
      rcases anodes_setANode_mem hm with hm2 | hm2
      · exact Or.inl hm2
      · subst hm2
        exact Or.inr rfl
    · rw [if_neg hc] at hm
      exact Or.inl hm
  rcases hshape n hn with h | h
  · rcases newANode_anodes h with h2 | h2
    · exact Or.inl h2
    · subst h2
      refine Or.inr fun e he => ?_
      exact (newANode_eff_range he).1.trans' (Nat.le_add_right _ _)
  · refine Or.inr fun e he => ?_
    rw [h] at he
    exact (newANode_eff_range he).1.trans' (Nat.le_add_right _ _)

/-- Fold version of the previous lemma. -/
theorem anodes_add_action_fold_mem {lv : Nat} {pas : List PAction} :
    ∀ {acc : GraphState × List Nat} {n : ANode},
      n ∈ (pas.foldl (add_action_step lv) acc).1.anodes →
      n ∈ acc.1.anodes ∨ ∀ e ∈ n.effnodes, acc.1.snodes.length ≤ e := by
  induction pas with
  | nil => exact fun hn => Or.inl hn
  | cons a pas ih =>
    intro acc n hn
    rw [List.foldl_cons] at hn
    rcases ih hn with h | h
    · exact anodes_add_action_step_mem h
    · refine Or.inr fun e he => ?_
      obtain ⟨ex, hex⟩ := @snodes_add_action_step lv acc a
      have : acc.1.snodes.length ≤ (add_action_step lv acc a).1.snodes.length := by
        rw [hex]
        simp
      exact this.trans (h e he)


/-- parentStep leaves every other fact node untouched. -/
theorem sNodeAt_parentStep_other {lvl : List Nat} :
    ∀ {st : GraphState} {nid k : Nat}, k ≠ nid →
      sNodeAt (parentStep lvl st nid) k = sNodeAt st k := by
  unfold parentStep
  induction lvl with
  | nil => intro st nid k _; rfl
  | cons aid lvl ih =>
    intro st nid k hk
    rw [List.foldl_cons]
    refine (ih hk).trans ?_
    by_cases hc : sMember st (aNodeAt st aid).effnodes (sLit st nid) = true
    · rw [if_pos hc]
      exact sNodeAt_setSNode_ne hk
    · rw [if_neg hc]

/-- The parent-linking loop leaves fact nodes outside the collected set
untouched. -/
theorem sNodeAt_parent_fold_other {nids : List Nat} {lvl : List Nat} :
    ∀ {st : GraphState} {k : Nat}, (∀ nid ∈ nids, k ≠ nid) →
      sNodeAt (nids.foldl (parentStep lvl) st) k = sNodeAt st k := by
  induction nids with
  | nil => intro st k _; rfl
  | cons nid nids ih =>
    intro st k hk
    rw [List.foldl_cons]
    exact (ih fun m hm => hk m (List.mem_cons_of_mem nid hm)).trans
      (sNodeAt_parentStep_other (hk nid (List.mem_cons_self nid nids)))

/-- addSMutex touches only its first node. -/
theorem sNodeAt_mutexify_ss_other {st : GraphState} {i j k : Nat}
    (hi : k ≠ i) (hj : k ≠ j) :
    sNodeAt (mutexify_ss st i j) k = sNodeAt st k := by
  unfold mutexify_ss
  exact (sNodeAt_addSMutex_other hj).trans (sNodeAt_addSMutex_other hi)

/-- update_s_pair touches only its two nodes. -/
theorem sNodeAt_update_s_pair_other {st : GraphState} {i j k : Nat}
    (hi : k ≠ i) (hj : k ≠ j) :
    sNodeAt (update_s_pair st i j) k = sNodeAt st k := by
  unfold update_s_pair
  by_cases hc : (negation_mutex st i j || inconsistent_support_mutex st i j) = true
  · rw [if_pos hc]
    exact sNodeAt_mutexify_ss_other hi hj
  · rw [if_neg hc]

/-- The fact-pair loop touches only nodes of its id row. -/
theorem sNodeAt_update_s_mutex_other {ids : List Nat} :
    ∀ {st : GraphState} {k : Nat}, k ∉ ids →
      sNodeAt (update_s_mutex st ids) k = sNodeAt st k := by
  induction ids with
  | nil => intro st k _; rfl
  | cons n1 rest ih =>
    intro st k hk
    have hk1 : k ≠ n1 := fun h => hk (h ▸ List.mem_cons_self n1 rest)
    have hkr : k ∉ rest := fun h => hk (List.mem_cons_of_mem n1 h)
    show sNodeAt (update_s_mutex (rest.foldl (fun s n2 => update_s_pair s n1 n2) st) rest) k = _
    refine (ih hkr).trans ?_
    clear ih hk
    induction rest generalizing st with
    | nil => rfl
    | cons n2 rest2 ih2 =>
      rw [List.foldl_cons]
      have hk2 : k ≠ n2 := fun h => hkr (h ▸ List.mem_cons_self n2 rest2)
      exact (ih2 (fun h => hkr (List.mem_cons_of_mem n2 h))).trans
        (sNodeAt_update_s_pair_other hk1 hk2)

/-- L0 preservation across one construction round. -/
theorem l0_buildRound {pa : List PAction} {st st0 : GraphState} {n0 : Nat}
    (hr : RInv st) (hndn : (pa.map PAction.name).Nodup) (h : L0 n0 st0 st) :
    L0 n0 st0 (buildRound pa st) := by
  obtain ⟨a1, a2, a3, a4, a5, a6⟩ :=
    @add_action_level_spec st pa st.a_levels.length hr.inv hndn
  have hsn1 : ∃ ex, (add_action_level st pa st.a_levels.length).snodes =
      st.snodes ++ ex := snodes_add_action_level
  obtain ⟨ex1, hex1⟩ := hsn1
  have h1 : L0 n0 st0 (add_action_level st pa st.a_levels.length) := by
    refine ⟨?_, ?_, ?_, ?_, ?_⟩
    · rw [hex1]
      simp only [List.length_append]
      have := h.nlen
      omega
    · intro k hk
      rw [sNodeAt_of_snodes_append hex1 (Nat.lt_of_lt_of_le hk h.nlen)]
      exact h.keep k hk
    · rw [a3]
      exact h.lvl0
    · rw [a3]
      exact h.hi
    · intro n hn e he
      rcases @anodes_add_action_fold_mem st.a_levels.length pa (st, []) n hn with h2 | h2
      · exact h.aeffhi n h2 e he
      · exact h.nlen.trans (h2 e he)
  have hlayer : ((add_action_level st pa st.a_levels.length).a_levels.getD st.a_levels.length []) = (pa.foldl (add_action_step st.a_levels.length) (st, [])).2 := by
    rw [a4]
    exact getD_snoc_self
  have hval1 : ∀ k ∈ ((add_action_level st pa st.a_levels.length).a_levels.getD st.a_levels.length []), k < (add_action_level st pa st.a_levels.length).anodes.length := by
    intro k hk
    rw [hlayer] at hk
    exact a6 k hk
  obtain ⟨b1, b2, b3, b4, b5, b6⟩ := @update_a_mutex_spec ((add_action_level st pa st.a_levels.length).a_levels.getD st.a_levels.length []) (add_action_level st pa st.a_levels.length) a1 hval1
  have h2 : L0 n0 st0 (update_a_mutex (add_action_level st pa st.a_levels.length) ((add_action_level st pa st.a_levels.length).a_levels.getD st.a_levels.length [])) := by
    refine ⟨?_, ?_, ?_, ?_, ?_⟩
    · rw [b3]
      exact h1.nlen
    · intro k hk
      refine Eq.trans ?_ (h1.keep k hk)
      unfold sNodeAt
      rw [b3]
    · rw [b5]
      exact h1.lvl0
    · rw [b5]
      exact h1.hi
    · intro n hn e he
      obtain ⟨k, hk, rfl⟩ := mem_anodes_index hn
      have hk1 : k < (add_action_level st pa st.a_levels.length).anodes.length := by
        rw [← b4]
        exact hk
      have heff : (aNodeAt (update_a_mutex (add_action_level st pa st.a_levels.length) ((add_action_level st pa st.a_levels.length).a_levels.getD st.a_levels.length [])) k).effnodes = (aNodeAt (add_action_level st pa st.a_levels.length) k).effnodes :=
        (b2.afix k hk1).2.2.1
      rw [heff] at he
      exact h1.aeffhi (aNodeAt (add_action_level st pa st.a_levels.length) k) (aNodeAt_mem hk1) e he
  obtain ⟨f1, f2, f3, f4⟩ :=
    @literal_fold ((update_a_mutex (add_action_level st pa st.a_levels.length) ((add_action_level st pa st.a_levels.length).a_levels.getD st.a_levels.length [])).a_levels.getD (st.a_levels.length + 1 - 1) []) (update_a_mutex (add_action_level st pa st.a_levels.length) ((add_action_level st pa st.a_levels.length).a_levels.getD st.a_levels.length [])) (update_a_mutex (add_action_level st pa st.a_levels.length) ((add_action_level st pa st.a_levels.length).a_levels.getD st.a_levels.length [])) [] achShape_refl List.nodup_nil
  have hspar : sparShape (((update_a_mutex (add_action_level st pa st.a_levels.length) ((add_action_level st pa st.a_levels.length).a_levels.getD st.a_levels.length [])).a_levels.getD (st.a_levels.length + 1 - 1) []).foldl literalStep ((update_a_mutex (add_action_level st pa st.a_levels.length) ((add_action_level st pa st.a_levels.length).a_levels.getD st.a_levels.length [])), [])).1 ((((update_a_mutex (add_action_level st pa st.a_levels.length) ((add_action_level st pa st.a_levels.length).a_levels.getD st.a_levels.length [])).a_levels.getD (st.a_levels.length + 1 - 1) []).foldl literalStep ((update_a_mutex (add_action_level st pa st.a_levels.length) ((add_action_level st pa st.a_levels.length).a_levels.getD st.a_levels.length [])), [])).2.foldl (parentStep ((update_a_mutex (add_action_level st pa st.a_levels.length) ((add_action_level st pa st.a_levels.length).a_levels.getD st.a_levels.length [])).a_levels.getD (st.a_levels.length + 1 - 1) [])) (((update_a_mutex (add_action_level st pa st.a_levels.length) ((add_action_level st pa st.a_levels.length).a_levels.getD st.a_levels.length [])).a_levels.getD (st.a_levels.length + 1 - 1) []).foldl literalStep ((update_a_mutex (add_action_level st pa st.a_levels.length) ((add_action_level st pa st.a_levels.length).a_levels.getD st.a_levels.length [])), [])).1) := sparShape_parent_fold
  have hshape3 : (add_literal_level (update_a_mutex (add_action_level st pa st.a_levels.length) ((add_action_level st pa st.a_levels.length).a_levels.getD st.a_levels.length [])) (st.a_levels.length + 1)) = { ((((update_a_mutex (add_action_level st pa st.a_levels.length) ((add_action_level st pa st.a_levels.length).a_levels.getD st.a_levels.length [])).a_levels.getD (st.a_levels.length + 1 - 1) []).foldl literalStep ((update_a_mutex (add_action_level st pa st.a_levels.length) ((add_action_level st pa st.a_levels.length).a_levels.getD st.a_levels.length [])), [])).2.foldl (parentStep ((update_a_mutex (add_action_level st pa st.a_levels.length) ((add_action_level st pa st.a_levels.length).a_levels.getD st.a_levels.length [])).a_levels.getD (st.a_levels.length + 1 - 1) [])) (((update_a_mutex (add_action_level st pa st.a_levels.length) ((add_action_level st pa st.a_levels.length).a_levels.getD st.a_levels.length [])).a_levels.getD (st.a_levels.length + 1 - 1) []).foldl literalStep ((update_a_mutex (add_action_level st pa st.a_levels.length) ((add_action_level st pa st.a_levels.length).a_levels.getD st.a_levels.length [])), [])).1) with s_levels := ((((update_a_mutex (add_action_level st pa st.a_levels.length) ((add_action_level st pa st.a_levels.length).a_levels.getD st.a_levels.length [])).a_levels.getD (st.a_levels.length + 1 - 1) []).foldl literalStep ((update_a_mutex (add_action_level st pa st.a_levels.length) ((add_action_level st pa st.a_levels.length).a_levels.getD st.a_levels.length [])), [])).2.foldl (parentStep ((update_a_mutex (add_action_level st pa st.a_levels.length) ((add_action_level st pa st.a_levels.length).a_levels.getD st.a_levels.length [])).a_levels.getD (st.a_levels.length + 1 - 1) [])) (((update_a_mutex (add_action_level st pa st.a_levels.length) ((add_action_level st pa st.a_levels.length).a_levels.getD st.a_levels.length [])).a_levels.getD (st.a_levels.length + 1 - 1) []).foldl literalStep ((update_a_mutex (add_action_level st pa st.a_levels.length) ((add_action_level st pa st.a_levels.length).a_levels.getD st.a_levels.length [])), [])).1).s_levels ++ [(((update_a_mutex (add_action_level st pa st.a_levels.length) ((add_action_level st pa st.a_levels.length).a_levels.getD st.a_levels.length [])).a_levels.getD (st.a_levels.length + 1 - 1) []).foldl literalStep ((update_a_mutex (add_action_level st pa st.a_levels.length) ((add_action_level st pa st.a_levels.length).a_levels.getD st.a_levels.length [])), [])).2] } := rfl
  have hlvlvalid : ∀ a ∈ ((update_a_mutex (add_action_level st pa st.a_levels.length) ((add_action_level st pa st.a_levels.length).a_levels.getD st.a_levels.length [])).a_levels.getD (st.a_levels.length + 1 - 1) []), aNodeAt (update_a_mutex (add_action_level st pa st.a_levels.length) ((add_action_level st pa st.a_levels.length).a_levels.getD st.a_levels.length [])) a ∈ (update_a_mutex (add_action_level st pa st.a_levels.length) ((add_action_level st pa st.a_levels.length).a_levels.getD st.a_levels.length [])).anodes :=
    fun a ha => aNodeAt_mem (alev_getD b1 a ha)
  have hr2hi : ∀ id ∈ (((update_a_mutex (add_action_level st pa st.a_levels.length) ((add_action_level st pa st.a_levels.length).a_levels.getD st.a_levels.length [])).a_levels.getD (st.a_levels.length + 1 - 1) []).foldl literalStep ((update_a_mutex (add_action_level st pa st.a_levels.length) ((add_action_level st pa st.a_levels.length).a_levels.getD st.a_levels.length [])), [])).2, n0 ≤ id := by
    intro id hid
    rcases f3 id hid with hh | ⟨a, ha, hh⟩
    · exact absurd hh (List.not_mem_nil id)
    · exact h2.aeffhi (aNodeAt (update_a_mutex (add_action_level st pa st.a_levels.length) ((add_action_level st pa st.a_levels.length).a_levels.getD st.a_levels.length [])) a) (hlvlvalid a ha) id hh
  have hkeep3 : ∀ k, k < n0 → sNodeAt (add_literal_level (update_a_mutex (add_action_level st pa st.a_levels.length) ((add_action_level st pa st.a_levels.length).a_levels.getD st.a_levels.length [])) (st.a_levels.length + 1)) k = sNodeAt (update_a_mutex (add_action_level st pa st.a_levels.length) ((add_action_level st pa st.a_levels.length).a_levels.getD st.a_levels.length [])) k := by
    intro k hk
    have e1 : sNodeAt (add_literal_level (update_a_mutex (add_action_level st pa st.a_levels.length) ((add_action_level st pa st.a_levels.length).a_levels.getD st.a_levels.length [])) (st.a_levels.length + 1)) k = sNodeAt ((((update_a_mutex (add_action_level st pa st.a_levels.length) ((add_action_level st pa st.a_levels.length).a_levels.getD st.a_levels.length [])).a_levels.getD (st.a_levels.length + 1 - 1) []).foldl literalStep ((update_a_mutex (add_action_level st pa st.a_levels.length) ((add_action_level st pa st.a_levels.length).a_levels.getD st.a_levels.length [])), [])).2.foldl (parentStep ((update_a_mutex (add_action_level st pa st.a_levels.length) ((add_action_level st pa st.a_levels.length).a_levels.getD st.a_levels.length [])).a_levels.getD (st.a_levels.length + 1 - 1) [])) (((update_a_mutex (add_action_level st pa st.a_levels.length) ((add_action_level st pa st.a_levels.length).a_levels.getD st.a_levels.length [])).a_levels.getD (st.a_levels.length + 1 - 1) []).foldl literalStep ((update_a_mutex (add_action_level st pa st.a_levels.length) ((add_action_level st pa st.a_levels.length).a_levels.getD st.a_levels.length [])), [])).1) k := by
      rw [hshape3]
      rfl
    have e2 : sNodeAt ((((update_a_mutex (add_action_level st pa st.a_levels.length) ((add_action_level st pa st.a_levels.length).a_levels.getD st.a_levels.length [])).a_levels.getD (st.a_levels.length + 1 - 1) []).foldl literalStep ((update_a_mutex (add_action_level st pa st.a_levels.length) ((add_action_level st pa st.a_levels.length).a_levels.getD st.a_levels.length [])), [])).2.foldl (parentStep ((update_a_mutex (add_action_level st pa st.a_levels.length) ((add_action_level st pa st.a_levels.length).a_levels.getD st.a_levels.length [])).a_levels.getD (st.a_levels.length + 1 - 1) [])) (((update_a_mutex (add_action_level st pa st.a_levels.length) ((add_action_level st pa st.a_levels.length).a_levels.getD st.a_levels.length [])).a_levels.getD (st.a_levels.length + 1 - 1) []).foldl literalStep ((update_a_mutex (add_action_level st pa st.a_levels.length) ((add_action_level st pa st.a_levels.length).a_levels.getD st.a_levels.length [])), [])).1) k = sNodeAt (((update_a_mutex (add_action_level st pa st.a_levels.length) ((add_action_level st pa st.a_levels.length).a_levels.getD st.a_levels.length [])).a_levels.getD (st.a_levels.length + 1 - 1) []).foldl literalStep ((update_a_mutex (add_action_level st pa st.a_levels.length) ((add_action_level st pa st.a_levels.length).a_levels.getD st.a_levels.length [])), [])).1 k :=
      sNodeAt_parent_fold_other fun nid hnid heq =>
        Nat.lt_irrefl n0 (Nat.lt_of_le_of_lt (hr2hi nid hnid) (heq ▸ hk))
    have e3 : sNodeAt (((update_a_mutex (add_action_level st pa st.a_levels.length) ((add_action_level st pa st.a_levels.length).a_levels.getD st.a_levels.length [])).a_levels.getD (st.a_levels.length + 1 - 1) []).foldl literalStep ((update_a_mutex (add_action_level st pa st.a_levels.length) ((add_action_level st pa st.a_levels.length).a_levels.getD st.a_levels.length [])), [])).1 k = sNodeAt (update_a_mutex (add_action_level st pa st.a_levels.length) ((add_action_level st pa st.a_levels.length).a_levels.getD st.a_levels.length [])) k := by
      unfold sNodeAt
      rw [f1.1]
    exact (e1.trans e2).trans e3
  obtain ⟨c1, c2, c3, c4, c5, c6, newl, c7, c8, c9, c10⟩ :=
    @add_literal_level_spec (update_a_mutex (add_action_level st pa st.a_levels.length) ((add_action_level st pa st.a_levels.length).a_levels.getD st.a_levels.length [])) (st.a_levels.length + 1) b1
  have hlen2 : (update_a_mutex (add_action_level st pa st.a_levels.length) ((add_action_level st pa st.a_levels.length).a_levels.getD st.a_levels.length [])).s_levels.length = st.a_levels.length + 1 := by
    rw [b5, a3]
    exact hr.len
  have h3 : L0 n0 st0 (add_literal_level (update_a_mutex (add_action_level st pa st.a_levels.length) ((add_action_level st pa st.a_levels.length).a_levels.getD st.a_levels.length [])) (st.a_levels.length + 1)) := by
    refine ⟨?_, fun k hk => (hkeep3 k hk).trans (h2.keep k hk), ?_, ?_, ?_⟩
    · rw [c5]
      exact h2.nlen
    · rw [c7, getD_snoc_lt (by rw [hlen2]; omega)]
      exact h2.lvl0
    · intro lv h1lv id hid
      rw [c7] at hid
      rcases Nat.lt_trichotomy lv (update_a_mutex (add_action_level st pa st.a_levels.length) ((add_action_level st pa st.a_levels.length).a_levels.getD st.a_levels.length [])).s_levels.length with hc | hc | hc
      · rw [getD_snoc_lt hc] at hid
        exact h2.hi lv h1lv id hid
      · rw [hc, getD_snoc_self] at hid
        rcases c9 id hid with ⟨a, ha, hh⟩
        exact h2.aeffhi (aNodeAt (update_a_mutex (add_action_level st pa st.a_levels.length) ((add_action_level st pa st.a_levels.length).a_levels.getD st.a_levels.length [])) a) (hlvlvalid a ha) id hh
      · rw [getD_snoc_gt hc] at hid
        exact absurd hid (List.not_mem_nil id)
    · intro n hn e he
      have hn2 : n ∈ ((((update_a_mutex (add_action_level st pa st.a_levels.length) ((add_action_level st pa st.a_levels.length).a_levels.getD st.a_levels.length [])).a_levels.getD (st.a_levels.length + 1 - 1) []).foldl literalStep ((update_a_mutex (add_action_level st pa st.a_levels.length) ((add_action_level st pa st.a_levels.length).a_levels.getD st.a_levels.length [])), [])).2.foldl (parentStep ((update_a_mutex (add_action_level st pa st.a_levels.length) ((add_action_level st pa st.a_levels.length).a_levels.getD st.a_levels.length [])).a_levels.getD (st.a_levels.length + 1 - 1) [])) (((update_a_mutex (add_action_level st pa st.a_levels.length) ((add_action_level st pa st.a_levels.length).a_levels.getD st.a_levels.length [])).a_levels.getD (st.a_levels.length + 1 - 1) []).foldl literalStep ((update_a_mutex (add_action_level st pa st.a_levels.length) ((add_action_level st pa st.a_levels.length).a_levels.getD st.a_levels.length [])), [])).1).anodes := by
        rw [hshape3] at hn
        exact hn
      rw [hspar.1] at hn2
      obtain ⟨k, hk, rfl⟩ := mem_anodes_index hn2
      have hk2 : k < (update_a_mutex (add_action_level st pa st.a_levels.length) ((add_action_level st pa st.a_levels.length).a_levels.getD st.a_levels.length [])).anodes.length := by
        rw [← f1.2.1]
        exact hk
      have heff : (aNodeAt (((update_a_mutex (add_action_level st pa st.a_levels.length) ((add_action_level st pa st.a_levels.length).a_levels.getD st.a_levels.length [])).a_levels.getD (st.a_levels.length + 1 - 1) []).foldl literalStep ((update_a_mutex (add_action_level st pa st.a_levels.length) ((add_action_level st pa st.a_levels.length).a_levels.getD st.a_levels.length [])), [])).1 k).effnodes = (aNodeAt (update_a_mutex (add_action_level st pa st.a_levels.length) ((add_action_level st pa st.a_levels.length).a_levels.getD st.a_levels.length [])) k).effnodes :=
        (f1.2.2.2.2.2 k).2.2.1
      rw [heff] at he
      exact h2.aeffhi (aNodeAt (update_a_mutex (add_action_level st pa st.a_levels.length) ((add_action_level st pa st.a_levels.length).a_levels.getD st.a_levels.length [])) k) (aNodeAt_mem hk2) e he
  have hsrow : ((add_literal_level (update_a_mutex (add_action_level st pa st.a_levels.length) ((add_action_level st pa st.a_levels.length).a_levels.getD st.a_levels.length [])) (st.a_levels.length + 1)).s_levels.getD (st.a_levels.length + 1) []) = newl := by
    rw [c7, ← hlen2]
    exact getD_snoc_self
  show L0 n0 st0 (update_s_mutex (add_literal_level (update_a_mutex (add_action_level st pa st.a_levels.length) ((add_action_level st pa st.a_levels.length).a_levels.getD st.a_levels.length [])) (st.a_levels.length + 1)) ((add_literal_level (update_a_mutex (add_action_level st pa st.a_levels.length) ((add_action_level st pa st.a_levels.length).a_levels.getD st.a_levels.length [])) (st.a_levels.length + 1)).s_levels.getD (st.a_levels.length + 1) []))
  obtain ⟨d1, d2, d3, d4, d5, d6, d7⟩ := @update_s_mutex_spec ((add_literal_level (update_a_mutex (add_action_level st pa st.a_levels.length) ((add_action_level st pa st.a_levels.length).a_levels.getD st.a_levels.length [])) (st.a_levels.length + 1)).s_levels.getD (st.a_levels.length + 1) []) (add_literal_level (update_a_mutex (add_action_level st pa st.a_levels.length) ((add_action_level st pa st.a_levels.length).a_levels.getD st.a_levels.length [])) (st.a_levels.length + 1)) newl c1
    (by rw [c7]; exact List.mem_append_right _ (List.mem_singleton.mpr rfl))
    (by intro k hk; rw [hsrow] at hk; exact hk)
  refine ⟨?_, ?_, ?_, ?_, ?_⟩
  · rw [d4]
    exact h3.nlen
  · intro k hk
    refine Eq.trans ?_ (h3.keep k hk)
    refine sNodeAt_update_s_mutex_other ?_
    intro hmem
    rw [hsrow] at hmem
    have hge : n0 ≤ k := by
      refine h3.hi (st.a_levels.length + 1) (by omega) k ?_
      rw [hsrow]
      exact hmem
    omega
  · rw [d5]
    exact h3.lvl0
  · rw [d5]
    exact h3.hi
  · rw [d3]
    exact h3.aeffhi



/-- The S0 state trivially freezes its own prefix. -/
theorem l0_init {pos neg : List Nat} {serial : Bool} :
    L0 (init_graph pos neg serial).snodes.length (init_graph pos neg serial) (init_graph pos neg serial) := by
  refine ⟨Nat.le_refl _, fun k _ => rfl, rfl, ?_, ?_⟩
  · intro lv h1lv id hid
    rw [init_graph_spec.2.2.2.2.1] at hid
    rcases lv with _ | lv2
    · omega
    · have hnil : ([idsFrom 0 (init_graph pos neg serial).snodes.length] :
          List (List Nat)).getD (lv2 + 1) [] = [] := rfl
      rw [hnil] at hid
      exact absurd hid (List.not_mem_nil id)
  · rw [init_graph_spec.2.1]
    intro n hn
    exact absurd hn (List.not_mem_nil n)

/-- The layer-0 freeze survives the whole `while` loop. -/
theorem create_graph_l0 {pa : List PAction} (hndn : (pa.map PAction.name).Nodup) :
    ∀ {fuel : Nat} {st st2 st0 : GraphState} {n0 : Nat}, RInv st → L0 n0 st0 st →
      create_graph pa fuel st = some st2 → L0 n0 st0 st2 := by
  intro fuel
  induction fuel with
  | zero =>
    intro st st2 st0 n0 _ _ h
    exact absurd h (by simp [create_graph])
  | succ fuel ih =>
    intro st st2 st0 n0 hr hl h
    rw [create_graph_succ] at h
    by_cases hc : layerLitsEq (buildRound pa st) ((buildRound pa st).s_levels.length - 1)
        ((buildRound pa st).s_levels.length - 1 - 1) = true
    · rw [if_pos hc] at h
      cases h
      exact l0_buildRound hr hndn hl
    · rw [if_neg hc] at h
      exact ih (buildRound_spec hr hndn).1 (l0_buildRound hr hndn hl) h

/-- C9.  In every graph produced by `planning_graph`, fact layer 0 carries
exactly the decoded positive and negative start literals, one node per
distinct literal, and each of its nodes still has the empty parents, children
and mutex sets `PgNode.__init__` gave it. -/
theorem layer0_exact (pr : PProblem) (pos neg : List Nat) (serial : Bool)
    (fuel : Nat) (st : GraphState)
    (hnd : ((all_actions pr).map PAction.name).Nodup)
    (hrun : planning_graph pr pos neg serial fuel = some st) :
    (∀ l : Lit, l ∈ litsOf st (st.s_levels.getD 0 []) ↔
      (∃ f ∈ pos, l = ⟨f, true⟩) ∨ ∃ f ∈ neg, l = ⟨f, false⟩) ∧
      (litsOf st (st.s_levels.getD 0 [])).Nodup ∧
      ∀ id ∈ st.s_levels.getD 0 [],
        (sNodeAt st id).parents = [] ∧ (sNodeAt st id).children = [] ∧
          (sNodeAt st id).mutex = [] := by
  have hl0 : L0 (init_graph pos neg serial).snodes.length (init_graph pos neg serial) st :=
    create_graph_l0 hnd init_graph_spec.1 l0_init hrun
  have hlvl : st.s_levels.getD 0 [] = idsFrom 0 (init_graph pos neg serial).snodes.length := by
    rw [hl0.lvl0, init_graph_spec.2.2.2.2.1]
    rfl
  have hidlt : ∀ id ∈ st.s_levels.getD 0 [], id < (init_graph pos neg serial).snodes.length := by
    intro id hid
    rw [hlvl] at hid
    have := idsFrom_mem.mp hid
    omega
  have hnode : ∀ id ∈ st.s_levels.getD 0 [], sNodeAt st id = sNodeAt (init_graph pos neg serial) id :=
    fun id hid => hl0.keep id (hidlt id hid)
  have hlits : litsOf st (st.s_levels.getD 0 []) =
      litsOf (init_graph pos neg serial) (idsFrom 0 (init_graph pos neg serial).snodes.length) := by
    rw [hlvl]
    refine List.map_congr_left fun id hid => ?_
    show (⟨(sNodeAt st id).symbol, (sNodeAt st id).is_pos⟩ : Lit) = _
    rw [hnode id (by rw [hlvl]; exact hid)]
    rfl
  refine ⟨?_, ?_, ?_⟩
  · intro l
    rw [hlits]
    exact init_graph_spec.2.2.2.2.2.2.2 l
  · rw [hlits]
    exact init_graph_spec.2.2.2.2.2.2.1
  · intro id hid
    rw [hnode id hid]
    exact init_graph_spec.2.2.2.2.2.1 (sNodeAt (init_graph pos neg serial) id)
      (sNodeAt_mem (hidlt id hid))

theorem layer0_exact_witness :
    (sNodeAt trivGraph 0).parents = [] ∧ (sNodeAt trivGraph 0).children = [] ∧
      (sNodeAt trivGraph 0).mutex = [] ∧
      (⟨0, true⟩ : Lit) ∈ litsOf trivGraph (trivGraph.s_levels.getD 0 []) := by
  have h := layer0_exact trivProblem [0] [] true 2 trivGraph (by decide) rfl
  exact ⟨(h.2.2 0 (by decide)).1, (h.2.2 0 (by decide)).2.1,
    (h.2.2 0 (by decide)).2.2, (h.1 ⟨0, true⟩).mpr (Or.inl ⟨0, by decide, rfl⟩)⟩


/-- Universe membership is symbol membership. -/
theorem mem_litUniverse {sm : List Nat} {l : Lit} :
    l ∈ litUniverse sm ↔ l.symbol ∈ sm := by
  unfold litUniverse
  rw [mem_dedupLits, List.mem_append]
  constructor
  · rintro (h | h) <;>
    · obtain ⟨f, hf, rfl⟩ := List.mem_map.mp h
      exact hf
  · intro h
    cases hb : l.is_pos
    · refine Or.inr (List.mem_map.mpr ⟨l.symbol, h, ?_⟩)
      show (⟨l.symbol, false⟩ : Lit) = l
      rw [← hb]
    · refine Or.inl (List.mem_map.mpr ⟨l.symbol, h, ?_⟩)
      show (⟨l.symbol, true⟩ : Lit) = l
      rw [← hb]

/-- An effect literal is an add-effect fluent positively or a delete-effect
fluent negatively. -/
theorem mem_effLits_cases {a : PAction} {l : Lit} (h : l ∈ effLits a) :
    (l.is_pos = true ∧ l.symbol ∈ a.effect_add) ∨
      (l.is_pos = false ∧ l.symbol ∈ a.effect_rem) := by
  unfold effLits at h
  rw [mem_dedupLits, List.mem_append] at h
  rcases h with h | h
  · obtain ⟨f, hf, rfl⟩ := List.mem_map.mp h
    exact Or.inl ⟨rfl, hf⟩
  · obtain ⟨f, hf, rfl⟩ := List.mem_map.mp h
    exact Or.inr ⟨rfl, hf⟩

/-- Membership characterization of the generated no-op actions. -/
theorem mem_noop_actions {sm : List Nat} {a : PAction} :
    a ∈ noop_actions sm ↔ ∃ f ∈ sm,
      a = ⟨.noopPos f, [f], [], [f], []⟩ ∨ a = ⟨.noopNeg f, [], [f], [], [f]⟩ := by
  unfold noop_actions
  induction sm with
  | nil => simp
  | cons f sm ih =>
    rw [List.foldr_cons]
    simp only [List.mem_cons, ih, List.mem_cons]
    constructor
    · rintro (rfl | rfl | ⟨g, hg, h⟩)
      · exact ⟨f, Or.inl rfl, Or.inl rfl⟩
      · exact ⟨f, Or.inl rfl, Or.inr rfl⟩
      · exact ⟨g, Or.inr hg, h⟩
    · rintro ⟨g, rfl | hg, h⟩
      · rcases h with rfl | rfl
        · exact Or.inl rfl
        · exact Or.inr (Or.inl rfl)
      · exact Or.inr (Or.inr ⟨g, hg, h⟩)

/-- The precondition literal set of a positive no-op. -/
theorem preLits_noopPos {f : Nat} :
    preLits ⟨.noopPos f, [f], [], [f], []⟩ = [⟨f, true⟩] := by
  simp [preLits, posLits, negLits, dedupLits, insertLit]

/-- The effect literal set of a positive no-op. -/
theorem effLits_noopPos {f : Nat} :
    effLits ⟨.noopPos f, [f], [], [f], []⟩ = [⟨f, true⟩] := by
  simp [effLits, posLits, negLits, dedupLits, insertLit]

/-- The precondition literal set of a negative no-op. -/
theorem preLits_noopNeg {f : Nat} :
    preLits ⟨.noopNeg f, [], [f], [], [f]⟩ = [⟨f, false⟩] := by
  simp [preLits, posLits, negLits, dedupLits, insertLit]

/-- The effect literal set of a negative no-op. -/
theorem effLits_noopNeg {f : Nat} :
    effLits ⟨.noopNeg f, [], [f], [], [f]⟩ = [⟨f, false⟩] := by
  simp [effLits, posLits, negLits, dedupLits, insertLit]

/-- With the no-ops of every fluent of `sm` in the catalog, a layer whose
literals live over `sm` is contained in its value-level successor layer. -/
theorem nextLits_mono_noops {pa : List PAction} {sm : List Nat} {L : List Lit}
    (hnoop : ∀ f ∈ sm, (⟨.noopPos f, [f], [], [f], []⟩ : PAction) ∈ pa ∧
      (⟨.noopNeg f, [], [f], [], [f]⟩ : PAction) ∈ pa)
    (hsub : ∀ l ∈ L, l.symbol ∈ sm) :
    ∀ l ∈ L, l ∈ nextLits pa L := by
  intro l hl
  have hsm := hsub l hl
  obtain ⟨s, b⟩ := l
  cases b
  · refine mem_nextLits.mpr ⟨⟨.noopNeg s, [], [s], [], [s]⟩, (hnoop s hsm).2, ?_, ?_⟩
    · show litSetSub (preLits ⟨.noopNeg s, [], [s], [], [s]⟩) L = true
      rw [preLits_noopNeg]
      refine litSetSub_iff.mpr ?_
      intro x hx
      rw [List.mem_singleton] at hx
      subst hx
      exact hl
    · rw [effLits_noopNeg]
      exact List.mem_singleton.mpr rfl
  · refine mem_nextLits.mpr ⟨⟨.noopPos s, [s], [], [s], []⟩, (hnoop s hsm).1, ?_, ?_⟩
    · show litSetSub (preLits ⟨.noopPos s, [s], [], [s], []⟩) L = true
      rw [preLits_noopPos]
      refine litSetSub_iff.mpr ?_
      intro x hx
      rw [List.mem_singleton] at hx
      subst hx
      exact hl
    · rw [effLits_noopPos]
      exact List.mem_singleton.mpr rfl

/-- With every catalog effect fluent in `sm`, successor-layer literals live
over `sm`. -/
theorem nextLits_in_universe {pa : List PAction} {sm : List Nat} {L : List Lit}
    (heff : ∀ a ∈ pa, (∀ f ∈ a.effect_add, f ∈ sm) ∧ ∀ f ∈ a.effect_rem, f ∈ sm) :
    ∀ l ∈ nextLits pa L, l.symbol ∈ sm := by
  intro l hl
  obtain ⟨a, ha, _, hla⟩ := mem_nextLits.mp hl
  rcases mem_effLits_cases hla with ⟨_, h⟩ | ⟨_, h⟩
  · exact (heff a ha).1 _ h
  · exact (heff a ha).2 _ h


/-- Python set equality of literal lists is toFinset equality. -/
theorem litSetEq_iff_toFinset {xs ys : List Lit} :
    litSetEq xs ys = true ↔ xs.toFinset = ys.toFinset := by
  rw [litSetEq_iff]
  constructor
  · rintro ⟨h1, h2⟩
    refine Finset.Subset.antisymm ?_ ?_ <;> intro x hx <;>
      rw [List.mem_toFinset] at hx ⊢
    · exact h1 x hx
    · exact h2 x hx
  · intro h
    constructor <;> intro l hl
    · rw [← List.mem_toFinset, h, List.mem_toFinset] at hl
      exact hl
    · rw [← List.mem_toFinset, ← h, List.mem_toFinset] at hl
      exact hl

/-- The `while` loop of `create_graph` terminates and levels at the first
repeat, with the last-layer literal cardinality strictly increasing until
then. -/
theorem create_graph_term {pa : List PAction} {sm : List Nat}
    (hndn : (pa.map PAction.name).Nodup)
    (hnoop : ∀ f ∈ sm, (⟨.noopPos f, [f], [], [f], []⟩ : PAction) ∈ pa ∧
      (⟨.noopNeg f, [], [f], [], [f]⟩ : PAction) ∈ pa)
    (heff : ∀ a ∈ pa, (∀ f ∈ a.effect_add, f ∈ sm) ∧ ∀ f ∈ a.effect_rem, f ∈ sm) :
    ∀ fuel : Nat, ∀ st : GraphState, RInv st →
      (∀ l ∈ litsOf st (st.s_levels.getD (st.s_levels.length - 1) []), l.symbol ∈ sm) →
      (∀ k, k + 1 < st.s_levels.length → layerLitsEq st (k + 1) k = false) →
      (litUniverse sm).toFinset.card + 1 ≤ fuel +
        (litsOf st (st.s_levels.getD (st.s_levels.length - 1) [])).toFinset.card →
      ∃ st2, create_graph pa fuel st = some st2 ∧
        st2.s_levels.length +
            (litsOf st (st.s_levels.getD (st.s_levels.length - 1) [])).toFinset.card ≤
          st.s_levels.length + 1 +
            (litsOf st2 (st2.s_levels.getD (st2.s_levels.length - 1) [])).toFinset.card ∧
        (∀ l ∈ litsOf st2 (st2.s_levels.getD (st2.s_levels.length - 1) []),
          l.symbol ∈ sm) ∧
        (∀ k, k + 1 < st2.s_levels.length - 1 → layerLitsEq st2 (k + 1) k = false) ∧
        layerLitsEq st2 (st2.s_levels.length - 1) (st2.s_levels.length - 1 - 1) = true := by
  intro fuel
  induction fuel with
  | zero =>
    intro st hr hsub hAD hfuel
    exfalso
    have hsubU : (litsOf st (st.s_levels.getD (st.s_levels.length - 1) [])).toFinset ⊆
        (litUniverse sm).toFinset := by
      intro x hx
      rw [List.mem_toFinset] at hx ⊢
      exact mem_litUniverse.mpr (hsub x hx)
    have := Finset.card_le_card hsubU
    omega
  | succ fuel ih =>
    intro st hr hsub hAD hfuel
    obtain ⟨hr4, hs4, halen4, newl, hslev4, hchar⟩ := buildRound_spec hr hndn
    have hlen1 : 1 ≤ st.s_levels.length := by
      have := hr.len
      omega
    have hidx : st.s_levels.length - 1 = st.a_levels.length := by
      have := hr.len
      omega
    have hlen4 : (buildRound pa st).s_levels.length = st.s_levels.length + 1 := by
      rw [hslev4]
      simp
    have hlast4idx : (buildRound pa st).s_levels.length - 1 = st.s_levels.length := by
      omega
    have hlast4 : (buildRound pa st).s_levels.getD
        ((buildRound pa st).s_levels.length - 1) [] = newl := by
      rw [hlast4idx, hslev4]
      exact getD_snoc_self
    have hcharL : ∀ l : Lit, l ∈ litsOf (buildRound pa st) newl ↔
        l ∈ nextLits pa (litsOf st (st.s_levels.getD (st.s_levels.length - 1) [])) := by
      intro l
      rw [hidx]
      exact hchar l
    have hsub4 : ∀ l ∈ litsOf (buildRound pa st) ((buildRound pa st).s_levels.getD
        ((buildRound pa st).s_levels.length - 1) []), l.symbol ∈ sm := by
      intro l hl
      rw [hlast4] at hl
      exact nextLits_in_universe heff l ((hcharL l).mp hl)
    have hmonoFin : (litsOf st (st.s_levels.getD (st.s_levels.length - 1) [])).toFinset ⊆
        (litsOf (buildRound pa st) newl).toFinset := by
      intro x hx
      rw [List.mem_toFinset] at hx ⊢
      exact (hcharL x).mpr (nextLits_mono_noops hnoop hsub x hx)
    have hstab : ∀ k, k < st.s_levels.length →
        litsOf (buildRound pa st) ((buildRound pa st).s_levels.getD k []) =
          litsOf st (st.s_levels.getD k []) := by
      intro k hk
      rw [hslev4, getD_snoc_lt hk]
      exact List.map_congr_left fun id hid => hs4.slit id (slev_getD hr.inv id hid)
    have hADstable : ∀ k, k + 1 < st.s_levels.length →
        layerLitsEq (buildRound pa st) (k + 1) k = layerLitsEq st (k + 1) k := by
      intro k hk
      unfold layerLitsEq
      rw [hstab (k + 1) hk, hstab k (by omega)]
    have hcondeq : layerLitsEq (buildRound pa st) ((buildRound pa st).s_levels.length - 1)
        ((buildRound pa st).s_levels.length - 1 - 1) =
        litSetEq (litsOf (buildRound pa st) newl)
          (litsOf st (st.s_levels.getD (st.s_levels.length - 1) [])) := by
      unfold layerLitsEq
      rw [hlast4, hlast4idx, hstab (st.s_levels.length - 1) (by omega)]
    by_cases hc : layerLitsEq (buildRound pa st) ((buildRound pa st).s_levels.length - 1)
        ((buildRound pa st).s_levels.length - 1 - 1) = true
    · rw [create_graph_succ, if_pos hc]
      refine ⟨buildRound pa st, rfl, ?_, hsub4, ?_, hc⟩
      · rw [hlast4, hlen4]
        have := Finset.card_le_card hmonoFin
        omega
      · intro k hk
        rw [hlen4] at hk
        rw [hADstable k (by omega)]
        exact hAD k (by omega)
    · rw [create_graph_succ, if_neg hc]
      have hne : litSetEq (litsOf (buildRound pa st) newl)
          (litsOf st (st.s_levels.getD (st.s_levels.length - 1) [])) = false := by
        rw [← hcondeq]
        exact Bool.eq_false_iff.mpr hc
      have hss : (litsOf st (st.s_levels.getD (st.s_levels.length - 1) [])).toFinset ⊂
          (litsOf (buildRound pa st) newl).toFinset := by
        refine Finset.ssubset_iff_subset_ne.mpr ⟨hmonoFin, ?_⟩
        intro h
        have h2 : litSetEq (litsOf (buildRound pa st) newl)
            (litsOf st (st.s_levels.getD (st.s_levels.length - 1) [])) = true :=
          litSetEq_iff_toFinset.mpr h.symm
        rw [hne] at h2
        exact Bool.noConfusion h2
      have hlt := Finset.card_lt_card hss
      have hAD4 : ∀ k, k + 1 < (buildRound pa st).s_levels.length →
          layerLitsEq (buildRound pa st) (k + 1) k = false := by
        intro k hk
        rw [hlen4] at hk
        rcases Nat.lt_or_ge (k + 1) st.s_levels.length with h2 | h2
        · rw [hADstable k h2]
          exact hAD k h2
        · have hkeq : k + 1 = st.s_levels.length := by omega
          have : (buildRound pa st).s_levels.length - 1 = k + 1 := by omega
          have h3 : (buildRound pa st).s_levels.length - 1 - 1 = k := by omega
          rw [← this, ← h3]
          exact Bool.eq_false_iff.mpr hc
      have hfuel4 : (litUniverse sm).toFinset.card + 1 ≤ fuel +
          (litsOf (buildRound pa st) ((buildRound pa st).s_levels.getD
            ((buildRound pa st).s_levels.length - 1) [])).toFinset.card := by
        rw [hlast4]
        omega
      obtain ⟨st2, hrun2, hcount2, hsub2, hAD2, hlevel2⟩ :=
        ih (buildRound pa st) hr4 hsub4 hAD4 hfuel4
      refine ⟨st2, hrun2, ?_, hsub2, hAD2, hlevel2⟩
      rw [hlast4, hlen4] at hcount2
      omega


/-- C4 (amended).  For any start state over the fluent table (nonempty, with
all action effects inside the table, and distinct catalog names), construction
terminates within a fuel equal to the number of distinct literals: the builder
reaches two consecutive fact layers with identical literal sets, stops at the
first such repeat (all earlier adjacent pairs differ), and the number of fact
layers is bounded by the number of distinct literals plus one. -/
theorem construction_terminates_bounded (pr : PProblem) (pos neg : List Nat)
    (serial : Bool)
    (hnd : ((all_actions pr).map PAction.name).Nodup)
    (hpos : ∀ f ∈ pos, f ∈ pr.state_map) (hneg : ∀ f ∈ neg, f ∈ pr.state_map)
    (heff : ∀ a ∈ pr.actions_list, (∀ f ∈ a.effect_add, f ∈ pr.state_map) ∧
      ∀ f ∈ a.effect_rem, f ∈ pr.state_map)
    (hne : pos ≠ [] ∨ neg ≠ []) :
    ∃ st, planning_graph pr pos neg serial
        (litUniverse pr.state_map).toFinset.card = some st ∧
      st.s_levels.length ≤ (litUniverse pr.state_map).toFinset.card + 1 ∧
      (∀ k, k + 1 < st.s_levels.length - 1 → layerLitsEq st (k + 1) k = false) ∧
      layerLitsEq st (st.s_levels.length - 1) (st.s_levels.length - 1 - 1) = true := by
  have hnoop : ∀ f ∈ pr.state_map,
      (⟨.noopPos f, [f], [], [f], []⟩ : PAction) ∈ all_actions pr ∧
        (⟨.noopNeg f, [], [f], [], [f]⟩ : PAction) ∈ all_actions pr := by
    intro f hf
    constructor <;> refine List.mem_append_right _ (mem_noop_actions.mpr ⟨f, hf, ?_⟩)
    · exact Or.inl rfl
    · exact Or.inr rfl
  have heffall : ∀ a ∈ all_actions pr, (∀ f ∈ a.effect_add, f ∈ pr.state_map) ∧
      ∀ f ∈ a.effect_rem, f ∈ pr.state_map := by
    intro a ha
    rcases List.mem_append.mp ha with ha | ha
    · exact heff a ha
    · obtain ⟨f, hf, rfl | rfl⟩ := mem_noop_actions.mp ha
      · constructor
        · intro g hg
          rw [List.mem_singleton] at hg
          subst hg
          exact hf
        · intro g hg
          exact absurd hg (List.not_mem_nil g)
      · constructor
        · intro g hg
          exact absurd hg (List.not_mem_nil g)
        · intro g hg
          rw [List.mem_singleton] at hg
          subst hg
          exact hf
  have hlay0 : (init_graph pos neg serial).s_levels.getD ((init_graph pos neg serial).s_levels.length - 1) [] =
      idsFrom 0 (init_graph pos neg serial).snodes.length := by
    rw [init_graph_spec.2.2.2.2.1]
    rfl
  have hsub0 : ∀ l ∈ litsOf (init_graph pos neg serial)
      ((init_graph pos neg serial).s_levels.getD ((init_graph pos neg serial).s_levels.length - 1) []), l.symbol ∈ pr.state_map := by
    intro l hl
    rw [hlay0] at hl
    rcases (init_graph_spec.2.2.2.2.2.2.2 l).mp hl with ⟨f, hf, rfl⟩ | ⟨f, hf, rfl⟩
    · exact hpos f hf
    · exact hneg f hf
  have hlen0 : (init_graph pos neg serial).s_levels.length = 1 := by
    rw [init_graph_spec.2.2.2.2.1]
    rfl
  have hAD0 : ∀ k, k + 1 < (init_graph pos neg serial).s_levels.length →
      layerLitsEq (init_graph pos neg serial) (k + 1) k = false := by
    intro k hk
    rw [hlen0] at hk
    omega
  have hcard0 : 1 ≤ (litsOf (init_graph pos neg serial)
      ((init_graph pos neg serial).s_levels.getD ((init_graph pos neg serial).s_levels.length - 1) [])).toFinset.card := by
    refine Finset.card_pos.mpr ?_
    rcases hne with hne | hne
    · obtain ⟨f, hf⟩ := List.exists_mem_of_ne_nil pos hne
      refine ⟨⟨f, true⟩, List.mem_toFinset.mpr ?_⟩
      rw [hlay0]
      exact (init_graph_spec.2.2.2.2.2.2.2 _).mpr (Or.inl ⟨f, hf, rfl⟩)
    · obtain ⟨f, hf⟩ := List.exists_mem_of_ne_nil neg hne
      refine ⟨⟨f, false⟩, List.mem_toFinset.mpr ?_⟩
      rw [hlay0]
      exact (init_graph_spec.2.2.2.2.2.2.2 _).mpr (Or.inr ⟨f, hf, rfl⟩)
  obtain ⟨st2, hrun, hcount, hsubF, hADF, hlevF⟩ :=
    create_graph_term hnd hnoop heffall (litUniverse pr.state_map).toFinset.card
      (init_graph pos neg serial) init_graph_spec.1 hsub0 hAD0 (by omega)
  have hcardF : (litsOf st2 (st2.s_levels.getD (st2.s_levels.length - 1) [])).toFinset.card ≤
      (litUniverse pr.state_map).toFinset.card := by
    refine Finset.card_le_card ?_
    intro x hx
    rw [List.mem_toFinset] at hx ⊢
    exact mem_litUniverse.mpr (hsubF x hx)
  refine ⟨st2, hrun, ?_, hADF, hlevF⟩
  rw [hlen0] at hcount hcard0
  omega

theorem construction_terminates_bounded_witness :
    ∃ st, planning_graph prC2 [0] [] false
        (litUniverse prC2.state_map).toFinset.card = some st ∧
      st.s_levels.length ≤ (litUniverse prC2.state_map).toFinset.card + 1 ∧
      (∀ k, k + 1 < st.s_levels.length - 1 → layerLitsEq st (k + 1) k = false) ∧
      layerLitsEq st (st.s_levels.length - 1) (st.s_levels.length - 1 - 1) = true :=
  construction_terminates_bounded prC2 [0] [] false (by decide) (by decide)
    (by decide) (by decide) (Or.inl (by decide))

/-- The spec's original bound fails on the prC2 run: only 2 distinct literals
exist (in the universe and in the graph), yet the leveled graph has 3 fact
layers. -/
theorem layer_count_exceeds_distinct_literals_cex :
    planning_graph prC2 [0] [] false 2 = some c2d2 ∧
      (litUniverse prC2.state_map).toFinset.card = 2 ∧
      (dedupLits (litsOf c2d2 (c2d2.s_levels.getD 0 []) ++
        litsOf c2d2 (c2d2.s_levels.getD 1 []) ++
        litsOf c2d2 (c2d2.s_levels.getD 2 []))).length = 2 ∧
      c2d2.s_levels.length = 3 :=
  ⟨c2_run, by decide, by decide, by decide⟩

end PlanningModel
